import Mathlib

/-!
# Payee domain: value objects, pix keys and the payee aggregate

A shallow embedding of the Go package `internal/domain` and the properties its
specification states about it.

Conventions of the embedding

* A Go `string` is a Lean `String` (a sequence of Unicode code points, that is a
  well-formed UTF-8 string); `len` counts the bytes of its UTF-8 encoding and
  `for _, r := range s` visits `s.data`.
  The callers of `keepOnlyNumbers` pass it strings that matched an ASCII pattern; the
  section on bytes embeds it a second time on sequences of bytes (`keepOnlyNumbersBytes`)
  and relates the two embeddings.
* A Go result `(T, error)` is a pair `T × Option GoError`; `none` is the `nil` error.
  The first component is kept also when the error is not `nil`, as in Go.
* An interface (`Document`, `PixKey`) is an inductive type with one constructor per
  dynamic type of the package and one for the `nil` interface value.
* A method with a pointer receiver that assigns to fields takes the record and
  returns the new record.
* `slog.Warn` appends a record to an explicit log; `uuid.NewString()` is an argument.
* A pattern `^body$` is embedded as the regular expression `body`, matched against
  the whole string.
-/

namespace Domain

/-! ## Go runtime and standard library -/

/-- The builtin `len` on a string: the number of bytes of its UTF-8 encoding. -/
def len (s : String) : Nat := (s.data.map Char.utf8Size).sum

/-- Membership of a code point in a table of inclusive ranges (a `unicode.RangeTable`
whose strides are all 1). -/
def inRangeTable (table : List (Nat × Nat)) (r : Nat) : Bool :=
  table.any (fun lohi => decide (lohi.1 ≤ r ∧ r ≤ lohi.2))

/-- The table `unicode.Nd` (decimal digits) above Latin-1, as of Unicode 15.0. The table
follows the Unicode version of the toolchain; `unicodeIsDigitIn` takes it as an argument. -/
def unicodeNd : List (Nat × Nat) :=
  [(0x660, 0x669), (0x6f0, 0x6f9), (0x7c0, 0x7c9), (0x966, 0x96f), (0x9e6, 0x9ef),
   (0xa66, 0xa6f), (0xae6, 0xaef), (0xb66, 0xb6f), (0xbe6, 0xbef), (0xc66, 0xc6f),
   (0xce6, 0xcef), (0xd66, 0xd6f), (0xde6, 0xdef), (0xe50, 0xe59), (0xed0, 0xed9),
   (0xf20, 0xf29), (0x1040, 0x1049), (0x1090, 0x1099), (0x17e0, 0x17e9), (0x1810, 0x1819),
   (0x1946, 0x194f), (0x19d0, 0x19d9), (0x1a80, 0x1a89), (0x1a90, 0x1a99), (0x1b50, 0x1b59),
   (0x1bb0, 0x1bb9), (0x1c40, 0x1c49), (0x1c50, 0x1c59), (0xa620, 0xa629), (0xa8d0, 0xa8d9),
   (0xa900, 0xa909), (0xa9d0, 0xa9d9), (0xa9f0, 0xa9f9), (0xaa50, 0xaa59), (0xabf0, 0xabf9),
   (0xff10, 0xff19), (0x104a0, 0x104a9), (0x10d30, 0x10d39), (0x11066, 0x1106f),
   (0x110f0, 0x110f9), (0x11136, 0x1113f), (0x111d0, 0x111d9), (0x112f0, 0x112f9),
   (0x11450, 0x11459), (0x114d0, 0x114d9), (0x11650, 0x11659), (0x116c0, 0x116c9),
   (0x11730, 0x11739), (0x118e0, 0x118e9), (0x11950, 0x11959), (0x11c50, 0x11c59),
   (0x11d50, 0x11d59), (0x11da0, 0x11da9), (0x11f50, 0x11f59), (0x16a60, 0x16a69),
   (0x16ac0, 0x16ac9), (0x16b50, 0x16b59), (0x1d7ce, 0x1d7ff), (0x1e140, 0x1e149),
   (0x1e2f0, 0x1e2f9), (0x1e4f0, 0x1e4f9), (0x1e950, 0x1e959), (0x1fbf0, 0x1fbf9)]

/-- The function `unicode.IsDigit`: on Latin-1 the ASCII digits, above it the table `Nd`. -/
def unicodeIsDigit (r : Char) : Bool :=
  if r.toNat ≤ 0xFF then decide (0x30 ≤ r.toNat ∧ r.toNat ≤ 0x39)
  else inRangeTable unicodeNd r.toNat

/-- The function `unicode.IsDigit` of a toolchain whose table `unicode.Nd` above Latin-1 is
`nd`: the table grows with the Unicode version, the test on Latin-1 does not. -/
def unicodeIsDigitIn (nd : List (Nat × Nat)) (r : Char) : Bool :=
  if r.toNat ≤ 0xFF then decide (0x30 ≤ r.toNat ∧ r.toNat ≤ 0x39)
  else inRangeTable nd r.toNat

/-- The table `unicode.White_Space` above Latin-1. -/
def unicodeWhiteSpace : List (Nat × Nat) :=
  [(0x1680, 0x1680), (0x2000, 0x200a), (0x2028, 0x2029), (0x202f, 0x202f),
   (0x205f, 0x205f), (0x3000, 0x3000)]

/-- The function `unicode.IsSpace`: on Latin-1 the characters
`\t \n \v \f \r`, space, U+0085 and U+00A0, above it the table `White_Space`. -/
def unicodeIsSpace (r : Char) : Bool :=
  if r.toNat ≤ 0xFF then
    decide (r.toNat = 0x09 ∨ r.toNat = 0x0A ∨ r.toNat = 0x0B ∨ r.toNat = 0x0C ∨ r.toNat = 0x0D
      ∨ r.toNat = 0x20 ∨ r.toNat = 0x85 ∨ r.toNat = 0xA0)
  else inRangeTable unicodeWhiteSpace r.toNat

/-- The function `strings.TrimSpace`: the string without its leading and trailing white space. -/
def stringsTrimSpace (s : String) : String :=
  String.mk ((s.data.dropWhile unicodeIsSpace).reverse.dropWhile unicodeIsSpace).reverse

/-- The scan of `strings.Fields`: `cur` is the field being read. -/
def fieldsFrom : List Char → List Char → List String
  | [], cur => if cur = [] then [] else [String.mk cur]
  | c :: cs, cur =>
    if unicodeIsSpace c then
      if cur = [] then fieldsFrom cs [] else String.mk cur :: fieldsFrom cs []
    else fieldsFrom cs (cur ++ [c])

/-- The function `strings.Fields`: the maximal runs of characters that are not white space. -/
def stringsFields (s : String) : List String := fieldsFrom s.data []

/-- The function `strings.Join`. -/
def stringsJoin (elems : List String) (sep : String) : String :=
  match elems with
  | [] => ""
  | e :: es => es.foldl (fun acc x => acc ++ sep ++ x) e

/-- The scan of `strings.Split` for a non-empty separator: `cur` is the piece being read;
the fuel is the number of characters left. -/
def splitFrom (sep : List Char) : Nat → List Char → List Char → List String
  | 0, _, cur => [String.mk cur]
  | _ + 1, [], cur => [String.mk cur]
  | fuel + 1, c :: cs, cur =>
    if (c :: cs).take sep.length = sep then
      String.mk cur :: splitFrom sep fuel ((c :: cs).drop sep.length) []
    else splitFrom sep fuel cs (cur ++ [c])

/-- The function `strings.Split` for a non-empty separator (the only use in the package is
with `" "`). -/
def stringsSplit (s sep : String) : List String := splitFrom sep.data s.data.length s.data []

/-- The function `strings.ToLower` on the ASCII letters. The package applies it only to a
string that matched `ChaveAleatoriaRegex`, which is ASCII; the case table of the other
letters is not embedded and they are left as they are. -/
def stringsToLower (s : String) : String :=
  String.mk (s.data.map (fun c => if 'A' ≤ c ∧ c ≤ 'Z' then Char.ofNat (c.toNat + 32) else c))

/-- The call `strconv.Atoi(string(r))` for one rune `r`: the digit when `r` is an ASCII
digit; every other one-rune string (a sign alone, a letter, a non-ASCII digit) is an error. -/
def atoiRune (r : Char) : Option Nat :=
  if '0' ≤ r ∧ r ≤ '9' then some (r.toNat - '0'.toNat) else none

/-! ## Regular expressions

Package `regexp` patterns are embedded as `RegularExpression Char`; `rmatch` is the
derivative matcher, proved equivalent to the denoted language in Mathlib. -/

/-- A compiled pattern. -/
abbrev Regexp := RegularExpression Char

/-- A character class listing its members, such as `[0-9]` or `[\.]`. -/
def anyOf : List Char → Regexp
  | [] => 0
  | c :: cs => RegularExpression.char c + anyOf cs

/-- The postfix operator `?`. -/
def optional (r : Regexp) : Regexp := 1 + r

/-- The postfix operator `+`. -/
def oneOrMore (r : Regexp) : Regexp := r * r.star

/-- The class `[0-9]` (also `\d`, which is ASCII-only in RE2). -/
def reDigit : Regexp := anyOf "0123456789".data

/-- The method `MatchString` of a pattern anchored as `^body$`: the whole string is in
the language of `body`. -/
def MatchString (body : Regexp) (s : String) : Bool := body.rmatch s.data

/-! ## Errors -/

/-- The error values of the package: the sentinels made with `errors.New`, and the
wrapping error that `fmt.Errorf` makes with the verb `%w`. -/
inductive GoError where
  | ErrTemperedValue
  | ErrInvalidDocument
  | ErrInvalidCPF
  | ErrInvalidCNPJ
  | ErrInvalidEmail
  | ErrNameEmptyString
  | ErrNameLessThenTwoWords
  | ErrShortFirstName
  | ErrInvalidPixKeyType
  | ErrInvalidTelefone
  | ErrInvalidChaveAleatoria
  | wrapError (msg : String) (err : GoError)
  deriving DecidableEq, Repr

/-- The method `Error()`: the message. -/
def GoError.Error : GoError → String
  | .ErrTemperedValue => "tempered value"
  | .ErrInvalidDocument => "invalid document"
  | .ErrInvalidCPF => "invalid cpf number"
  | .ErrInvalidCNPJ => "invalid cnpj number"
  | .ErrInvalidEmail => "invalid email address format"
  | .ErrNameEmptyString => "name cannot be empty"
  | .ErrNameLessThenTwoWords => "name must contain at least two words"
  | .ErrShortFirstName => "first name must have at least two characters"
  | .ErrInvalidPixKeyType => "invalid pix key type"
  | .ErrInvalidTelefone => "invalid telefone"
  | .ErrInvalidChaveAleatoria => "invalid chave aleatoria"
  | .wrapError msg _ => msg

/-- The function `errors.Is`: `target` is `err` or is reached by unwrapping it. -/
def errorsIs : GoError → GoError → Bool
  | .wrapError msg inner, target =>
    decide (GoError.wrapError msg inner = target) || errorsIs inner target
  | err, target => decide (err = target)

/-- The call `fmt.Errorf("%w: %s", err, v)`. -/
def fmtErrorfWrap (err : GoError) (v : String) : GoError :=
  .wrapError (err.Error ++ ": " ++ v) err

/-! ## common.go -/

/-- The function `keepOnlyNumbers`: the builder receives the runes of the input that
`unicode.IsDigit` accepts, in order. -/
def keepOnlyNumbers (input : String) : String :=
  String.mk (input.data.foldl (fun builder r => if unicodeIsDigit r then builder ++ [r] else builder) [])

/-- The function `keepOnlyNumbers` under the table `nd` of `unicode.Nd`. -/
def keepOnlyNumbersIn (nd : List (Nat × Nat)) (input : String) : String :=
  String.mk (input.data.foldl
    (fun builder r => if unicodeIsDigitIn nd r then builder ++ [r] else builder) [])

/-! ## document.go -/

/-- The struct `CPF`. -/
structure CPF where
  value : String
  deriving DecidableEq, Repr

/-- The method `CPF.Value`. -/
def CPF.Value (c : CPF) : String := c.value

/-- Whether a character is matched by `[\d]`. -/
def isAsciiDigit (c : Char) : Bool := decide ('0' ≤ c ∧ c ≤ '9')

/-- The first `n` characters and the rest, when the list starts with `n` ASCII digits:
a match of `[\d]` repeated `n` times at the start of the input. -/
def takeDigits : Nat → List Char → Option (List Char × List Char)
  | 0, s => some ([], s)
  | _ + 1, [] => none
  | n + 1, c :: s =>
    if isAsciiDigit c then (takeDigits n s).map (fun dr => (c :: dr.1, dr.2)) else none

/-- The expansion of a template `$1 sep1 $2 sep2 ... $k` for capture groups of the given
sizes that split `digits`; `seps` are the literal characters between the groups. -/
def expandGroups : List Nat → List Char → List Char → List Char
  | [], _, _ => []
  | [_], _, digits => digits
  | n :: ns, [], digits => digits.take n ++ expandGroups ns [] (digits.drop n)
  | n :: ns, sep :: seps, digits => digits.take n ++ sep :: expandGroups ns seps (digits.drop n)

/-- The call `pattern.ReplaceAllString(src, template)` for an unanchored pattern that is a
sequence of groups `([\d]{n})` with at least one digit: scanning from the left, each
leftmost run of the total number of ASCII digits is replaced by the expansion and the scan
continues after it; every other character is copied. The fuel is the number of characters
left. -/
def replaceAllDigitGroups (groups : List Nat) (seps : List Char) : Nat → List Char → List Char
  | 0, s => s
  | _ + 1, [] => []
  | fuel + 1, c :: cs =>
    match takeDigits groups.sum (c :: cs) with
    | some (digits, rest) =>
      expandGroups groups seps digits ++ replaceAllDigitGroups groups seps fuel rest
    | none => c :: replaceAllDigitGroups groups seps fuel cs

/-- The method `CPF.String`: `cpfFormatPattern.ReplaceAllString(c.value, "$1.$2.$3-$4")`
with `cpfFormatPattern = ([\d]{3})([\d]{3})([\d]{3})([\d]{2})`. -/
def CPF.String (c : CPF) : String :=
  String.mk (replaceAllDigitGroups [3, 3, 3, 2] ['.', '.', '-'] c.value.data.length c.value.data)

/-- The zero value `EmptyCPF`. -/
def EmptyCPF : CPF := ⟨""⟩

/-- The pattern `CPFRegex = ^[0-9]{3}[\.]?[0-9]{3}[\.]?[0-9]{3}[-]?[0-9]{2}$`. -/
def CPFRegex : Regexp :=
  reDigit ^ 3 * optional (anyOf ['.']) * reDigit ^ 3 * optional (anyOf ['.']) * reDigit ^ 3
    * optional (anyOf ['-']) * reDigit ^ 2

/-- The function `cleanAndValidateCPF`. The array `cpfDigits` is the list of the digits
read; an index out of the list reads the zero of the array. -/
def cleanAndValidateCPF (documentNumber : String) : String × Option GoError :=
  if !MatchString CPFRegex documentNumber then ("", some .ErrInvalidCPF) else
  let documentNumber := keepOnlyNumbers documentNumber
  if len documentNumber ≠ 11 then ("", some .ErrInvalidCPF) else
  match documentNumber.data.mapM atoiRune with
  | none => ("", some .ErrInvalidCPF)
  | some cpfDigits =>
    let allSame := (List.range' 1 10).all (fun i => cpfDigits.getD i 0 == cpfDigits.getD (i - 1) 0)
    if allSame then ("", some .ErrInvalidCPF) else
    let sum := (List.range 9).foldl (fun sum i => sum + cpfDigits.getD i 0 * (10 - i)) 0
    let remainder := sum % 11
    let expectedDigit1 := 11 - remainder
    let expectedDigit1 := if expectedDigit1 = 10 ∨ expectedDigit1 = 11 then 0 else expectedDigit1
    if cpfDigits.getD 9 0 ≠ expectedDigit1 then ("", some .ErrInvalidCPF) else
    let sum := (List.range 10).foldl (fun sum i => sum + cpfDigits.getD i 0 * (11 - i)) 0
    let remainder := sum % 11
    let expectedDigit2 := 11 - remainder
    let expectedDigit2 := if expectedDigit2 = 10 ∨ expectedDigit2 = 11 then 0 else expectedDigit2
    if cpfDigits.getD 10 0 ≠ expectedDigit2 then ("", some .ErrInvalidCPF) else
    (documentNumber, none)

/-- The function `NewCPF`. -/
def NewCPF (v : String) : CPF × Option GoError :=
  match cleanAndValidateCPF v with
  | (_, some err) => (EmptyCPF, some err)
  | (cpf, none) => (⟨cpf⟩, none)

/-- The struct `CNPJ`. -/
structure CNPJ where
  value : String
  deriving DecidableEq, Repr

/-- The method `CNPJ.Value`. -/
def CNPJ.Value (c : CNPJ) : String := c.value

/-- The method `CNPJ.String`: `cnpjFormatPattern.ReplaceAllString(c.value, "$1.$2.$3/$4-$5")`
with `cnpjFormatPattern = ([\d]{2})([\d]{3})([\d]{3})([\d]{4})([\d]{2})`. -/
def CNPJ.String (c : CNPJ) : String :=
  String.mk (replaceAllDigitGroups [2, 3, 3, 4, 2] ['.', '.', '/', '-'] c.value.data.length c.value.data)

/-- The zero value `EmptyCNPJ`. -/
def EmptyCNPJ : CNPJ := ⟨""⟩

/-- The pattern
`CNPJRegex = ^[0-9]{2}[\.]?[0-9]{3}[\.]?[0-9]{3}[\/]?[0-9]{4}[-]?[0-9]{2}$`. -/
def CNPJRegex : Regexp :=
  reDigit ^ 2 * optional (anyOf ['.']) * reDigit ^ 3 * optional (anyOf ['.']) * reDigit ^ 3
    * optional (anyOf ['/']) * reDigit ^ 4 * optional (anyOf ['-']) * reDigit ^ 2

/-- The slice `weights` of `cleanAndValidateCNPJ`. -/
def cnpjWeights : List Nat := [5, 4, 3, 2, 9, 8, 7, 6, 5, 4, 3, 2]

/-- The function `cleanAndValidateCNPJ`. -/
def cleanAndValidateCNPJ (documentNumber : String) : String × Option GoError :=
  if !MatchString CNPJRegex documentNumber then ("", some .ErrInvalidCNPJ) else
  let documentNumber := keepOnlyNumbers documentNumber
  if len documentNumber ≠ 14 then ("", some .ErrInvalidCNPJ) else
  match documentNumber.data.mapM atoiRune with
  | none => ("", some .ErrInvalidCNPJ)
  | some cnpjDigits =>
    let weights := cnpjWeights
    let sum := (List.range 12).foldl (fun sum i => sum + cnpjDigits.getD i 0 * weights.getD i 0) 0
    let remainder := sum % 11
    let expectedDigit1 := 11 - remainder
    let expectedDigit1 := if expectedDigit1 ≥ 10 then 0 else expectedDigit1
    if cnpjDigits.getD 12 0 ≠ expectedDigit1 then ("", some .ErrInvalidCNPJ) else
    let weights := [6] ++ weights
    let sum := (List.range 13).foldl (fun sum i => sum + cnpjDigits.getD i 0 * weights.getD i 0) 0
    let remainder := sum % 11
    let expectedDigit2 := 11 - remainder
    let expectedDigit2 := if expectedDigit2 ≥ 10 then 0 else expectedDigit2
    if cnpjDigits.getD 13 0 ≠ expectedDigit2 then ("", some .ErrInvalidCNPJ) else
    (documentNumber, none)

/-- The function `NewCNPJ`. -/
def NewCNPJ (v : String) : CNPJ × Option GoError :=
  match cleanAndValidateCNPJ v with
  | (_, some err) => (EmptyCNPJ, some err)
  | (cnpj, none) => (⟨cnpj⟩, none)

/-- The struct `restoredDocument`, which wraps a tempered document value. -/
structure restoredDocument where
  value : String
  deriving DecidableEq, Repr

/-- The interface `Document` with its dynamic types, and `nil`. -/
inductive Document where
  | nil
  | ofCPF (c : CPF)
  | ofCNPJ (c : CNPJ)
  | ofRestored (r : restoredDocument)
  deriving DecidableEq, Repr

/-- The method `Value` of a `Document`. A call on the `nil` interface panics in Go; the
embedding gives the empty string there. -/
def Document.Value : Document → String
  | .nil => ""
  | .ofCPF c => c.Value
  | .ofCNPJ c => c.Value
  | .ofRestored r => r.value

/-- The method `String` of a `Document` (the empty string on `nil`, where Go panics). -/
def Document.String : Document → String
  | .nil => ""
  | .ofCPF c => c.String
  | .ofCNPJ c => c.String
  | .ofRestored r => r.value

/-- The function `NewDocument`. -/
def NewDocument (v : String) : Document × Option GoError :=
  match NewCPF v with
  | (cpf, none) => (.ofCPF cpf, none)
  | (_, some _) =>
    match NewCNPJ v with
    | (cnpj, none) => (.ofCNPJ cnpj, none)
    | (_, some _) => (.nil, some (fmtErrorfWrap .ErrInvalidDocument v))

/-! ## email.go -/

/-- The struct `Email`. -/
structure Email where
  value : String
  deriving DecidableEq, Repr

/-- The method `Email.Value`. -/
def Email.Value (e : Email) : String := e.value

/-- The zero value `EmptyEmail`. -/
def EmptyEmail : Email := ⟨""⟩

/-- The pattern `EmailRegex = ^[a-z0-9+_.-]+@[a-z0-9.-]+$`. -/
def EmailRegex : Regexp :=
  oneOrMore (anyOf "abcdefghijklmnopqrstuvwxyz0123456789+_.-".data) * anyOf ['@']
    * oneOrMore (anyOf "abcdefghijklmnopqrstuvwxyz0123456789.-".data)

/-- The function `NewEmail`. -/
def NewEmail (v : String) : Email × Option GoError :=
  let trimmedEmail := stringsTrimSpace v
  if !MatchString EmailRegex trimmedEmail then (EmptyEmail, some .ErrInvalidEmail)
  else (⟨trimmedEmail⟩, none)

/-! ## name.go -/

/-- The struct `Name`. -/
structure Name where
  value : String
  deriving DecidableEq, Repr

/-- The method `Name.Value`. -/
def Name.Value (n : Name) : String := n.value

/-- The zero value `EmptyName`. -/
def EmptyName : Name := ⟨""⟩

/-- The function `NewName`. -/
def NewName (v : String) : Name × Option GoError :=
  let trimmedName := stringsJoin (stringsFields v) " "
  if trimmedName = "" then (EmptyName, some .ErrNameEmptyString) else
  let words := stringsSplit trimmedName " "
  if words.length < 2 then (EmptyName, some .ErrNameLessThenTwoWords) else
  if len (words.getD 0 "") < 2 then (EmptyName, some .ErrShortFirstName) else
  (⟨trimmedName⟩, none)

/-! ## entity_id.go -/

/-- The struct `EntityID`. -/
structure EntityID where
  value : String
  deriving DecidableEq, Repr

/-- The function `NewEntityID`; `uuid` is the string that `uuid.NewString()` returns. -/
def NewEntityID (uuid : String) : EntityID := ⟨uuid⟩

/-- The method `EntityID.Value`. -/
def EntityID.Value (e : EntityID) : String := e.value

/-! ## payee_status.go -/

/-- The struct `PayeeStatus`. -/
structure PayeeStatus where
  value : String
  display : String
  deriving DecidableEq, Repr

/-- The method `PayeeStatus.Value`. -/
def PayeeStatus.Value (ps : PayeeStatus) : String := ps.value

/-- The method `PayeeStatus.Display`. -/
def PayeeStatus.Display (ps : PayeeStatus) : String := ps.display

/-- The status `PayeeDraftStatus`. -/
def PayeeDraftStatus : PayeeStatus := ⟨"DRAFT", "Rascunho"⟩

/-- The status `PayeeValidStatus`. -/
def PayeeValidStatus : PayeeStatus := ⟨"VALID", "Validado"⟩

/-- The function `restorePayeeStatus`. -/
def restorePayeeStatus (status : String) : PayeeStatus × Option GoError :=
  if status = PayeeDraftStatus.Value then (PayeeDraftStatus, none)
  else if status = PayeeValidStatus.Value then (PayeeValidStatus, none)
  else (⟨"", ""⟩, some .ErrTemperedValue)

/-! ## The log of `slog` -/

/-- A record handed to the default `slog` logger: level, message and string attributes. -/
structure LogRecord where
  level : String
  msg : String
  attrs : List (String × String)
  deriving DecidableEq, Repr

/-- The call `slog.Warn(msg, attrs...)`: the record it emits. -/
def slogWarn (msg : String) (attrs : List (String × String)) : LogRecord := ⟨"WARN", msg, attrs⟩

/-! ## pix_key.go -/

/-- The constant `CPFPixKeyType`. -/
def CPFPixKeyType : String := "CPF"

/-- The constant `CNPJPixKeyType`. -/
def CNPJPixKeyType : String := "CNPJ"

/-- The constant `TelefonePixKeyType`. -/
def TelefonePixKeyType : String := "TELEFONE"

/-- The constant `EmailPixKeyType`. -/
def EmailPixKeyType : String := "EMAIL"

/-- The constant `ChaveAleatoriaPixKeyType`. -/
def ChaveAleatoriaPixKeyType : String := "CHAVE_ALEATORIA"

/-- The struct `CPFPixKey`, which embeds `CPF`: `Value` and `String` are the promoted
methods of `CPF`. -/
structure CPFPixKey extends CPF
  deriving DecidableEq, Repr

/-- The method `CPFPixKey.Type`. -/
def CPFPixKey.Type (_ : CPFPixKey) : String := CPFPixKeyType

/-- The zero value `EmptyCPFPixKey`. -/
def EmptyCPFPixKey : CPFPixKey := ⟨⟨""⟩⟩

/-- The function `NewCPFPixKey`. -/
def NewCPFPixKey (value : String) : CPFPixKey × Option GoError :=
  match NewCPF value with
  | (_, some err) => (EmptyCPFPixKey, some err)
  | (cpf, none) => (⟨cpf⟩, none)

/-- The struct `CNPJPixKey`, which embeds `CNPJ`. -/
structure CNPJPixKey extends CNPJ
  deriving DecidableEq, Repr

/-- The method `CNPJPixKey.Type`. -/
def CNPJPixKey.Type (_ : CNPJPixKey) : String := CNPJPixKeyType

/-- The zero value `EmptyCNPJPixKey`. -/
def EmptyCNPJPixKey : CNPJPixKey := ⟨⟨""⟩⟩

/-- The function `NewCNPJPixKey`. -/
def NewCNPJPixKey (value : String) : CNPJPixKey × Option GoError :=
  match NewCNPJ value with
  | (_, some err) => (EmptyCNPJPixKey, some err)
  | (cnpj, none) => (⟨cnpj⟩, none)

/-- The struct `TelefonePixKey`. -/
structure TelefonePixKey where
  value : String
  deriving DecidableEq, Repr

/-- The method `TelefonePixKey.Type`. -/
def TelefonePixKey.Type (_ : TelefonePixKey) : String := TelefonePixKeyType

/-- The method `TelefonePixKey.Value`. -/
def TelefonePixKey.Value (tp : TelefonePixKey) : String := tp.value

/-- The method `TelefonePixKey.String`. -/
def TelefonePixKey.String (tp : TelefonePixKey) : String := "+" ++ tp.Value

/-- The zero value `EmptyTelefonePixKey`. -/
def EmptyTelefonePixKey : TelefonePixKey := ⟨""⟩

/-- The pattern `TelefoneRegex = ^((?:\+?55)?)([1-9][0-9])(9[0-9]{8})$`. -/
def TelefoneRegex : Regexp :=
  optional (optional (anyOf ['+']) * anyOf ['5'] * anyOf ['5'])
    * (anyOf "123456789".data * reDigit) * (anyOf ['9'] * reDigit ^ 8)

/-- The function `NewTelefonePixKey`. -/
def NewTelefonePixKey (value : String) : TelefonePixKey × Option GoError :=
  if !MatchString TelefoneRegex value then (EmptyTelefonePixKey, some .ErrInvalidTelefone) else
  let value := keepOnlyNumbers value
  let withoutCountryCode := decide (len value = 11)
  let value := if withoutCountryCode then "55" ++ value else value
  (⟨value⟩, none)

/-- The struct `EmailPixKey`, which embeds `Email`: `Value` is the promoted method. -/
structure EmailPixKey extends Email
  deriving DecidableEq, Repr

/-- The method `EmailPixKey.Type`. -/
def EmailPixKey.Type (_ : EmailPixKey) : String := EmailPixKeyType

/-- The method `EmailPixKey.String`. -/
def EmailPixKey.String (e : EmailPixKey) : String := e.toEmail.Value

/-- The zero value `EmptyEmailPixKey`. -/
def EmptyEmailPixKey : EmailPixKey := ⟨⟨""⟩⟩

/-- The function `NewEmailPixKey`. -/
def NewEmailPixKey (value : String) : EmailPixKey × Option GoError :=
  match NewEmail value with
  | (_, some err) => (EmptyEmailPixKey, some err)
  | (email, none) => (⟨email⟩, none)

/-- The struct `ChaveAleatoriaPixKey`. -/
structure ChaveAleatoriaPixKey where
  value : String
  deriving DecidableEq, Repr

/-- The zero value `EmptyChaveAleatoriaPixKey`. -/
def EmptyChaveAleatoriaPixKey : ChaveAleatoriaPixKey := ⟨""⟩

/-- The class `[0-9a-f]` under the flag `(?i)`: no character outside ASCII folds to one
of its letters, so it is `[0-9a-fA-F]`. -/
def reHex : Regexp := anyOf "0123456789abcdefABCDEF".data

/-- The pattern
`ChaveAleatoriaRegex = (?i)^[0-9a-f]{8}-[0-9a-f]{4}-[0-9a-f]{4}-[0-9a-f]{4}-[0-9a-f]{12}$`. -/
def ChaveAleatoriaRegex : Regexp :=
  reHex ^ 8 * anyOf ['-'] * reHex ^ 4 * anyOf ['-'] * reHex ^ 4 * anyOf ['-'] * reHex ^ 4
    * anyOf ['-'] * reHex ^ 12

/-- The function `NewChaveAleatoriaPixKey`. -/
def NewChaveAleatoriaPixKey (value : String) : ChaveAleatoriaPixKey × Option GoError :=
  if !MatchString ChaveAleatoriaRegex value then
    (EmptyChaveAleatoriaPixKey, some .ErrInvalidChaveAleatoria)
  else
    let value := stringsToLower value
    (⟨value⟩, none)

/-- The method `ChaveAleatoriaPixKey.Type`. -/
def ChaveAleatoriaPixKey.Type (_ : ChaveAleatoriaPixKey) : String := ChaveAleatoriaPixKeyType

/-- The method `ChaveAleatoriaPixKey.Value`. -/
def ChaveAleatoriaPixKey.Value (tp : ChaveAleatoriaPixKey) : String := tp.value

/-- The method `ChaveAleatoriaPixKey.String`. -/
def ChaveAleatoriaPixKey.String (tp : ChaveAleatoriaPixKey) : String := tp.Value

/-- The struct `restoredPixKey`, which wraps a tempered pix key. -/
structure restoredPixKey where
  typ : String
  value : String
  deriving DecidableEq, Repr

/-- The method `restoredPixKey.Type`. -/
def restoredPixKey.Type (r : restoredPixKey) : String := r.typ

/-- The method `restoredPixKey.Value`. -/
def restoredPixKey.Value (r : restoredPixKey) : String := r.value

/-- The method `restoredPixKey.String`. -/
def restoredPixKey.String (r : restoredPixKey) : String := r.Value

/-- The interface `PixKey` with its dynamic types, and `nil`. -/
inductive PixKey where
  | nil
  | ofCPF (k : CPFPixKey)
  | ofCNPJ (k : CNPJPixKey)
  | ofTelefone (k : TelefonePixKey)
  | ofEmail (k : EmailPixKey)
  | ofChaveAleatoria (k : ChaveAleatoriaPixKey)
  | ofRestored (k : restoredPixKey)
  deriving DecidableEq, Repr

/-- The method `Type` of a `PixKey` (the empty string on `nil`, where Go panics). -/
def PixKey.Type : PixKey → String
  | .nil => ""
  | .ofCPF k => k.Type
  | .ofCNPJ k => k.Type
  | .ofTelefone k => k.Type
  | .ofEmail k => k.Type
  | .ofChaveAleatoria k => k.Type
  | .ofRestored k => k.Type

/-- The method `Value` of a `PixKey` (the empty string on `nil`, where Go panics). -/
def PixKey.Value : PixKey → String
  | .nil => ""
  | .ofCPF k => k.toCPF.Value
  | .ofCNPJ k => k.toCNPJ.Value
  | .ofTelefone k => k.Value
  | .ofEmail k => k.toEmail.Value
  | .ofChaveAleatoria k => k.Value
  | .ofRestored k => k.Value

/-- The method `String` of a `PixKey` (the empty string on `nil`, where Go panics). -/
def PixKey.String : PixKey → String
  | .nil => ""
  | .ofCPF k => k.toCPF.String
  | .ofCNPJ k => k.toCNPJ.String
  | .ofTelefone k => k.String
  | .ofEmail k => k.String
  | .ofChaveAleatoria k => k.String
  | .ofRestored k => k.String

/-- The function `NewPixKey`. Each branch returns its delegate's pair, the key converted
to the interface also when the error is not `nil`. -/
def NewPixKey (typ value : String) : PixKey × Option GoError :=
  if typ = CPFPixKeyType then ((NewCPFPixKey value).map PixKey.ofCPF id)
  else if typ = CNPJPixKeyType then ((NewCNPJPixKey value).map PixKey.ofCNPJ id)
  else if typ = TelefonePixKeyType then ((NewTelefonePixKey value).map PixKey.ofTelefone id)
  else if typ = EmailPixKeyType then ((NewEmailPixKey value).map PixKey.ofEmail id)
  else if typ = ChaveAleatoriaPixKeyType then
    ((NewChaveAleatoriaPixKey value).map PixKey.ofChaveAleatoria id)
  else (.nil, some .ErrInvalidPixKeyType)

/-- The function `RestorePixKey`, with the records it logs. -/
def RestorePixKey (typ value : String) : PixKey × List LogRecord :=
  match NewPixKey typ value with
  | (_, some err) =>
    (.ofRestored ⟨typ, value⟩,
      [slogWarn "tempered pix key with invalid values"
        [("pix_key_type", typ), ("pix_key", value), ("error", err.Error)]])
  | (key, none) => (key, [])

/-! ## payee_entity.go -/

/-- Modelled from the spec: the type `BankAccount` is declared outside the files at hand;
a payee holds an optional reference to an externally-owned bank account, here `nil` or
the address of the record. -/
abbrev BankAccountRef := Option Nat

/-- The struct `PayeeEntity`. -/
structure PayeeEntity where
  id : EntityID
  name : Name
  document : Document
  status : PayeeStatus
  email : Email
  pixKey : PixKey
  bankAccount : BankAccountRef
  deriving DecidableEq, Repr

/-- The method `PayeeEntity.ID`. -/
def PayeeEntity.ID (p : PayeeEntity) : String := p.id.Value

/-- The method `PayeeEntity.Name`. -/
def PayeeEntity.Name (p : PayeeEntity) : String := p.name.Value

/-- The method `PayeeEntity.Document`. -/
def PayeeEntity.Document (p : PayeeEntity) : Document := p.document

/-- The method `PayeeEntity.Email`. -/
def PayeeEntity.Email (p : PayeeEntity) : String := p.email.Value

/-- The method `PayeeEntity.Status`. -/
def PayeeEntity.Status (p : PayeeEntity) : PayeeStatus := p.status

/-- The method `PayeeEntity.PixKey`. -/
def PayeeEntity.PixKey (p : PayeeEntity) : PixKey := p.pixKey

/-- The method `PayeeEntity.BankAccount`. -/
def PayeeEntity.BankAccount (p : PayeeEntity) : BankAccountRef := p.bankAccount

/-- The method `EditDetails`: the payee after the call and the error returned. Each
assignment `p.field, err = New...(...)` stores the first result whatever `err` is. -/
def PayeeEntity.EditDetails (p : PayeeEntity)
    (name document pixKeyType pixKey email : String) : PayeeEntity × Option GoError :=
  let emailResult : Domain.Email × Option GoError :=
    if email ≠ "" then NewEmail email else (EmptyEmail, none)
  let p := { p with email := emailResult.1 }
  match emailResult.2 with
  | some err => (p, some err)
  | none =>
    if p.status ≠ PayeeDraftStatus then (p, none) else
    let nameResult := NewName name
    let p := { p with name := nameResult.1 }
    match nameResult.2 with
    | some err => (p, some err)
    | none =>
      let documentResult := NewDocument document
      let p := { p with document := documentResult.1 }
      match documentResult.2 with
      | some err => (p, some err)
      | none =>
        let pixKeyResult := NewPixKey pixKeyType pixKey
        let p := { p with pixKey := pixKeyResult.1 }
        match pixKeyResult.2 with
        | some err => (p, some err)
        | none => (p, none)

/-- The value `new(PayeeEntity)`: every field is the zero of its type. -/
def zeroPayeeEntity : PayeeEntity :=
  ⟨⟨""⟩, ⟨""⟩, .nil, ⟨"", ""⟩, ⟨""⟩, .nil, none⟩

/-- The function `CreatePayee`; `uuid` is the string that `uuid.NewString()` returns for
this call. The first component is `none` for the `nil` pointer. -/
def CreatePayee (uuid : String) (name document pixKeyType pixKey email : String) :
    Option PayeeEntity × Option GoError :=
  let payee := zeroPayeeEntity
  let payee := { payee with id := NewEntityID uuid }
  let nameResult := NewName name
  let payee := { payee with name := nameResult.1 }
  match nameResult.2 with
  | some err => (none, some err)
  | none =>
    let documentResult := NewDocument document
    let payee := { payee with document := documentResult.1 }
    match documentResult.2 with
    | some err => (none, some err)
    | none =>
      let pixKeyResult := NewPixKey pixKeyType pixKey
      let payee := { payee with pixKey := pixKeyResult.1 }
      match pixKeyResult.2 with
      | some err => (none, some err)
      | none =>
        let emailResult : Email × Option GoError :=
          if email ≠ "" then NewEmail email else (payee.email, none)
        let payee := { payee with email := emailResult.1 }
        match emailResult.2 with
        | some err => (none, some err)
        | none =>
          let payee := { payee with status := PayeeDraftStatus }
          (some payee, none)

/-- The function `RestorePayee`: the payee it returns and the records it logs, in order. -/
def RestorePayee (id name document status email pixKeyType pixKeyValue : String)
    (bankAccount : BankAccountRef) : PayeeEntity × List LogRecord :=
  let statusResult := restorePayeeStatus status
  let tempered := match statusResult.2 with
    | some err => errorsIs err .ErrTemperedValue
    | none => false
  let payeeStatus : PayeeStatus := if tempered then ⟨status, status⟩ else statusResult.1
  let log1 := if tempered then [slogWarn "tempered payee status" [("payee_id", id)]] else []
  let pixKeyResult := NewPixKey pixKeyType pixKeyValue
  let pixKey : PixKey := match pixKeyResult.2 with
    | some _ => .ofRestored ⟨pixKeyType, pixKeyValue⟩
    | none => pixKeyResult.1
  let log2 := match pixKeyResult.2 with
    | some err => [slogWarn "tempered pix key with invalid values"
        [("payee_id", id), ("error", err.Error)]]
    | none => []
  let documentResult := NewDocument document
  let payeeDocument : Document := match documentResult.2 with
    | some _ => .ofRestored ⟨document⟩
    | none => documentResult.1
  let log3 := match documentResult.2 with
    | some err => [slogWarn "tempered document with invalid values"
        [("payee_id", id), ("error", err.Error)]]
    | none => []
  (⟨⟨id⟩, ⟨name⟩, payeeDocument, payeeStatus, ⟨email⟩, pixKey, bankAccount⟩, log1 ++ log2 ++ log3)

/-! ## Reference definitions of the specification

What the specification says in its own words, to be compared with the code above. -/

/-- The decimal characters of a sequence of digit values. -/
def digitChars (ds : List Nat) : List Char := ds.map Nat.digitChar

/-- A separator that is present or absent. -/
def optSep (present : Bool) (c : Char) : List Char := if present then [c] else []

/-- The written forms of 11 digits: an optional `.` after the 3rd digit, an optional `.`
after the 6th and an optional `-` after the 9th, and nothing else. -/
def cpfWritten (ds : List Nat) (dot3 dot6 dash9 : Bool) : String :=
  String.mk (digitChars (ds.take 3) ++ optSep dot3 '.' ++ digitChars ((ds.drop 3).take 3)
    ++ optSep dot6 '.' ++ digitChars ((ds.drop 6).take 3) ++ optSep dash9 '-'
    ++ digitChars (ds.drop 9))

/-- The first CPF check digit: `11 - ((sum over i<9 of digit[i]*(10-i)) mod 11)`, replaced
by 0 when it is 10 or 11. -/
def cpfC1 (ds : List Nat) : Nat :=
  let c := 11 - ((List.range 9).map (fun i => ds.getD i 0 * (10 - i))).sum % 11
  if c = 10 ∨ c = 11 then 0 else c

/-- The second CPF check digit: `11 - ((sum over i<10 of digit[i]*(11-i)) mod 11)`,
replaced by 0 when it is 10 or 11. -/
def cpfC2 (ds : List Nat) : Nat :=
  let c := 11 - ((List.range 10).map (fun i => ds.getD i 0 * (11 - i))).sum % 11
  if c = 10 ∨ c = 11 then 0 else c

/-- The CPF reference definition: `s` is a written form of the 11 digits `ds`, which are
not all identical and whose last two digits are the check digits. -/
def CPFReference (s : String) (ds : List Nat) : Prop :=
  ds.length = 11 ∧ (∀ d ∈ ds, d ≤ 9) ∧
  (∃ dot3 dot6 dash9 : Bool, s = cpfWritten ds dot3 dot6 dash9) ∧
  ¬ (∀ x ∈ ds, ∀ y ∈ ds, x = y) ∧
  ds.getD 9 0 = cpfC1 ds ∧ ds.getD 10 0 = cpfC2 ds

/-- The written forms of 14 digits: an optional `.` after the 2nd and the 5th digit, an
optional `/` after the 8th and an optional `-` after the 12th, and nothing else. -/
def cnpjWritten (ds : List Nat) (dot2 dot5 slash8 dash12 : Bool) : String :=
  String.mk (digitChars (ds.take 2) ++ optSep dot2 '.' ++ digitChars ((ds.drop 2).take 3)
    ++ optSep dot5 '.' ++ digitChars ((ds.drop 5).take 3) ++ optSep slash8 '/'
    ++ digitChars ((ds.drop 8).take 4) ++ optSep dash12 '-' ++ digitChars (ds.drop 12))

/-- The weights `w1` of the first CNPJ check digit. -/
def cnpjW1 : List Nat := [5, 4, 3, 2, 9, 8, 7, 6, 5, 4, 3, 2]

/-- The weights `w2` of the second CNPJ check digit. -/
def cnpjW2 : List Nat := [6, 5, 4, 3, 2, 9, 8, 7, 6, 5, 4, 3, 2]

/-- The first CNPJ check digit: `11 - ((sum over i<12 of digit[i]*w1[i]) mod 11)`, replaced
by 0 when it is 10 or more. -/
def cnpjC1 (ds : List Nat) : Nat :=
  let c := 11 - ((List.range 12).map (fun i => ds.getD i 0 * cnpjW1.getD i 0)).sum % 11
  if c ≥ 10 then 0 else c

/-- The second CNPJ check digit: `11 - ((sum over i<13 of digit[i]*w2[i]) mod 11)`,
replaced by 0 when it is 10 or more. -/
def cnpjC2 (ds : List Nat) : Nat :=
  let c := 11 - ((List.range 13).map (fun i => ds.getD i 0 * cnpjW2.getD i 0)).sum % 11
  if c ≥ 10 then 0 else c

/-- The CNPJ reference definition: `s` is a written form of the 14 digits `ds`, whose last
two digits are the check digits; no other condition. -/
def CNPJReference (s : String) (ds : List Nat) : Prop :=
  ds.length = 14 ∧ (∀ d ∈ ds, d ≤ 9) ∧
  (∃ dot2 dot5 slash8 dash12 : Bool, s = cnpjWritten ds dot2 dot5 slash8 dash12) ∧
  ds.getD 12 0 = cnpjC1 ds ∧ ds.getD 13 0 = cnpjC2 ds

/-! ## Reference definitions of the specification, continued -/

/-- A local phone number `DD9XXXXXXXX`: 11 digits, the first from 1 to 9 and the third 9. -/
def isLocalPhone (ds : List Nat) : Prop :=
  ds.length = 11 ∧ (∀ d ∈ ds, d ≤ 9) ∧ 1 ≤ ds.getD 0 0 ∧ ds.getD 2 0 = 9

/-- The three written forms of a local phone number `n`: `n`, `55n` and `+55n`. -/
def phoneWritten (ds : List Nat) (countryCode : String) : String :=
  countryCode ++ String.mk (digitChars ds)

/-- The hexadecimal characters, upper or lower case. -/
def hexDigits : List Char := "0123456789abcdefABCDEF".data

/-- The shape of a random key: hexadecimal groups of 8, 4, 4, 4 and 12 characters separated
by single `-`. -/
def isChaveAleatoria (s : String) : Prop :=
  ∃ g1 g2 g3 g4 g5 : List Char,
    g1.length = 8 ∧ g2.length = 4 ∧ g3.length = 4 ∧ g4.length = 4 ∧ g5.length = 12 ∧
    (∀ c ∈ g1 ++ g2 ++ g3 ++ g4 ++ g5, c ∈ hexDigits) ∧
    s.data = g1 ++ ['-'] ++ g2 ++ ['-'] ++ g3 ++ ['-'] ++ g4 ++ ['-'] ++ g5

/-- The map of `strings.ToLower` on one character. -/
def lowerChar (c : Char) : Char := if 'A' ≤ c ∧ c ≤ 'Z' then Char.ofNat (c.toNat + 32) else c

/-- The characters of the local part of an email: `[a-z0-9+_.-]`. -/
def emailLocalChars : List Char := "abcdefghijklmnopqrstuvwxyz0123456789+_.-".data

/-- The characters of the domain of an email: `[a-z0-9.-]`. -/
def emailDomainChars : List Char := "abcdefghijklmnopqrstuvwxyz0123456789.-".data

/-- The shape of an email: a non-empty run of local characters, `@`, a non-empty run of
domain characters. -/
def isEmailShaped (t : String) : Prop :=
  ∃ l d : List Char, l ≠ [] ∧ d ≠ [] ∧ (∀ c ∈ l, c ∈ emailLocalChars) ∧
    (∀ c ∈ d, c ∈ emailDomainChars) ∧ t.data = l ++ ['@'] ++ d

/-- A word: a non-empty string without white space. -/
def isWord (w : String) : Prop := w.data ≠ [] ∧ ∀ c ∈ w.data, unicodeIsSpace c = false

/-- The characters that follow the first word in a list of words joined by single spaces. -/
def spacedTail (ws : List String) : List Char := ws.flatMap (fun w => ' ' :: w.data)

/-- No two consecutive characters are both spaces. -/
def noDoubleSpace (l : List Char) : Prop :=
  List.Chain' (fun a b => ¬ (a = ' ' ∧ b = ' ')) l

/-- The round trip of the specification: `RestorePayee` of the persisted fields of `p` emits
no warning and returns `p` itself, hence a payee with the same `ID()`, `Name()`, `Email()`,
`Status()`, document and pix key. -/
abbrev restoresLosslessly (p : PayeeEntity) : Prop :=
  RestorePayee p.ID p.Name p.Document.Value p.Status.Value p.Email p.PixKey.Type p.PixKey.Value
    p.BankAccount = (p, [])

/-! ## Strings as bytes

A Go string is a sequence of bytes and need not be well-formed UTF-8. The loop
`for _, r := range input` decodes the bytes as `utf8.DecodeRuneInString` does: a byte that
starts no well-formed sequence yields `utf8.RuneError` and the loop advances one byte. -/

/-- The constant `utf8.RuneError`. -/
def RuneError : Nat := 0xFFFD

/-- The tables `first` and `acceptRanges` of package `utf8` for a leading byte: the size of
the sequence and the inclusive range of its second byte; `none` for an ASCII byte and for
a byte that starts no sequence. -/
def utf8First (s0 : Nat) : Option (Nat × Nat × Nat) :=
  if 0xC2 ≤ s0 ∧ s0 ≤ 0xDF then some (2, 0x80, 0xBF)
  else if s0 = 0xE0 then some (3, 0xA0, 0xBF)
  else if 0xE1 ≤ s0 ∧ s0 ≤ 0xEC then some (3, 0x80, 0xBF)
  else if s0 = 0xED then some (3, 0x80, 0x9F)
  else if 0xEE ≤ s0 ∧ s0 ≤ 0xEF then some (3, 0x80, 0xBF)
  else if s0 = 0xF0 then some (4, 0x90, 0xBF)
  else if 0xF1 ≤ s0 ∧ s0 ≤ 0xF3 then some (4, 0x80, 0xBF)
  else if s0 = 0xF4 then some (4, 0x80, 0x8F)
  else none

/-- The function `utf8.DecodeRuneInString` on the bytes of a string: the rune and its
width. The masks `&0x1F`, `&0x0F`, `&0x07`, `&0x3F` are remainders and the shifts are
products. -/
def utf8DecodeRuneInString : List Nat → Nat × Nat
  | [] => (RuneError, 0)
  | s0 :: rest =>
    match utf8First s0 with
    | none => (if s0 < 0x80 then s0 else RuneError, 1)
    | some (sz, lo, hi) =>
      if rest.length + 1 < sz then (RuneError, 1) else
      let s1 := rest.getD 0 0
      if s1 < lo ∨ hi < s1 then (RuneError, 1) else
      if sz ≤ 2 then (s0 % 32 * 64 + s1 % 64, 2) else
      let s2 := rest.getD 1 0
      if s2 < 0x80 ∨ 0xBF < s2 then (RuneError, 1) else
      if sz ≤ 3 then (s0 % 16 * 4096 + s1 % 64 * 64 + s2 % 64, 3) else
      let s3 := rest.getD 2 0
      if s3 < 0x80 ∨ 0xBF < s3 then (RuneError, 1) else
      (s0 % 8 * 262144 + s1 % 64 * 4096 + s2 % 64 * 64 + s3 % 64, 4)

/-- The function `utf8.AppendRune`, which `strings.Builder.WriteRune` calls. -/
def utf8AppendRune (p : List Nat) (r : Nat) : List Nat :=
  if r ≤ 0x7F then p ++ [r]
  else if r ≤ 0x7FF then p ++ [0xC0 + r / 64, 0x80 + r % 64]
  else if 0x10FFFF < r ∨ (0xD800 ≤ r ∧ r ≤ 0xDFFF) then p ++ [0xEF, 0xBF, 0xBD]
  else if r ≤ 0xFFFF then p ++ [0xE0 + r / 4096, 0x80 + r / 64 % 64, 0x80 + r % 64]
  else p ++ [0xF0 + r / 262144, 0x80 + r / 4096 % 64, 0x80 + r / 64 % 64, 0x80 + r % 64]

/-- The loop of `keepOnlyNumbers` over the bytes of `input`: at a position where a rune
starts (`skip = 0`) the rune is decoded and written to the builder when `unicode.IsDigit`
accepts it; the other bytes of its sequence are stepped over. -/
def keepOnlyNumbersLoop : List Nat → Nat → List Nat → List Nat
  | [], _, builder => builder
  | _ :: rest, skip + 1, builder => keepOnlyNumbersLoop rest skip builder
  | s0 :: rest, 0, builder =>
    let decoded := utf8DecodeRuneInString (s0 :: rest)
    keepOnlyNumbersLoop rest (decoded.2 - 1)
      (if unicodeIsDigit (Char.ofNat decoded.1) then utf8AppendRune builder decoded.1
       else builder)

/-- The function `keepOnlyNumbers` on the bytes of its argument. -/
def keepOnlyNumbersBytes (input : List Nat) : List Nat := keepOnlyNumbersLoop input 0 []

/-- The bytes of a well-formed string: the UTF-8 encoding of its characters. -/
def stringBytes (s : String) : List Nat :=
  s.data.foldr (fun c bytes => utf8AppendRune [] c.toNat ++ bytes) []

/-! ## Sample records -/

/-- A payee restored in `PayeeValidStatus`. -/
def sampleValidPayee : PayeeEntity :=
  (RestorePayee "id-1" "Joao Silva" "19039318000104" "VALID" "old@mail.com" "EMAIL" "x@y.z"
    none).1

/-- A payee restored in `PayeeDraftStatus`. -/
def sampleDraftPayee : PayeeEntity :=
  (RestorePayee "id-2" "Joao Silva" "19039318000104" "DRAFT" "old@mail.com" "EMAIL" "x@y.z"
    (some 7)).1

/-! ## Regular expressions: the language of the patterns -/

theorem MatchString_iff (re : Regexp) (s : String) :
    MatchString re s = true ↔ s.data ∈ re.matches' := by
  unfold MatchString
  exact RegularExpression.rmatch_iff_matches' re s.data

theorem mem_anyOf (l : List Char) (x : List Char) :
    x ∈ (anyOf l).matches' ↔ ∃ c ∈ l, x = [c] := by
  induction l with
  | nil => simp [anyOf]
  | cons a l ih =>
    simp only [anyOf, RegularExpression.matches'_add, Language.mem_add, ih,
      RegularExpression.matches'_char, Set.mem_singleton_iff, List.mem_cons]
    constructor
    · rintro (h | ⟨c, hc, rfl⟩)
      · exact ⟨a, Or.inl rfl, h⟩
      · exact ⟨c, Or.inr hc, rfl⟩
    · rintro ⟨c, (rfl | hc), rfl⟩
      · exact Or.inl rfl
      · exact Or.inr ⟨c, hc, rfl⟩

theorem mem_optional (r : Regexp) (x : List Char) :
    x ∈ (optional r).matches' ↔ x = [] ∨ x ∈ r.matches' := by
  simp [optional, Language.mem_add, Language.mem_one]

theorem mem_mul (P Q : Regexp) (x : List Char) :
    x ∈ (P * Q).matches' ↔ ∃ a b, a ∈ P.matches' ∧ b ∈ Q.matches' ∧ x = a ++ b := by
  rw [RegularExpression.matches'_mul, Language.mem_mul]
  constructor
  · rintro ⟨a, ha, b, hb, rfl⟩; exact ⟨a, b, ha, hb, rfl⟩
  · rintro ⟨a, b, ha, hb, rfl⟩; exact ⟨a, ha, b, hb, rfl⟩

theorem mem_anyOf_pow (l : List Char) (n : Nat) (x : List Char) :
    x ∈ (anyOf l ^ n).matches' ↔ x.length = n ∧ ∀ c ∈ x, c ∈ l := by
  induction n generalizing x with
  | zero =>
    rw [RegularExpression.matches'_pow, pow_zero, Language.mem_one]
    constructor
    · rintro rfl; simp
    · rintro ⟨h, -⟩; exact List.length_eq_zero.mp h
  | succ n ih =>
    have hpow : (anyOf l ^ (n + 1)).matches' = ((anyOf l ^ n) * anyOf l).matches' := by
      simp only [RegularExpression.matches'_pow, RegularExpression.matches'_mul, pow_succ]
    rw [hpow, mem_mul]
    constructor
    · rintro ⟨a, b, ha, hb, rfl⟩
      obtain ⟨hlen, hall⟩ := (ih a).mp ha
      obtain ⟨c, hc, rfl⟩ := (mem_anyOf l b).mp hb
      refine ⟨by simp [hlen], ?_⟩
      intro c' hc'
      rcases List.mem_append.mp hc' with h | h
      · exact hall c' h
      · simp at h; subst h; exact hc
    · rintro ⟨hlen, hall⟩
      have hne : x ≠ [] := by intro h; subst h; simp at hlen
      refine ⟨x.dropLast, [x.getLast hne], (ih _).mpr ⟨by simp [hlen], ?_⟩,
        (mem_anyOf l _).mpr ⟨x.getLast hne, hall _ (List.getLast_mem hne), rfl⟩,
        (List.dropLast_append_getLast hne).symm⟩
      intro c hc
      exact hall c (List.mem_of_mem_dropLast hc)

/-! ## Decimal digits -/

theorem digitChar_mem {d : Nat} (h : d ≤ 9) : Nat.digitChar d ∈ "0123456789".data := by
  interval_cases d <;> decide

theorem mem_digits_iff (c : Char) :
    c ∈ "0123456789".data ↔ ∃ d, d ≤ 9 ∧ c = Nat.digitChar d := by
  constructor
  · intro h
    simp only [List.mem_cons, List.mem_singleton] at h
    rcases h with h | h | h | h | h | h | h | h | h | h | h
    · exact ⟨0, by omega, h⟩
    · exact ⟨1, by omega, h⟩
    · exact ⟨2, by omega, h⟩
    · exact ⟨3, by omega, h⟩
    · exact ⟨4, by omega, h⟩
    · exact ⟨5, by omega, h⟩
    · exact ⟨6, by omega, h⟩
    · exact ⟨7, by omega, h⟩
    · exact ⟨8, by omega, h⟩
    · exact ⟨9, by omega, h⟩
    · simp at h
  · rintro ⟨d, hd, rfl⟩
    exact digitChar_mem hd

theorem unicodeIsDigit_digitChar {d : Nat} (h : d ≤ 9) : unicodeIsDigit (Nat.digitChar d) = true := by
  interval_cases d <;> decide

theorem atoiRune_digitChar {d : Nat} (h : d ≤ 9) : atoiRune (Nat.digitChar d) = some d := by
  interval_cases d <;> decide

theorem utf8Size_digitChar {d : Nat} (h : d ≤ 9) : (Nat.digitChar d).utf8Size = 1 := by
  interval_cases d <;> decide

theorem mem_reDigit_pow (n : Nat) (x : List Char) :
    x ∈ (reDigit ^ n).matches' ↔ ∃ ds, ds.length = n ∧ (∀ d ∈ ds, d ≤ 9) ∧ x = digitChars ds := by
  rw [reDigit, mem_anyOf_pow]
  constructor
  · rintro ⟨hlen, hall⟩
    subst hlen
    induction x with
    | nil => exact ⟨[], rfl, by simp, rfl⟩
    | cons c x ih =>
      obtain ⟨ds, h1, h2, h3⟩ := ih (fun c' hc' => hall c' (List.mem_cons_of_mem _ hc'))
      obtain ⟨d, hd, hc⟩ := (mem_digits_iff c).mp (hall c (List.mem_cons_self _ _))
      refine ⟨d :: ds, by simp [h1], ?_, by simp [digitChars, hc, h3]⟩
      intro d' hd'
      rcases List.mem_cons.mp hd' with rfl | h
      · exact hd
      · exact h2 d' h
  · rintro ⟨ds, hlen, hall, rfl⟩
    refine ⟨by simp [digitChars, hlen], ?_⟩
    intro c hc
    simp only [digitChars, List.mem_map] at hc
    obtain ⟨d, hd, rfl⟩ := hc
    exact digitChar_mem (hall d hd)

theorem mem_optional_sep (c : Char) (x : List Char) :
    x ∈ (optional (anyOf [c])).matches' ↔ ∃ b : Bool, x = optSep b c := by
  rw [mem_optional, mem_anyOf]
  constructor
  · rintro (rfl | ⟨c', hc', rfl⟩)
    · exact ⟨false, rfl⟩
    · simp at hc'; subst hc'; exact ⟨true, rfl⟩
  · rintro ⟨b, rfl⟩
    cases b
    · exact Or.inl rfl
    · exact Or.inr ⟨c, by simp, rfl⟩

/-! ## The CPF pattern -/

theorem CPFRegex_match_iff (s : String) :
    MatchString CPFRegex s = true ↔
      ∃ ds dot3 dot6 dash9, ds.length = 11 ∧ (∀ d ∈ ds, d ≤ 9) ∧
        s = cpfWritten ds dot3 dot6 dash9 := by
  rw [MatchString_iff]
  simp only [CPFRegex, mem_mul, mem_reDigit_pow, mem_optional_sep]
  constructor
  · rintro ⟨_, _, ⟨_, _, ⟨_, _, ⟨_, _, ⟨_, _, ⟨_, _, ⟨A, hA, hA9, rfl⟩, ⟨p3, rfl⟩, rfl⟩,
      ⟨B, hB, hB9, rfl⟩, rfl⟩, ⟨p6, rfl⟩, rfl⟩, ⟨C, hC, hC9, rfl⟩, rfl⟩, ⟨p9, rfl⟩, rfl⟩,
      ⟨D, hD, hD9, rfl⟩, hs⟩
    refine ⟨A ++ B ++ C ++ D, p3, p6, p9, by simp [hA, hB, hC, hD], ?_, ?_⟩
    · intro d hd
      simp only [List.mem_append] at hd
      rcases hd with ((h | h) | h) | h
      · exact hA9 d h
      · exact hB9 d h
      · exact hC9 d h
      · exact hD9 d h
    · apply String.ext
      rw [hs]
      obtain ⟨a0, a1, a2, rfl⟩ := List.length_eq_three.mp hA
      obtain ⟨b0, b1, b2, rfl⟩ := List.length_eq_three.mp hB
      obtain ⟨c0, c1, c2, rfl⟩ := List.length_eq_three.mp hC
      simp [cpfWritten, digitChars]
  · rintro ⟨ds, p3, p6, p9, hlen, h9, rfl⟩
    have hsub : ∀ l : List Nat, (∀ d ∈ l, d ∈ ds) → ∀ d ∈ l, d ≤ 9 :=
      fun l hl d hd => h9 d (hl d hd)
    refine ⟨_, _, ⟨_, _, ⟨_, _, ⟨_, _, ⟨_, _, ⟨_, _, ⟨ds.take 3, ?_, ?_, rfl⟩, ⟨p3, rfl⟩, rfl⟩,
      ⟨(ds.drop 3).take 3, ?_, ?_, rfl⟩, rfl⟩, ⟨p6, rfl⟩, rfl⟩,
      ⟨(ds.drop 6).take 3, ?_, ?_, rfl⟩, rfl⟩, ⟨p9, rfl⟩, rfl⟩,
      ⟨ds.drop 9, ?_, ?_, rfl⟩, rfl⟩
    · simp [hlen]
    · exact hsub _ (fun d hd => List.mem_of_mem_take hd)
    · simp [hlen]
    · exact hsub _ (fun d hd => List.mem_of_mem_drop (List.mem_of_mem_take hd))
    · simp [hlen]
    · exact hsub _ (fun d hd => List.mem_of_mem_drop (List.mem_of_mem_take hd))
    · simp [hlen]
    · exact hsub _ (fun d hd => List.mem_of_mem_drop hd)

/-! ## `keepOnlyNumbers` and the digit loop -/

theorem foldl_builder (p : Char → Bool) (l acc : List Char) :
    l.foldl (fun builder r => if p r then builder ++ [r] else builder) acc = acc ++ l.filter p := by
  induction l generalizing acc with
  | nil => simp
  | cons c l ih =>
    simp only [List.foldl_cons, List.filter_cons]
    by_cases h : p c = true
    · simp [h, ih]
    · simp [h, ih]

theorem keepOnlyNumbers_eq_filter (s : String) :
    keepOnlyNumbers s = String.mk (s.data.filter unicodeIsDigit) := by
  simp [keepOnlyNumbers, foldl_builder]

theorem filter_digitChars (ds : List Nat) (h : ∀ d ∈ ds, d ≤ 9) :
    (digitChars ds).filter unicodeIsDigit = digitChars ds := by
  rw [List.filter_eq_self]
  intro c hc
  simp only [digitChars, List.mem_map] at hc
  obtain ⟨d, hd, rfl⟩ := hc
  exact unicodeIsDigit_digitChar (h d hd)

theorem filter_optSep (b : Bool) (c : Char) (hc : unicodeIsDigit c = false) :
    (optSep b c).filter unicodeIsDigit = [] := by
  cases b <;> simp [optSep, hc]

theorem len_digitChars (ds : List Nat) (h : ∀ d ∈ ds, d ≤ 9) :
    len (String.mk (digitChars ds)) = ds.length := by
  induction ds with
  | nil => rfl
  | cons d ds ih =>
    have h1 := utf8Size_digitChar (h d (List.mem_cons_self _ _))
    have h2 := ih (fun d' hd' => h d' (List.mem_cons_of_mem _ hd'))
    simp only [len, digitChars, List.map_cons, List.sum_cons, List.length_cons] at h2 ⊢
    omega

theorem mapM_atoiRune_digitChars (ds : List Nat) (h : ∀ d ∈ ds, d ≤ 9) :
    (digitChars ds).mapM atoiRune = some ds := by
  induction ds with
  | nil => rfl
  | cons d ds ih =>
    have h1 := atoiRune_digitChar (h d (List.mem_cons_self _ _))
    have h2 := ih (fun d' hd' => h d' (List.mem_cons_of_mem _ hd'))
    show (Nat.digitChar d :: digitChars ds).mapM atoiRune = some (d :: ds)
    rw [List.mapM_cons, h1, h2]
    rfl

theorem foldl_add_eq_sum (f : Nat → Nat) (l : List Nat) (acc : Nat) :
    l.foldl (fun sum i => sum + f i) acc = acc + (l.map f).sum := by
  induction l generalizing acc with
  | nil => simp
  | cons a l ih => simp [ih, Nat.add_assoc]

theorem keepOnlyNumbers_cpfWritten (ds : List Nat) (h9 : ∀ d ∈ ds, d ≤ 9) (p3 p6 p9 : Bool) :
    keepOnlyNumbers (cpfWritten ds p3 p6 p9) = String.mk (digitChars ds) := by
  have hsub : ∀ l : List Nat, (∀ d ∈ l, d ∈ ds) → ∀ d ∈ l, d ≤ 9 :=
    fun l hl d hd => h9 d (hl d hd)
  rw [keepOnlyNumbers_eq_filter]
  simp only [cpfWritten, List.filter_append]
  rw [filter_digitChars _ (hsub _ (fun d hd => List.mem_of_mem_take hd)),
    filter_digitChars _ (hsub _ (fun d hd => List.mem_of_mem_drop (List.mem_of_mem_take hd))),
    filter_digitChars _ (hsub _ (fun d hd => List.mem_of_mem_drop (List.mem_of_mem_take hd))),
    filter_digitChars _ (hsub _ (fun d hd => List.mem_of_mem_drop hd)),
    filter_optSep _ _ (by decide), filter_optSep _ _ (by decide), filter_optSep _ _ (by decide)]
  simp only [List.append_nil, digitChars, ← List.map_append]
  congr 2
  have e1 : ds.drop 6 = (ds.drop 6).take 3 ++ ds.drop 9 := by
    have h := List.take_append_drop 3 (ds.drop 6)
    simp only [List.drop_drop] at h
    exact h.symm
  have e2 : ds.drop 3 = (ds.drop 3).take 3 ++ ds.drop 6 := by
    have h := List.take_append_drop 3 (ds.drop 3)
    simp only [List.drop_drop] at h
    exact h.symm
  calc ds.take 3 ++ (ds.drop 3).take 3 ++ (ds.drop 6).take 3 ++ ds.drop 9
      = ds.take 3 ++ ((ds.drop 3).take 3 ++ ((ds.drop 6).take 3 ++ ds.drop 9)) := by
        simp only [List.append_assoc]
    _ = ds := by rw [← e1, ← e2, List.take_append_drop]

/-! ## The all-identical check -/

theorem list_eleven {α : Type} (l : List α) (h : l.length = 11) :
    ∃ a0 a1 a2 a3 a4 a5 a6 a7 a8 a9 a10, l = [a0, a1, a2, a3, a4, a5, a6, a7, a8, a9, a10] :=
  match l, h with
  | [a0, a1, a2, a3, a4, a5, a6, a7, a8, a9, a10], _ =>
    ⟨a0, a1, a2, a3, a4, a5, a6, a7, a8, a9, a10, rfl⟩

theorem list_fourteen {α : Type} (l : List α) (h : l.length = 14) :
    ∃ a0 a1 a2 a3 a4 a5 a6 a7 a8 a9 a10 a11 a12 a13,
      l = [a0, a1, a2, a3, a4, a5, a6, a7, a8, a9, a10, a11, a12, a13] :=
  match l, h with
  | [a0, a1, a2, a3, a4, a5, a6, a7, a8, a9, a10, a11, a12, a13], _ =>
    ⟨a0, a1, a2, a3, a4, a5, a6, a7, a8, a9, a10, a11, a12, a13, rfl⟩

theorem allSame_iff (ds : List Nat) (hlen : ds.length = 11) :
    (List.range' 1 10).all (fun i => ds.getD i 0 == ds.getD (i - 1) 0) = true ↔
      ∀ x ∈ ds, ∀ y ∈ ds, x = y := by
  obtain ⟨d0, d1, d2, d3, d4, d5, d6, d7, d8, d9, d10, rfl⟩ := list_eleven ds hlen
  have hr : List.range' 1 10 = [1, 2, 3, 4, 5, 6, 7, 8, 9, 10] := by decide
  simp only [hr, List.all_cons, List.all_nil, Bool.and_true, Bool.and_eq_true, beq_iff_eq,
    List.getD_cons_succ, List.getD_cons_zero, List.mem_cons, List.mem_singleton,
    forall_eq_or_imp, forall_eq, Nat.sub_self, Nat.reduceSub, List.not_mem_nil,
    false_implies, implies_true, and_true]
  constructor
  · rintro ⟨h1, h2, h3, h4, h5, h6, h7, h8, h9, h10⟩
    subst h1 h2 h3 h4 h5 h6 h7 h8 h9 h10
    simp
  · intro h
    obtain ⟨⟨-, h1, -⟩, ⟨-, -, h2, -⟩, ⟨-, -, -, h3, -⟩, ⟨-, -, -, -, h4, -⟩, ⟨-, -, -, -, -, h5, -⟩,
      ⟨-, -, -, -, -, -, h6, -⟩, ⟨-, -, -, -, -, -, -, h7, -⟩, ⟨-, -, -, -, -, -, -, -, h8, -⟩,
      ⟨-, -, -, -, -, -, -, -, -, h9, -⟩, ⟨-, -, -, -, -, -, -, -, -, -, h10⟩, -⟩ := h
    exact ⟨h1.symm, h2.symm, h3.symm, h4.symm, h5.symm, h6.symm, h7.symm, h8.symm, h9.symm, h10.symm⟩

/-! ## `cleanAndValidateCPF` on a written form -/

theorem cleanAndValidateCPF_no_match (s : String) (h : MatchString CPFRegex s = false) :
    cleanAndValidateCPF s = ("", some .ErrInvalidCPF) := by
  simp [cleanAndValidateCPF, h]

theorem cleanAndValidateCPF_written (ds : List Nat) (hlen : ds.length = 11)
    (h9 : ∀ d ∈ ds, d ≤ 9) (p3 p6 p9 : Bool) :
    cleanAndValidateCPF (cpfWritten ds p3 p6 p9) =
      if (∀ x ∈ ds, ∀ y ∈ ds, x = y) ∨ ds.getD 9 0 ≠ cpfC1 ds ∨ ds.getD 10 0 ≠ cpfC2 ds
      then ("", some .ErrInvalidCPF) else (String.mk (digitChars ds), none) := by
  have hm : MatchString CPFRegex (cpfWritten ds p3 p6 p9) = true :=
    (CPFRegex_match_iff _).mpr ⟨ds, p3, p6, p9, hlen, h9, rfl⟩
  have hk := keepOnlyNumbers_cpfWritten ds h9 p3 p6 p9
  have hl : len (String.mk (digitChars ds)) = 11 := by rw [len_digitChars ds h9, hlen]
  have hmap := mapM_atoiRune_digitChars ds h9
  have hsame := allSame_iff ds hlen
  simp only [cleanAndValidateCPF, hm, hk, hl, hmap, foldl_add_eq_sum, Nat.zero_add,
    Bool.not_true, Bool.false_eq_true, if_false, ne_eq, not_true_eq_false]
  change (if _ then _ else if ¬ ds.getD 9 0 = cpfC1 ds then _ else
    if ¬ ds.getD 10 0 = cpfC2 ds then _ else _) = _
  by_cases hs : ∀ x ∈ ds, ∀ y ∈ ds, x = y
  · rw [if_pos (hsame.mpr hs), if_pos (Or.inl hs)]
  · rw [if_neg (fun h => hs (hsame.mp h))]
    by_cases h1 : ds.getD 9 0 = cpfC1 ds
    · by_cases h2 : ds.getD 10 0 = cpfC2 ds
      · rw [if_neg (not_not.mpr h1), if_neg (not_not.mpr h2), if_neg]
        rintro (h | h | h)
        · exact hs h
        · exact h h1
        · exact h h2
      · rw [if_neg (not_not.mpr h1), if_pos h2, if_pos (Or.inr (Or.inr h2))]
    · rw [if_pos h1, if_pos (Or.inr (Or.inl h1))]

/-! ## C1: `NewCPF` -/

theorem NewCPF_of_reference (s : String) (ds : List Nat) (h : CPFReference s ds) :
    NewCPF s = (⟨String.mk (digitChars ds)⟩, none) := by
  obtain ⟨hlen, h9, ⟨p3, p6, p9, rfl⟩, hne, h1, h2⟩ := h
  have hc := cleanAndValidateCPF_written ds hlen h9 p3 p6 p9
  rw [if_neg] at hc
  · simp [NewCPF, hc]
  · rintro (h | h | h)
    · exact hne h
    · exact h h1
    · exact h h2

theorem NewCPF_of_not_reference (s : String) (h : ¬ ∃ ds, CPFReference s ds) :
    NewCPF s = (EmptyCPF, some .ErrInvalidCPF) := by
  by_cases hm : MatchString CPFRegex s = true
  · obtain ⟨ds, p3, p6, p9, hlen, h9, rfl⟩ := (CPFRegex_match_iff s).mp hm
    have hc := cleanAndValidateCPF_written ds hlen h9 p3 p6 p9
    rw [if_pos] at hc
    · simp [NewCPF, hc]
    · by_contra hcon
      exact h ⟨ds, hlen, h9, ⟨p3, p6, p9, rfl⟩, fun hx => hcon (Or.inl hx),
        by_contra (fun h1 => hcon (Or.inr (Or.inl h1))),
        by_contra (fun h2 => hcon (Or.inr (Or.inr h2)))⟩
  · have hc := cleanAndValidateCPF_no_match s (by simpa using hm)
    simp [NewCPF, hc]

/-- C1. `NewCPF` accepts exactly the CPF reference definition: it succeeds if and only if
the input is a written form of 11 digits that are not all identical and end in the two
check digits; on success `Value()` is the 11 digits in order, and on failure the result is
`EmptyCPF` with the error `ErrInvalidCPF`. -/
theorem NewCPF_accepts_exactly_reference (s : String) :
    ((NewCPF s).2 = none ↔ ∃ ds, CPFReference s ds) ∧
    (∀ ds, CPFReference s ds →
      (NewCPF s).2 = none ∧ (NewCPF s).1.Value = String.mk (digitChars ds)) ∧
    ((NewCPF s).2 ≠ none → NewCPF s = (EmptyCPF, some .ErrInvalidCPF)) := by
  refine ⟨⟨?_, ?_⟩, ?_, ?_⟩
  · intro hok
    by_contra hno
    rw [NewCPF_of_not_reference s hno] at hok
    simp at hok
  · rintro ⟨ds, hds⟩
    rw [NewCPF_of_reference s ds hds]
  · intro ds hds
    rw [NewCPF_of_reference s ds hds]
    exact ⟨rfl, rfl⟩
  · intro hfail
    apply NewCPF_of_not_reference
    rintro ⟨ds, hds⟩
    rw [NewCPF_of_reference s ds hds] at hfail
    exact hfail rfl

/-- A run of C1 on the input `128731.950-53` of the test suite. -/
theorem NewCPF_accepts_exactly_reference_witness :
    (NewCPF "128731.950-53").2 = none ∧ (NewCPF "128731.950-53").1.Value = "12873195053" :=
  (NewCPF_accepts_exactly_reference "128731.950-53").2.1 [1, 2, 8, 7, 3, 1, 9, 5, 0, 5, 3]
    ⟨by decide, by decide, ⟨false, true, true, by decide⟩, by decide, by decide, by decide⟩

/-! ## C2: `NewCNPJ` -/

theorem list_four {α : Type} (l : List α) (h : l.length = 4) :
    ∃ a0 a1 a2 a3, l = [a0, a1, a2, a3] :=
  match l, h with
  | [a0, a1, a2, a3], _ => ⟨a0, a1, a2, a3, rfl⟩

theorem CNPJRegex_match_iff (s : String) :
    MatchString CNPJRegex s = true ↔
      ∃ ds dot2 dot5 slash8 dash12, ds.length = 14 ∧ (∀ d ∈ ds, d ≤ 9) ∧
        s = cnpjWritten ds dot2 dot5 slash8 dash12 := by
  rw [MatchString_iff]
  simp only [CNPJRegex, mem_mul, mem_reDigit_pow, mem_optional_sep]
  constructor
  · rintro ⟨_, _, ⟨_, _, ⟨_, _, ⟨_, _, ⟨_, _, ⟨_, _, ⟨_, _, ⟨_, _, ⟨A, hA, hA9, rfl⟩, ⟨p2, rfl⟩, rfl⟩,
      ⟨B, hB, hB9, rfl⟩, rfl⟩, ⟨p5, rfl⟩, rfl⟩, ⟨C, hC, hC9, rfl⟩, rfl⟩, ⟨p8, rfl⟩, rfl⟩,
      ⟨D, hD, hD9, rfl⟩, rfl⟩, ⟨p12, rfl⟩, rfl⟩, ⟨E, hE, hE9, rfl⟩, hs⟩
    refine ⟨A ++ B ++ C ++ D ++ E, p2, p5, p8, p12, by simp [hA, hB, hC, hD, hE], ?_, ?_⟩
    · intro d hd
      simp only [List.mem_append] at hd
      rcases hd with (((h | h) | h) | h) | h
      · exact hA9 d h
      · exact hB9 d h
      · exact hC9 d h
      · exact hD9 d h
      · exact hE9 d h
    · apply String.ext
      rw [hs]
      obtain ⟨a0, a1, rfl⟩ := List.length_eq_two.mp hA
      obtain ⟨b0, b1, b2, rfl⟩ := List.length_eq_three.mp hB
      obtain ⟨c0, c1, c2, rfl⟩ := List.length_eq_three.mp hC
      obtain ⟨e0, e1, e2, e3, rfl⟩ := list_four D hD
      simp [cnpjWritten, digitChars]
  · rintro ⟨ds, p2, p5, p8, p12, hlen, h9, rfl⟩
    have hsub : ∀ l : List Nat, (∀ d ∈ l, d ∈ ds) → ∀ d ∈ l, d ≤ 9 :=
      fun l hl d hd => h9 d (hl d hd)
    refine ⟨_, _, ⟨_, _, ⟨_, _, ⟨_, _, ⟨_, _, ⟨_, _, ⟨_, _, ⟨_, _, ⟨ds.take 2, ?_, ?_, rfl⟩,
      ⟨p2, rfl⟩, rfl⟩, ⟨(ds.drop 2).take 3, ?_, ?_, rfl⟩, rfl⟩, ⟨p5, rfl⟩, rfl⟩,
      ⟨(ds.drop 5).take 3, ?_, ?_, rfl⟩, rfl⟩, ⟨p8, rfl⟩, rfl⟩,
      ⟨(ds.drop 8).take 4, ?_, ?_, rfl⟩, rfl⟩, ⟨p12, rfl⟩, rfl⟩,
      ⟨ds.drop 12, ?_, ?_, rfl⟩, rfl⟩
    · simp [hlen]
    · exact hsub _ (fun d hd => List.mem_of_mem_take hd)
    · simp [hlen]
    · exact hsub _ (fun d hd => List.mem_of_mem_drop (List.mem_of_mem_take hd))
    · simp [hlen]
    · exact hsub _ (fun d hd => List.mem_of_mem_drop (List.mem_of_mem_take hd))
    · simp [hlen]
    · exact hsub _ (fun d hd => List.mem_of_mem_drop (List.mem_of_mem_take hd))
    · simp [hlen]
    · exact hsub _ (fun d hd => List.mem_of_mem_drop hd)

theorem keepOnlyNumbers_cnpjWritten (ds : List Nat) (h9 : ∀ d ∈ ds, d ≤ 9)
    (p2 p5 p8 p12 : Bool) :
    keepOnlyNumbers (cnpjWritten ds p2 p5 p8 p12) = String.mk (digitChars ds) := by
  have hsub : ∀ l : List Nat, (∀ d ∈ l, d ∈ ds) → ∀ d ∈ l, d ≤ 9 :=
    fun l hl d hd => h9 d (hl d hd)
  rw [keepOnlyNumbers_eq_filter]
  simp only [cnpjWritten, List.filter_append]
  rw [filter_digitChars _ (hsub _ (fun d hd => List.mem_of_mem_take hd)),
    filter_digitChars _ (hsub _ (fun d hd => List.mem_of_mem_drop (List.mem_of_mem_take hd))),
    filter_digitChars _ (hsub _ (fun d hd => List.mem_of_mem_drop (List.mem_of_mem_take hd))),
    filter_digitChars _ (hsub _ (fun d hd => List.mem_of_mem_drop (List.mem_of_mem_take hd))),
    filter_digitChars _ (hsub _ (fun d hd => List.mem_of_mem_drop hd)),
    filter_optSep _ _ (by decide), filter_optSep _ _ (by decide), filter_optSep _ _ (by decide),
    filter_optSep _ _ (by decide)]
  simp only [List.append_nil, digitChars, ← List.map_append]
  congr 2
  have e1 : ds.drop 8 = (ds.drop 8).take 4 ++ ds.drop 12 := by
    have h := List.take_append_drop 4 (ds.drop 8)
    simp only [List.drop_drop] at h
    exact h.symm
  have e2 : ds.drop 5 = (ds.drop 5).take 3 ++ ds.drop 8 := by
    have h := List.take_append_drop 3 (ds.drop 5)
    simp only [List.drop_drop] at h
    exact h.symm
  have e3 : ds.drop 2 = (ds.drop 2).take 3 ++ ds.drop 5 := by
    have h := List.take_append_drop 3 (ds.drop 2)
    simp only [List.drop_drop] at h
    exact h.symm
  calc ds.take 2 ++ (ds.drop 2).take 3 ++ (ds.drop 5).take 3 ++ (ds.drop 8).take 4 ++ ds.drop 12
      = ds.take 2 ++ ((ds.drop 2).take 3 ++ ((ds.drop 5).take 3
          ++ ((ds.drop 8).take 4 ++ ds.drop 12))) := by
        simp only [List.append_assoc]
    _ = ds := by rw [← e1, ← e2, ← e3, List.take_append_drop]

theorem cleanAndValidateCNPJ_no_match (s : String) (h : MatchString CNPJRegex s = false) :
    cleanAndValidateCNPJ s = ("", some .ErrInvalidCNPJ) := by
  simp [cleanAndValidateCNPJ, h]

theorem cleanAndValidateCNPJ_written (ds : List Nat) (hlen : ds.length = 14)
    (h9 : ∀ d ∈ ds, d ≤ 9) (p2 p5 p8 p12 : Bool) :
    cleanAndValidateCNPJ (cnpjWritten ds p2 p5 p8 p12) =
      if ds.getD 12 0 ≠ cnpjC1 ds ∨ ds.getD 13 0 ≠ cnpjC2 ds
      then ("", some .ErrInvalidCNPJ) else (String.mk (digitChars ds), none) := by
  have hm : MatchString CNPJRegex (cnpjWritten ds p2 p5 p8 p12) = true :=
    (CNPJRegex_match_iff _).mpr ⟨ds, p2, p5, p8, p12, hlen, h9, rfl⟩
  have hk := keepOnlyNumbers_cnpjWritten ds h9 p2 p5 p8 p12
  have hl : len (String.mk (digitChars ds)) = 14 := by rw [len_digitChars ds h9, hlen]
  have hmap := mapM_atoiRune_digitChars ds h9
  simp only [cleanAndValidateCNPJ, hm, hk, hl, hmap, foldl_add_eq_sum, Nat.zero_add,
    Bool.not_true, Bool.false_eq_true, if_false, ne_eq, not_true_eq_false]
  change (if ¬ ds.getD 12 0 = cnpjC1 ds then _ else
    if ¬ ds.getD 13 0 = cnpjC2 ds then _ else _) = _
  by_cases h1 : ds.getD 12 0 = cnpjC1 ds
  · by_cases h2 : ds.getD 13 0 = cnpjC2 ds
    · rw [if_neg (not_not.mpr h1), if_neg (not_not.mpr h2), if_neg]
      rintro (h | h)
      · exact h h1
      · exact h h2
    · rw [if_neg (not_not.mpr h1), if_pos h2, if_pos (Or.inr h2)]
  · rw [if_pos h1, if_pos (Or.inl h1)]

theorem NewCNPJ_of_reference (s : String) (ds : List Nat) (h : CNPJReference s ds) :
    NewCNPJ s = (⟨String.mk (digitChars ds)⟩, none) := by
  obtain ⟨hlen, h9, ⟨p2, p5, p8, p12, rfl⟩, h1, h2⟩ := h
  have hc := cleanAndValidateCNPJ_written ds hlen h9 p2 p5 p8 p12
  rw [if_neg] at hc
  · simp [NewCNPJ, hc]
  · rintro (h | h)
    · exact h h1
    · exact h h2

theorem NewCNPJ_of_not_reference (s : String) (h : ¬ ∃ ds, CNPJReference s ds) :
    NewCNPJ s = (EmptyCNPJ, some .ErrInvalidCNPJ) := by
  by_cases hm : MatchString CNPJRegex s = true
  · obtain ⟨ds, p2, p5, p8, p12, hlen, h9, rfl⟩ := (CNPJRegex_match_iff s).mp hm
    have hc := cleanAndValidateCNPJ_written ds hlen h9 p2 p5 p8 p12
    rw [if_pos] at hc
    · simp [NewCNPJ, hc]
    · by_contra hcon
      exact h ⟨ds, hlen, h9, ⟨p2, p5, p8, p12, rfl⟩,
        by_contra (fun h1 => hcon (Or.inl h1)),
        by_contra (fun h2 => hcon (Or.inr h2))⟩
  · have hc := cleanAndValidateCNPJ_no_match s (by simpa using hm)
    simp [NewCNPJ, hc]

/-- C2. `NewCNPJ` accepts exactly the CNPJ reference definition: it succeeds if and only
if the input is a written form of 14 digits that end in the two check digits; on success
`Value()` is the 14 digits in order, on failure the result is `EmptyCNPJ` with the error
`ErrInvalidCNPJ`, and no other condition applies: the all-identical sequence
`00000000000000` is accepted. -/
theorem NewCNPJ_accepts_exactly_reference (s : String) :
    ((NewCNPJ s).2 = none ↔ ∃ ds, CNPJReference s ds) ∧
    (∀ ds, CNPJReference s ds →
      (NewCNPJ s).2 = none ∧ (NewCNPJ s).1.Value = String.mk (digitChars ds)) ∧
    ((NewCNPJ s).2 ≠ none → NewCNPJ s = (EmptyCNPJ, some .ErrInvalidCNPJ)) ∧
    NewCNPJ "00000000000000" = (⟨"00000000000000"⟩, none) := by
  refine ⟨⟨?_, ?_⟩, ?_, ?_, ?_⟩
  · intro hok
    by_contra hno
    rw [NewCNPJ_of_not_reference s hno] at hok
    simp at hok
  · rintro ⟨ds, hds⟩
    rw [NewCNPJ_of_reference s ds hds]
  · intro ds hds
    rw [NewCNPJ_of_reference s ds hds]
    exact ⟨rfl, rfl⟩
  · intro hfail
    apply NewCNPJ_of_not_reference
    rintro ⟨ds, hds⟩
    rw [NewCNPJ_of_reference s ds hds] at hfail
    exact hfail rfl
  · decide

/-- A run of C2 on the input `63.2051020001-63` of the test suite. -/
theorem NewCNPJ_accepts_exactly_reference_witness :
    (NewCNPJ "63.2051020001-63").2 = none ∧
      (NewCNPJ "63.2051020001-63").1.Value = "63205102000163" :=
  (NewCNPJ_accepts_exactly_reference "63.2051020001-63").2.1
    [6, 3, 2, 0, 5, 1, 0, 2, 0, 0, 0, 1, 6, 3]
    ⟨by decide, by decide, ⟨true, false, false, true, by decide⟩, by decide, by decide⟩

/-! ## C3: `NewDocument` -/

theorem NewCPF_error_cases (v : String) :
    (∃ ds, CPFReference v ds ∧ NewCPF v = (⟨String.mk (digitChars ds)⟩, none)) ∨
      NewCPF v = (EmptyCPF, some .ErrInvalidCPF) := by
  by_cases h : ∃ ds, CPFReference v ds
  · obtain ⟨ds, hds⟩ := h
    exact Or.inl ⟨ds, hds, NewCPF_of_reference v ds hds⟩
  · exact Or.inr (NewCPF_of_not_reference v h)

theorem NewCNPJ_error_cases (v : String) :
    (∃ ds, CNPJReference v ds ∧ NewCNPJ v = (⟨String.mk (digitChars ds)⟩, none)) ∨
      NewCNPJ v = (EmptyCNPJ, some .ErrInvalidCNPJ) := by
  by_cases h : ∃ ds, CNPJReference v ds
  · obtain ⟨ds, hds⟩ := h
    exact Or.inl ⟨ds, hds, NewCNPJ_of_reference v ds hds⟩
  · exact Or.inr (NewCNPJ_of_not_reference v h)

theorem keepOnlyNumbers_of_CPFReference (v : String) (ds : List Nat) (h : CPFReference v ds) :
    keepOnlyNumbers v = String.mk (digitChars ds) := by
  obtain ⟨-, h9, ⟨p3, p6, p9, rfl⟩, -⟩ := h
  exact keepOnlyNumbers_cpfWritten ds h9 p3 p6 p9

theorem keepOnlyNumbers_of_CNPJReference (v : String) (ds : List Nat) (h : CNPJReference v ds) :
    keepOnlyNumbers v = String.mk (digitChars ds) := by
  obtain ⟨-, h9, ⟨p2, p5, p8, p12, rfl⟩, -⟩ := h
  exact keepOnlyNumbers_cnpjWritten ds h9 p2 p5 p8 p12

theorem not_CPF_and_CNPJ (v : String) : ¬ ((NewCPF v).2 = none ∧ (NewCNPJ v).2 = none) := by
  rintro ⟨h1, h2⟩
  rcases NewCPF_error_cases v with ⟨ds, hds, -⟩ | h
  · rcases NewCNPJ_error_cases v with ⟨ds', hds', -⟩ | h'
    · have e1 := keepOnlyNumbers_of_CPFReference v ds hds
      have e2 := keepOnlyNumbers_of_CNPJReference v ds' hds'
      rw [e1] at e2
      have e3 : (digitChars ds).length = (digitChars ds').length := by
        exact congrArg (fun s : String => s.data.length) e2
      simp only [digitChars, List.length_map, hds.1, hds'.1] at e3
      omega
    · rw [h'] at h2; simp at h2
  · rw [h] at h1; simp at h1

/-- C3. `NewDocument` returns the CPF of `NewCPF` when that succeeds, otherwise the CNPJ of
`NewCNPJ` when that succeeds, and otherwise the `nil` document with an error that is
`ErrInvalidDocument` for `errors.Is` and whose message ends with the input; `NewCPF` and
`NewCNPJ` never both succeed on one input. -/
theorem NewDocument_first_success (v : String) :
    ((NewCPF v).2 = none → NewDocument v = (.ofCPF (NewCPF v).1, none)) ∧
    ((NewCPF v).2 ≠ none → (NewCNPJ v).2 = none →
      NewDocument v = (.ofCNPJ (NewCNPJ v).1, none)) ∧
    ((NewCPF v).2 ≠ none → (NewCNPJ v).2 ≠ none →
      ∃ err, NewDocument v = (.nil, some err) ∧ errorsIs err .ErrInvalidDocument = true ∧
        err.Error = "invalid document: " ++ v) ∧
    ¬ ((NewCPF v).2 = none ∧ (NewCNPJ v).2 = none) := by
  refine ⟨?_, ?_, ?_, not_CPF_and_CNPJ v⟩
  · intro h
    unfold NewDocument
    generalize NewCPF v = r at h ⊢
    obtain ⟨c, e⟩ := r
    simp only at h
    subst h
    rfl
  · intro h1 h2
    unfold NewDocument
    generalize NewCPF v = r at h1 ⊢
    generalize NewCNPJ v = r' at h2 ⊢
    obtain ⟨c, e⟩ := r
    obtain ⟨c', e'⟩ := r'
    simp only at h1 h2
    subst h2
    cases e with
    | none => exact absurd rfl h1
    | some e => rfl
  · intro h1 h2
    unfold NewDocument
    generalize NewCPF v = r at h1 ⊢
    generalize NewCNPJ v = r' at h2 ⊢
    obtain ⟨c, e⟩ := r
    obtain ⟨c', e'⟩ := r'
    simp only at h1 h2
    cases e with
    | none => exact absurd rfl h1
    | some e =>
      cases e' with
      | none => exact absurd rfl h2
      | some e' =>
        refine ⟨_, rfl, ?_, ?_⟩
        · simp [fmtErrorfWrap, errorsIs]
        · simp [fmtErrorfWrap, GoError.Error]

/-- A run of C3 on the input `invaliddoc` of the test suite: neither constructor accepts
it and the error wraps `ErrInvalidDocument`. -/
theorem NewDocument_first_success_witness :
    ∃ err, NewDocument "invaliddoc" = (.nil, some err) ∧
      errorsIs err .ErrInvalidDocument = true ∧ err.Error = "invalid document: " ++ "invaliddoc" :=
  (NewDocument_first_success "invaliddoc").2.2.1 (by decide) (by decide)

/-! ## C4: `NewPixKey` -/

theorem NewCPF_error (v : String) :
    (NewCPF v).2 = none ∨ (NewCPF v).2 = some .ErrInvalidCPF := by
  rcases NewCPF_error_cases v with ⟨ds, -, h⟩ | h <;> rw [h]
  · exact Or.inl rfl
  · exact Or.inr rfl

theorem NewCNPJ_error (v : String) :
    (NewCNPJ v).2 = none ∨ (NewCNPJ v).2 = some .ErrInvalidCNPJ := by
  rcases NewCNPJ_error_cases v with ⟨ds, -, h⟩ | h <;> rw [h]
  · exact Or.inl rfl
  · exact Or.inr rfl

theorem NewTelefonePixKey_error (v : String) :
    (NewTelefonePixKey v).2 = none ∨ (NewTelefonePixKey v).2 = some .ErrInvalidTelefone := by
  unfold NewTelefonePixKey
  by_cases h : MatchString TelefoneRegex v = true
  · simp [h]
  · simp [h]

theorem NewEmail_cases (v : String) :
    NewEmail v = (⟨stringsTrimSpace v⟩, none) ∨ NewEmail v = (EmptyEmail, some .ErrInvalidEmail) := by
  unfold NewEmail
  by_cases h : MatchString EmailRegex (stringsTrimSpace v) = true
  · simp [h]
  · simp [h]

theorem NewEmail_error (v : String) :
    (NewEmail v).2 = none ∨ (NewEmail v).2 = some .ErrInvalidEmail := by
  rcases NewEmail_cases v with h | h <;> rw [h]
  · exact Or.inl rfl
  · exact Or.inr rfl

theorem NewChaveAleatoriaPixKey_error (v : String) :
    (NewChaveAleatoriaPixKey v).2 = none ∨
      (NewChaveAleatoriaPixKey v).2 = some .ErrInvalidChaveAleatoria := by
  unfold NewChaveAleatoriaPixKey
  by_cases h : MatchString ChaveAleatoriaRegex v = true
  · simp [h]
  · simp [h]

theorem NewCPFPixKey_snd (v : String) : (NewCPFPixKey v).2 = (NewCPF v).2 := by
  unfold NewCPFPixKey
  generalize NewCPF v = r
  obtain ⟨c, e⟩ := r
  cases e <;> rfl

theorem NewCNPJPixKey_snd (v : String) : (NewCNPJPixKey v).2 = (NewCNPJ v).2 := by
  unfold NewCNPJPixKey
  generalize NewCNPJ v = r
  obtain ⟨c, e⟩ := r
  cases e <;> rfl

theorem NewEmailPixKey_snd (v : String) : (NewEmailPixKey v).2 = (NewEmail v).2 := by
  unfold NewEmailPixKey
  generalize NewEmail v = r
  obtain ⟨c, e⟩ := r
  cases e <;> rfl

theorem NewPixKey_CPF (v : String) :
    NewPixKey "CPF" v = (.ofCPF (NewCPFPixKey v).1, (NewCPF v).2) := by
  rw [← NewCPFPixKey_snd]; rfl

theorem NewPixKey_CNPJ (v : String) :
    NewPixKey "CNPJ" v = (.ofCNPJ (NewCNPJPixKey v).1, (NewCNPJ v).2) := by
  rw [← NewCNPJPixKey_snd]
  simp [NewPixKey, CPFPixKeyType, CNPJPixKeyType, Prod.map]

theorem NewPixKey_TELEFONE (v : String) :
    NewPixKey "TELEFONE" v = (.ofTelefone (NewTelefonePixKey v).1, (NewTelefonePixKey v).2) := by
  simp [NewPixKey, CPFPixKeyType, CNPJPixKeyType, TelefonePixKeyType, Prod.map]

theorem NewPixKey_EMAIL (v : String) :
    NewPixKey "EMAIL" v = (.ofEmail (NewEmailPixKey v).1, (NewEmail v).2) := by
  rw [← NewEmailPixKey_snd]
  simp [NewPixKey, CPFPixKeyType, CNPJPixKeyType, TelefonePixKeyType, EmailPixKeyType, Prod.map]

theorem NewPixKey_CHAVE_ALEATORIA (v : String) :
    NewPixKey "CHAVE_ALEATORIA" v =
      (.ofChaveAleatoria (NewChaveAleatoriaPixKey v).1, (NewChaveAleatoriaPixKey v).2) := by
  simp [NewPixKey, CPFPixKeyType, CNPJPixKeyType, TelefonePixKeyType, EmailPixKeyType,
    ChaveAleatoriaPixKeyType, Prod.map]

theorem NewPixKey_other (t v : String)
    (ht : t ∉ ["CPF", "CNPJ", "TELEFONE", "EMAIL", "CHAVE_ALEATORIA"]) :
    NewPixKey t v = (.nil, some .ErrInvalidPixKeyType) := by
  simp only [List.mem_cons, List.mem_singleton, List.not_mem_nil, or_false, not_or] at ht
  obtain ⟨h1, h2, h3, h4, h5⟩ := ht
  simp [NewPixKey, CPFPixKeyType, CNPJPixKeyType, TelefonePixKeyType, EmailPixKeyType,
    ChaveAleatoriaPixKeyType, h1, h2, h3, h4, h5]

theorem NewPixKey_Type (t v : String) (h : (NewPixKey t v).2 = none) :
    (NewPixKey t v).1.Type = t := by
  by_cases h1 : t = "CPF"
  · subst h1; rw [NewPixKey_CPF]; rfl
  by_cases h2 : t = "CNPJ"
  · subst h2; rw [NewPixKey_CNPJ]; rfl
  by_cases h3 : t = "TELEFONE"
  · subst h3; rw [NewPixKey_TELEFONE]; rfl
  by_cases h4 : t = "EMAIL"
  · subst h4; rw [NewPixKey_EMAIL]; rfl
  by_cases h5 : t = "CHAVE_ALEATORIA"
  · subst h5; rw [NewPixKey_CHAVE_ALEATORIA]; rfl
  rw [NewPixKey_other t v (by simp [h1, h2, h3, h4, h5])] at h
  simp at h

/-- C4. `NewPixKey` dispatches on the type tag alone: under each of the five tags its
error is the delegate's error (`nil` exactly when `NewCPF`, `NewCNPJ`, `NewTelefonePixKey`,
`NewEmail`, `NewChaveAleatoriaPixKey` accepts the value, and otherwise `ErrInvalidCPF`,
`ErrInvalidCNPJ`, `ErrInvalidTelefone`, `ErrInvalidEmail`, `ErrInvalidChaveAleatoria`);
under every other tag, another letter case of the five included, it fails with
`ErrInvalidPixKeyType` whatever the value; a key returned on success has the tag as its
`Type()`. -/
theorem NewPixKey_dispatches_on_tag (t v : String) :
    ((NewPixKey "CPF" v).2 = (NewCPF v).2 ∧
      ((NewCPF v).2 = none ∨ (NewCPF v).2 = some .ErrInvalidCPF)) ∧
    ((NewPixKey "CNPJ" v).2 = (NewCNPJ v).2 ∧
      ((NewCNPJ v).2 = none ∨ (NewCNPJ v).2 = some .ErrInvalidCNPJ)) ∧
    ((NewPixKey "TELEFONE" v).2 = (NewTelefonePixKey v).2 ∧
      ((NewTelefonePixKey v).2 = none ∨ (NewTelefonePixKey v).2 = some .ErrInvalidTelefone)) ∧
    ((NewPixKey "EMAIL" v).2 = (NewEmail v).2 ∧
      ((NewEmail v).2 = none ∨ (NewEmail v).2 = some .ErrInvalidEmail)) ∧
    ((NewPixKey "CHAVE_ALEATORIA" v).2 = (NewChaveAleatoriaPixKey v).2 ∧
      ((NewChaveAleatoriaPixKey v).2 = none ∨
        (NewChaveAleatoriaPixKey v).2 = some .ErrInvalidChaveAleatoria)) ∧
    (t ∉ ["CPF", "CNPJ", "TELEFONE", "EMAIL", "CHAVE_ALEATORIA"] →
      NewPixKey t v = (.nil, some .ErrInvalidPixKeyType)) ∧
    NewPixKey "cpf" v = (.nil, some .ErrInvalidPixKeyType) ∧
    NewPixKey "Email" v = (.nil, some .ErrInvalidPixKeyType) ∧
    ((NewPixKey t v).2 = none → (NewPixKey t v).1.Type = t) := by
  refine ⟨⟨?_, NewCPF_error v⟩, ⟨?_, NewCNPJ_error v⟩, ⟨?_, NewTelefonePixKey_error v⟩,
    ⟨?_, NewEmail_error v⟩, ⟨?_, NewChaveAleatoriaPixKey_error v⟩,
    NewPixKey_other t v, NewPixKey_other _ v (by decide), NewPixKey_other _ v (by decide),
    NewPixKey_Type t v⟩
  · rw [NewPixKey_CPF]
  · rw [NewPixKey_CNPJ]
  · rw [NewPixKey_TELEFONE]
  · rw [NewPixKey_EMAIL]
  · rw [NewPixKey_CHAVE_ALEATORIA]

/-- A run of C4: the phone key `+5599987654321` of the test suite is accepted under the tag
`TELEFONE` and the key has that tag. -/
theorem NewPixKey_dispatches_on_tag_witness :
    (NewPixKey "TELEFONE" "+5599987654321").1.Type = "TELEFONE" :=
  (NewPixKey_dispatches_on_tag "TELEFONE" "+5599987654321").2.2.2.2.2.2.2.2 (by decide)

/-! ## C5: `CreatePayee` -/

theorem NewName_value (v : String) (h : (NewName v).2 = none) :
    (NewName v).1.Value = stringsJoin (stringsFields v) " " := by
  unfold NewName at h ⊢
  simp only at h ⊢
  split_ifs at h ⊢
  rfl

theorem NewEmail_value (v : String) (h : (NewEmail v).2 = none) :
    (NewEmail v).1.Value = stringsTrimSpace v := by
  rcases NewEmail_cases v with h' | h' <;> rw [h'] at h ⊢
  · rfl
  · simp at h

/-- C5. `CreatePayee` succeeds if and only if `NewName`, `NewDocument` and `NewPixKey` all
succeed and the email is empty or accepted by `NewEmail`; on success the payee is in
`PayeeDraftStatus`, its name is the normalised name, its document and pix key are the
values of the constructors (so the type of the key is the tag passed), its email is the
trimmed email, or empty for an empty email, and it has no bank account; on failure no
payee is returned. -/
theorem CreatePayee_succeeds_iff (uuid name document pixKeyType pixKey email : String) :
    ((CreatePayee uuid name document pixKeyType pixKey email).2 = none ↔
      ((NewName name).2 = none ∧ (NewDocument document).2 = none ∧
        (NewPixKey pixKeyType pixKey).2 = none ∧ (email = "" ∨ (NewEmail email).2 = none))) ∧
    ((CreatePayee uuid name document pixKeyType pixKey email).2 = none →
      ∃ p, (CreatePayee uuid name document pixKeyType pixKey email).1 = some p ∧
        p.Status = PayeeDraftStatus ∧
        p.ID = uuid ∧
        p.Name = (NewName name).1.Value ∧
        p.Name = stringsJoin (stringsFields name) " " ∧
        p.Document = (NewDocument document).1 ∧
        p.PixKey = (NewPixKey pixKeyType pixKey).1 ∧
        p.PixKey.Type = pixKeyType ∧
        p.Email = (if email = "" then "" else stringsTrimSpace email) ∧
        p.BankAccount = none) ∧
    ((CreatePayee uuid name document pixKeyType pixKey email).2 ≠ none →
      (CreatePayee uuid name document pixKeyType pixKey email).1 = none) := by
  have hname := NewName_value name
  have hemail := NewEmail_value email
  have htype := NewPixKey_Type pixKeyType pixKey
  unfold CreatePayee
  generalize NewName name = rn at hname ⊢
  generalize NewDocument document = rd
  generalize NewPixKey pixKeyType pixKey = rk at htype ⊢
  obtain ⟨n, en⟩ := rn
  obtain ⟨d, ed⟩ := rd
  obtain ⟨k, ek⟩ := rk
  cases en with
  | some e => simp
  | none =>
    cases ed with
    | some e => simp
    | none =>
      cases ek with
      | some e => simp
      | none =>
        by_cases he : email = ""
        · subst he
          simp only [ne_eq, not_true_eq_false, if_false, true_or, and_self, if_true, true_and,
            zeroPayeeEntity, iff_true, forall_true_left]
          exact ⟨⟨_, rfl, rfl, rfl, rfl, hname rfl, rfl, rfl, htype rfl, rfl, rfl⟩,
            fun h => by simp at h⟩
        · generalize NewEmail email = re at hemail ⊢
          obtain ⟨em, ee⟩ := re
          cases ee with
          | some e => simp [he]
          | none =>
            simp only [ne_eq, he, not_false_eq_true, if_true, if_false, false_or, and_self,
              true_and, zeroPayeeEntity, iff_true, forall_true_left]
            exact ⟨⟨_, rfl, rfl, rfl, rfl, hname rfl, rfl, rfl, htype rfl, hemail rfl, rfl⟩,
              fun h => by simp at h⟩

/-- A run of C5: a payee created from a name, a CNPJ, an email key and no email. -/
theorem CreatePayee_succeeds_iff_witness :
    ∃ p, (CreatePayee "id-1" "Joao  Silva" "19039318000104" "EMAIL" "x@y.z" "").1 = some p ∧
      p.Status = PayeeDraftStatus ∧
      p.ID = "id-1" ∧
      p.Name = (NewName "Joao  Silva").1.Value ∧
      p.Name = stringsJoin (stringsFields "Joao  Silva") " " ∧
      p.Document = (NewDocument "19039318000104").1 ∧
      p.PixKey = (NewPixKey "EMAIL" "x@y.z").1 ∧
      p.PixKey.Type = "EMAIL" ∧
      p.Email = (if "" = "" then "" else stringsTrimSpace "") ∧
      p.BankAccount = none :=
  (CreatePayee_succeeds_iff "id-1" "Joao  Silva" "19039318000104" "EMAIL" "x@y.z" "").2.1
    (by decide)

/-! ## C6 and C7: `EditDetails` -/

/-- C6. On a payee whose status is not `PayeeDraftStatus`, `EditDetails` leaves id, name,
document, pix key, status and bank account as they were, whether it succeeds or fails; it
returns `nil` exactly when the email is empty or accepted by `NewEmail`, and after a
successful call the email is the trimmed new email, or empty for an empty email. -/
theorem EditDetails_not_draft_only_email (p : PayeeEntity)
    (name document pixKeyType pixKey email : String) (hp : p.status ≠ PayeeDraftStatus) :
    (p.EditDetails name document pixKeyType pixKey email).1.id = p.id ∧
    (p.EditDetails name document pixKeyType pixKey email).1.name = p.name ∧
    (p.EditDetails name document pixKeyType pixKey email).1.document = p.document ∧
    (p.EditDetails name document pixKeyType pixKey email).1.pixKey = p.pixKey ∧
    (p.EditDetails name document pixKeyType pixKey email).1.status = p.status ∧
    (p.EditDetails name document pixKeyType pixKey email).1.bankAccount = p.bankAccount ∧
    ((p.EditDetails name document pixKeyType pixKey email).2 = none ↔
      (email = "" ∨ (NewEmail email).2 = none)) ∧
    ((p.EditDetails name document pixKeyType pixKey email).2 = none →
      (p.EditDetails name document pixKeyType pixKey email).1.Email =
        (if email = "" then "" else stringsTrimSpace email)) := by
  have hemail := NewEmail_value email
  unfold PayeeEntity.EditDetails
  by_cases he : email = ""
  · subst he
    simp [hp, PayeeEntity.Email, EmptyEmail, Email.Value]
  · generalize NewEmail email = re at hemail ⊢
    obtain ⟨em, ee⟩ := re
    cases ee with
    | some e => simp [he]
    | none =>
      simp only [ne_eq, he, not_false_eq_true, if_true, hp, if_false, false_or, true_and,
        PayeeEntity.Email, forall_true_left, and_self, true_iff]
      exact hemail rfl

/-- A run of C6 on a restored payee in `PayeeValidStatus`: the call with a new name, a
new document, a new key and a new email returns `nil` and only replaces the email. -/
theorem EditDetails_not_draft_only_email_witness :
    sampleValidPayee.status ≠ PayeeDraftStatus ∧
    (sampleValidPayee.EditDetails "Maria Souza" "77386735081" "CPF" "77386735081"
      " new@mail.com ").1.name = sampleValidPayee.name ∧
    (sampleValidPayee.EditDetails "Maria Souza" "77386735081" "CPF" "77386735081"
      " new@mail.com ").1.Email = "new@mail.com" :=
  ⟨by decide,
    (EditDetails_not_draft_only_email sampleValidPayee "Maria Souza" "77386735081" "CPF"
      "77386735081" " new@mail.com " (by decide)).2.1,
    ((EditDetails_not_draft_only_email sampleValidPayee "Maria Souza" "77386735081" "CPF"
      "77386735081" " new@mail.com " (by decide)).2.2.2.2.2.2.2 (by decide)).trans (by decide)⟩

/-- C7. On a payee in `PayeeDraftStatus`, when `NewName`, `NewDocument` and `NewPixKey`
accept the arguments and the email is empty or accepted by `NewEmail`, `EditDetails` returns
`nil` and afterwards name, document, pix key and email are the values those constructors
return (the empty email for an empty argument), while the id is unchanged and the status is
still `PayeeDraftStatus`. -/
theorem EditDetails_draft_replaces_all (p : PayeeEntity)
    (name document pixKeyType pixKey email : String) (hp : p.status = PayeeDraftStatus)
    (hn : (NewName name).2 = none) (hd : (NewDocument document).2 = none)
    (hk : (NewPixKey pixKeyType pixKey).2 = none)
    (he : email = "" ∨ (NewEmail email).2 = none) :
    (p.EditDetails name document pixKeyType pixKey email).2 = none ∧
    (p.EditDetails name document pixKeyType pixKey email).1.name = (NewName name).1 ∧
    (p.EditDetails name document pixKeyType pixKey email).1.Name = (NewName name).1.Value ∧
    (p.EditDetails name document pixKeyType pixKey email).1.Document = (NewDocument document).1 ∧
    (p.EditDetails name document pixKeyType pixKey email).1.PixKey =
      (NewPixKey pixKeyType pixKey).1 ∧
    (p.EditDetails name document pixKeyType pixKey email).1.email =
      (if email = "" then EmptyEmail else (NewEmail email).1) ∧
    (p.EditDetails name document pixKeyType pixKey email).1.Email =
      (if email = "" then "" else (NewEmail email).1.Value) ∧
    (p.EditDetails name document pixKeyType pixKey email).1.ID = p.ID ∧
    (p.EditDetails name document pixKeyType pixKey email).1.Status = PayeeDraftStatus ∧
    (p.EditDetails name document pixKeyType pixKey email).1.bankAccount = p.bankAccount := by
  unfold PayeeEntity.EditDetails
  generalize NewName name = rn at hn ⊢
  generalize NewDocument document = rd at hd ⊢
  generalize NewPixKey pixKeyType pixKey = rk at hk ⊢
  obtain ⟨n, en⟩ := rn
  obtain ⟨d, ed⟩ := rd
  obtain ⟨k, ek⟩ := rk
  simp only at hn hd hk
  subst hn hd hk
  by_cases hem : email = ""
  · subst hem
    simp [hp, PayeeEntity.Email, PayeeEntity.Name, PayeeEntity.Document, PayeeEntity.PixKey,
      PayeeEntity.ID, PayeeEntity.Status, EmptyEmail, Email.Value]
  · have he' : (NewEmail email).2 = none := he.resolve_left hem
    generalize NewEmail email = re at he' ⊢
    obtain ⟨em, ee⟩ := re
    simp only at he'
    subst he'
    simp [hem, hp, PayeeEntity.Email, PayeeEntity.Name, PayeeEntity.Document,
      PayeeEntity.PixKey, PayeeEntity.ID, PayeeEntity.Status]

/-- A run of C7 on a restored payee in `PayeeDraftStatus`: the four fields are replaced. -/
theorem EditDetails_draft_replaces_all_witness :
    (sampleDraftPayee.status = PayeeDraftStatus ∧ (NewName "Maria  Souza").2 = none ∧
      (NewDocument "773.867.350-81").2 = none ∧ (NewPixKey "TELEFONE" "99987654321").2 = none ∧
      ("" = "" ∨ (NewEmail "").2 = none)) ∧
    (sampleDraftPayee.EditDetails "Maria  Souza" "773.867.350-81" "TELEFONE" "99987654321"
      "").2 = none ∧
    (sampleDraftPayee.EditDetails "Maria  Souza" "773.867.350-81" "TELEFONE" "99987654321"
      "").1.name = (NewName "Maria  Souza").1 :=
  ⟨⟨by decide, by decide, by decide, by decide, Or.inl rfl⟩,
    (EditDetails_draft_replaces_all sampleDraftPayee "Maria  Souza" "773.867.350-81" "TELEFONE"
      "99987654321" "" (by decide) (by decide) (by decide) (by decide) (Or.inl rfl)).1,
    (EditDetails_draft_replaces_all sampleDraftPayee "Maria  Souza" "773.867.350-81" "TELEFONE"
      "99987654321" "" (by decide) (by decide) (by decide) (by decide) (Or.inl rfl)).2.1⟩

/-! ## C8 and C9: `RestorePayee` -/

theorem NewDocument_value (v : String) (h : (NewDocument v).2 = none) :
    (NewDocument v).1.Value = keepOnlyNumbers v := by
  unfold NewDocument at h ⊢
  rcases NewCPF_error_cases v with ⟨ds, hds, h1⟩ | h1
  · rw [h1]
    simp only [Document.Value, CPF.Value]
    exact (keepOnlyNumbers_of_CPFReference v ds hds).symm
  · rw [h1] at h ⊢
    rcases NewCNPJ_error_cases v with ⟨ds, hds, h2⟩ | h2
    · rw [h2]
      simp only [Document.Value, CNPJ.Value]
      exact (keepOnlyNumbers_of_CNPJReference v ds hds).symm
    · rw [h2] at h
      simp at h

/-- C8. `RestorePayee` returns a payee for all inputs (it is a total function) and passes
malformed fields through verbatim: when `NewDocument` rejects the document, `Value()` and
`String()` of the restored document are the raw string; when `NewPixKey` rejects the key,
`Type()` is the raw tag and `Value()` and `String()` are the raw value; when the status is
neither `DRAFT` nor `VALID`, `Value()` and `Display()` of the status are the raw string. -/
theorem RestorePayee_passes_malformed_through
    (id name document status email pixKeyType pixKeyValue : String) (bankAccount : BankAccountRef) :
    ((NewDocument document).2 ≠ none →
      (RestorePayee id name document status email pixKeyType pixKeyValue bankAccount).1.Document.Value
        = document ∧
      (RestorePayee id name document status email pixKeyType pixKeyValue bankAccount).1.Document.String
        = document) ∧
    ((NewPixKey pixKeyType pixKeyValue).2 ≠ none →
      (RestorePayee id name document status email pixKeyType pixKeyValue bankAccount).1.PixKey.Type
        = pixKeyType ∧
      (RestorePayee id name document status email pixKeyType pixKeyValue bankAccount).1.PixKey.Value
        = pixKeyValue ∧
      (RestorePayee id name document status email pixKeyType pixKeyValue bankAccount).1.PixKey.String
        = pixKeyValue) ∧
    (status ≠ "DRAFT" → status ≠ "VALID" →
      (RestorePayee id name document status email pixKeyType pixKeyValue bankAccount).1.Status.Value
        = status ∧
      (RestorePayee id name document status email pixKeyType pixKeyValue bankAccount).1.Status.Display
        = status) := by
  unfold RestorePayee
  generalize NewDocument document = rd
  generalize NewPixKey pixKeyType pixKeyValue = rk
  obtain ⟨d, ed⟩ := rd
  obtain ⟨k, ek⟩ := rk
  refine ⟨?_, ?_, ?_⟩
  · intro h
    cases ed with
    | none => exact absurd rfl h
    | some e => exact ⟨rfl, rfl⟩
  · intro h
    cases ek with
    | none => exact absurd rfl h
    | some e => exact ⟨rfl, rfl, rfl⟩
  · intro h1 h2
    simp [restorePayeeStatus, PayeeDraftStatus, PayeeValidStatus, PayeeStatus.Value,
      PayeeStatus.Display, PayeeEntity.Status, h1, h2, errorsIs]

/-- A run of C8 on a record whose three fields are malformed. -/
theorem RestorePayee_passes_malformed_through_witness :
    (RestorePayee "id-3" "n" "123" "PENDING" "e" "PHONE" "99" none).1.Document.Value = "123" ∧
    (RestorePayee "id-3" "n" "123" "PENDING" "e" "PHONE" "99" none).1.Document.String = "123" :=
  (RestorePayee_passes_malformed_through "id-3" "n" "123" "PENDING" "e" "PHONE" "99" none).1
    (by decide)

/-- C9. On the restoration path a field that still validates is restored as its validated
value: when `NewDocument` accepts the document the restored document is the one it returns
(same `Value()`, the digits of the input, and same `String()`); when `NewPixKey` accepts the
key the restored key is the one it returns (same `Type()`, `Value()` and `String()`); the
status `DRAFT` is restored as `PayeeDraftStatus` with display `Rascunho` and `VALID` as
`PayeeValidStatus` with display `Validado`. -/
theorem RestorePayee_keeps_validated_fields
    (id name document status email pixKeyType pixKeyValue : String) (bankAccount : BankAccountRef) :
    ((NewDocument document).2 = none →
      (RestorePayee id name document status email pixKeyType pixKeyValue bankAccount).1.Document
        = (NewDocument document).1 ∧
      (RestorePayee id name document status email pixKeyType pixKeyValue bankAccount).1.Document.Value
        = (NewDocument document).1.Value ∧
      (RestorePayee id name document status email pixKeyType pixKeyValue bankAccount).1.Document.String
        = (NewDocument document).1.String ∧
      (RestorePayee id name document status email pixKeyType pixKeyValue bankAccount).1.Document.Value
        = keepOnlyNumbers document) ∧
    ((NewPixKey pixKeyType pixKeyValue).2 = none →
      (RestorePayee id name document status email pixKeyType pixKeyValue bankAccount).1.PixKey
        = (NewPixKey pixKeyType pixKeyValue).1 ∧
      (RestorePayee id name document status email pixKeyType pixKeyValue bankAccount).1.PixKey.Type
        = (NewPixKey pixKeyType pixKeyValue).1.Type ∧
      (RestorePayee id name document status email pixKeyType pixKeyValue bankAccount).1.PixKey.Value
        = (NewPixKey pixKeyType pixKeyValue).1.Value ∧
      (RestorePayee id name document status email pixKeyType pixKeyValue bankAccount).1.PixKey.String
        = (NewPixKey pixKeyType pixKeyValue).1.String) ∧
    (status = "DRAFT" →
      (RestorePayee id name document status email pixKeyType pixKeyValue bankAccount).1.Status
        = PayeeDraftStatus ∧
      (RestorePayee id name document status email pixKeyType pixKeyValue bankAccount).1.Status.Display
        = "Rascunho") ∧
    (status = "VALID" →
      (RestorePayee id name document status email pixKeyType pixKeyValue bankAccount).1.Status
        = PayeeValidStatus ∧
      (RestorePayee id name document status email pixKeyType pixKeyValue bankAccount).1.Status.Display
        = "Validado") := by
  have hv := NewDocument_value document
  unfold RestorePayee
  generalize NewDocument document = rd at hv ⊢
  generalize NewPixKey pixKeyType pixKeyValue = rk
  obtain ⟨d, ed⟩ := rd
  obtain ⟨k, ek⟩ := rk
  refine ⟨?_, ?_, ?_, ?_⟩
  · intro h
    simp only at h
    subst h
    exact ⟨rfl, rfl, rfl, hv rfl⟩
  · intro h
    simp only at h
    subst h
    exact ⟨rfl, rfl, rfl, rfl⟩
  · intro h
    subst h
    exact ⟨rfl, rfl⟩
  · intro h
    subst h
    exact ⟨rfl, rfl⟩

/-- A run of C9: the punctuated CPF `128731.950-53` is restored as its digits, displayed
with the canonical mask. -/
theorem RestorePayee_keeps_validated_fields_witness :
    (RestorePayee "id-4" "n" "128731.950-53" "VALID" "e" "CPF" "77386735081" none).1.Document.Value
      = "12873195053" ∧
    (RestorePayee "id-4" "n" "128731.950-53" "VALID" "e" "CPF" "77386735081" none).1.Document.String
      = "128.731.950-53" :=
  ⟨((RestorePayee_keeps_validated_fields "id-4" "n" "128731.950-53" "VALID" "e" "CPF"
      "77386735081" none).1 (by decide)).2.1.trans (by decide),
    ((RestorePayee_keeps_validated_fields "id-4" "n" "128731.950-53" "VALID" "e" "CPF"
      "77386735081" none).1 (by decide)).2.2.1.trans (by decide)⟩

/-! ## C10: `EditDetails` on a failure -/

/-- C10, as stated, fails: on a payee in `PayeeDraftStatus` the call with an accepted new
email and an empty name returns `ErrNameEmptyString`, and the email of the payee has
changed from `old@mail.com` to `new@mail.com`. -/
theorem EditDetails_draft_error_changes_email :
    sampleDraftPayee.status = PayeeDraftStatus ∧
    sampleDraftPayee.Email = "old@mail.com" ∧
    (sampleDraftPayee.EditDetails "" "19039318000104" "EMAIL" "x@y.z" "new@mail.com").2
      = some .ErrNameEmptyString ∧
    (sampleDraftPayee.EditDetails "" "19039318000104" "EMAIL" "x@y.z" "new@mail.com").1.Email
      = "new@mail.com" := by
  decide

/-- C10, amended. On a payee in `PayeeDraftStatus`, when `EditDetails` returns an error, the
id, the status and the bank account are unchanged and one of the validations, taken in the
order email, name, document, pix key, is the first to fail; every field that comes after
the failing one in that order is the same as before the call, and the fields validated
before the failing one are not rolled back: each holds the value that its constructor
returned for the new argument (the email field holds `EmptyEmail` for an empty argument). -/
theorem EditDetails_draft_error_keeps_later_fields (p : PayeeEntity)
    (name document pixKeyType pixKey email : String) (hp : p.status = PayeeDraftStatus)
    (herr : (p.EditDetails name document pixKeyType pixKey email).2 ≠ none) :
    (p.EditDetails name document pixKeyType pixKey email).1.id = p.id ∧
    (p.EditDetails name document pixKeyType pixKey email).1.status = p.status ∧
    (p.EditDetails name document pixKeyType pixKey email).1.bankAccount = p.bankAccount ∧
    (((email ≠ "" ∧ (NewEmail email).2 ≠ none) ∧
        (p.EditDetails name document pixKeyType pixKey email).1.name = p.name ∧
        (p.EditDetails name document pixKeyType pixKey email).1.document = p.document ∧
        (p.EditDetails name document pixKeyType pixKey email).1.pixKey = p.pixKey) ∨
      ((email = "" ∨ (NewEmail email).2 = none) ∧ (NewName name).2 ≠ none ∧
        (p.EditDetails name document pixKeyType pixKey email).1.email =
          (if email = "" then EmptyEmail else (NewEmail email).1) ∧
        (p.EditDetails name document pixKeyType pixKey email).1.document = p.document ∧
        (p.EditDetails name document pixKeyType pixKey email).1.pixKey = p.pixKey) ∨
      ((email = "" ∨ (NewEmail email).2 = none) ∧ (NewName name).2 = none ∧
        (NewDocument document).2 ≠ none ∧
        (p.EditDetails name document pixKeyType pixKey email).1.email =
          (if email = "" then EmptyEmail else (NewEmail email).1) ∧
        (p.EditDetails name document pixKeyType pixKey email).1.name = (NewName name).1 ∧
        (p.EditDetails name document pixKeyType pixKey email).1.pixKey = p.pixKey) ∨
      ((email = "" ∨ (NewEmail email).2 = none) ∧ (NewName name).2 = none ∧
        (NewDocument document).2 = none ∧ (NewPixKey pixKeyType pixKey).2 ≠ none ∧
        (p.EditDetails name document pixKeyType pixKey email).1.email =
          (if email = "" then EmptyEmail else (NewEmail email).1) ∧
        (p.EditDetails name document pixKeyType pixKey email).1.name = (NewName name).1 ∧
        (p.EditDetails name document pixKeyType pixKey email).1.document =
          (NewDocument document).1)) := by
  unfold PayeeEntity.EditDetails at herr ⊢
  generalize NewName name = rn at herr ⊢
  generalize NewDocument document = rd at herr ⊢
  generalize NewPixKey pixKeyType pixKey = rk at herr ⊢
  generalize NewEmail email = re at herr ⊢
  obtain ⟨n, en⟩ := rn
  obtain ⟨d, ed⟩ := rd
  obtain ⟨k, ek⟩ := rk
  obtain ⟨em, ee⟩ := re
  by_cases hem : email = ""
  · subst hem
    cases en with
    | some e => simp [hp]
    | none =>
      cases ed with
      | some e => simp [hp]
      | none =>
        cases ek with
        | some e => simp [hp]
        | none => simp [hp] at herr
  · cases ee with
    | some e => simp [hem]
    | none =>
      cases en with
      | some e => simp [hem, hp]
      | none =>
        cases ed with
        | some e => simp [hem, hp]
        | none =>
          cases ek with
          | some e => simp [hem, hp]
          | none => simp [hem, hp] at herr

/-- A run of the amended C10: the empty name is rejected after the new email was stored;
the email is the new one, document and pix key are as before. -/
theorem EditDetails_draft_error_keeps_later_fields_witness :
    (sampleDraftPayee.status = PayeeDraftStatus ∧
      (sampleDraftPayee.EditDetails "" "77386735081" "CPF" "77386735081" "new@mail.com").2
        ≠ none) ∧
    (sampleDraftPayee.EditDetails "" "77386735081" "CPF" "77386735081" "new@mail.com").1.id
      = sampleDraftPayee.id ∧
    (sampleDraftPayee.EditDetails "" "77386735081" "CPF" "77386735081" "new@mail.com").1.email
      = ⟨"new@mail.com"⟩ ∧
    (sampleDraftPayee.EditDetails "" "77386735081" "CPF" "77386735081" "new@mail.com").1.document
      = sampleDraftPayee.document :=
  ⟨⟨by decide, by decide⟩,
    (EditDetails_draft_error_keeps_later_fields sampleDraftPayee "" "77386735081" "CPF"
      "77386735081" "new@mail.com" (by decide) (by decide)).1, by decide, by decide⟩

/-! ## C11 and C12: the first failure in `EditDetails` and `CreatePayee` -/

/-- C11. On a payee in `PayeeDraftStatus`, `EditDetails` validates email, name, document and
pix key in that order and stops at the first failure, returning the error of that
validator: the fields validated before the failing one hold their new validated values and
the fields after it hold the values they had before the call. -/
theorem EditDetails_draft_first_failure (p : PayeeEntity)
    (name document pixKeyType pixKey email : String) (hp : p.status = PayeeDraftStatus) :
    ((email ≠ "" ∧ (NewEmail email).2 ≠ none) →
      (p.EditDetails name document pixKeyType pixKey email).2 = (NewEmail email).2 ∧
      (p.EditDetails name document pixKeyType pixKey email).1.name = p.name ∧
      (p.EditDetails name document pixKeyType pixKey email).1.document = p.document ∧
      (p.EditDetails name document pixKeyType pixKey email).1.pixKey = p.pixKey) ∧
    ((email = "" ∨ (NewEmail email).2 = none) → (NewName name).2 ≠ none →
      (p.EditDetails name document pixKeyType pixKey email).2 = (NewName name).2 ∧
      (p.EditDetails name document pixKeyType pixKey email).1.email =
        (if email = "" then EmptyEmail else (NewEmail email).1) ∧
      (p.EditDetails name document pixKeyType pixKey email).1.document = p.document ∧
      (p.EditDetails name document pixKeyType pixKey email).1.pixKey = p.pixKey) ∧
    ((email = "" ∨ (NewEmail email).2 = none) → (NewName name).2 = none →
      (NewDocument document).2 ≠ none →
      (p.EditDetails name document pixKeyType pixKey email).2 = (NewDocument document).2 ∧
      (p.EditDetails name document pixKeyType pixKey email).1.email =
        (if email = "" then EmptyEmail else (NewEmail email).1) ∧
      (p.EditDetails name document pixKeyType pixKey email).1.name = (NewName name).1 ∧
      (p.EditDetails name document pixKeyType pixKey email).1.pixKey = p.pixKey) ∧
    ((email = "" ∨ (NewEmail email).2 = none) → (NewName name).2 = none →
      (NewDocument document).2 = none → (NewPixKey pixKeyType pixKey).2 ≠ none →
      (p.EditDetails name document pixKeyType pixKey email).2 = (NewPixKey pixKeyType pixKey).2 ∧
      (p.EditDetails name document pixKeyType pixKey email).1.email =
        (if email = "" then EmptyEmail else (NewEmail email).1) ∧
      (p.EditDetails name document pixKeyType pixKey email).1.name = (NewName name).1 ∧
      (p.EditDetails name document pixKeyType pixKey email).1.document =
        (NewDocument document).1) := by
  unfold PayeeEntity.EditDetails
  generalize NewName name = rn
  generalize NewDocument document = rd
  generalize NewPixKey pixKeyType pixKey = rk
  generalize NewEmail email = re
  obtain ⟨n, en⟩ := rn
  obtain ⟨d, ed⟩ := rd
  obtain ⟨k, ek⟩ := rk
  obtain ⟨em, ee⟩ := re
  by_cases hem : email = ""
  · subst hem
    cases en <;> cases ed <;> cases ek <;> simp [hp]
  · cases ee <;> cases en <;> cases ed <;> cases ek <;> simp [hem, hp]

/-- A run of C11: the document `123` is rejected after the new email and the new name were
stored; the pix key is the one before the call. -/
theorem EditDetails_draft_first_failure_witness :
    sampleDraftPayee.status = PayeeDraftStatus ∧
    ((sampleDraftPayee.EditDetails "Maria Souza" "123" "CPF" "77386735081" "new@mail.com").2
        = (NewDocument "123").2 ∧
      (sampleDraftPayee.EditDetails "Maria Souza" "123" "CPF" "77386735081" "new@mail.com").1.email
        = (if "new@mail.com" = "" then EmptyEmail else (NewEmail "new@mail.com").1) ∧
      (sampleDraftPayee.EditDetails "Maria Souza" "123" "CPF" "77386735081" "new@mail.com").1.name
        = (NewName "Maria Souza").1 ∧
      (sampleDraftPayee.EditDetails "Maria Souza" "123" "CPF" "77386735081" "new@mail.com").1.pixKey
        = sampleDraftPayee.pixKey) :=
  ⟨by decide,
    (EditDetails_draft_first_failure sampleDraftPayee "Maria Souza" "123" "CPF" "77386735081"
      "new@mail.com" (by decide)).2.2.1 (by decide) (by decide) (by decide)⟩

theorem NewDocument_error (v : String) :
    (NewDocument v).2 = none ∨
      NewDocument v = (.nil, some (fmtErrorfWrap .ErrInvalidDocument v)) := by
  unfold NewDocument
  generalize NewCPF v = r
  generalize NewCNPJ v = r'
  obtain ⟨c, e⟩ := r
  obtain ⟨c', e'⟩ := r'
  cases e <;> cases e' <;> simp

theorem NewPixKey_error (t v : String) :
    (NewPixKey t v).2 = none ∨ (NewPixKey t v).2 = some .ErrInvalidPixKeyType ∨
      (NewPixKey t v).2 = some .ErrInvalidCPF ∨ (NewPixKey t v).2 = some .ErrInvalidCNPJ ∨
      (NewPixKey t v).2 = some .ErrInvalidTelefone ∨ (NewPixKey t v).2 = some .ErrInvalidEmail ∨
      (NewPixKey t v).2 = some .ErrInvalidChaveAleatoria := by
  by_cases h1 : t = "CPF"
  · subst h1; rw [NewPixKey_CPF]
    rcases NewCPF_error v with h | h <;> simp [h]
  by_cases h2 : t = "CNPJ"
  · subst h2; rw [NewPixKey_CNPJ]
    rcases NewCNPJ_error v with h | h <;> simp [h]
  by_cases h3 : t = "TELEFONE"
  · subst h3; rw [NewPixKey_TELEFONE]
    rcases NewTelefonePixKey_error v with h | h <;> simp [h]
  by_cases h4 : t = "EMAIL"
  · subst h4; rw [NewPixKey_EMAIL]
    rcases NewEmail_error v with h | h <;> simp [h]
  by_cases h5 : t = "CHAVE_ALEATORIA"
  · subst h5; rw [NewPixKey_CHAVE_ALEATORIA]
    rcases NewChaveAleatoriaPixKey_error v with h | h <;> simp [h]
  rw [NewPixKey_other t v (by simp [h1, h2, h3, h4, h5])]
  simp

/-- C12. `CreatePayee` reports the first failure in the order name, document, pix key, email
and returns no payee: a rejected name gives `(nil, that error)` whatever the other
arguments; otherwise a rejected document gives the error of `NewDocument`, which is
`ErrInvalidDocument` for `errors.Is`; otherwise a rejected pix key gives the error of
`NewPixKey` (`ErrInvalidPixKeyType` or the error of the delegate); otherwise a non-empty
email rejected by `NewEmail` gives `ErrInvalidEmail`. -/
theorem CreatePayee_first_failure (uuid name document pixKeyType pixKey email : String) :
    ((NewName name).2 ≠ none →
      CreatePayee uuid name document pixKeyType pixKey email = (none, (NewName name).2)) ∧
    ((NewName name).2 = none → (NewDocument document).2 ≠ none →
      CreatePayee uuid name document pixKeyType pixKey email = (none, (NewDocument document).2) ∧
      ∃ err, (NewDocument document).2 = some err ∧ errorsIs err .ErrInvalidDocument = true) ∧
    ((NewName name).2 = none → (NewDocument document).2 = none →
      (NewPixKey pixKeyType pixKey).2 ≠ none →
      CreatePayee uuid name document pixKeyType pixKey email =
        (none, (NewPixKey pixKeyType pixKey).2) ∧
      ((NewPixKey pixKeyType pixKey).2 = some .ErrInvalidPixKeyType ∨
        (NewPixKey pixKeyType pixKey).2 = some .ErrInvalidCPF ∨
        (NewPixKey pixKeyType pixKey).2 = some .ErrInvalidCNPJ ∨
        (NewPixKey pixKeyType pixKey).2 = some .ErrInvalidTelefone ∨
        (NewPixKey pixKeyType pixKey).2 = some .ErrInvalidEmail ∨
        (NewPixKey pixKeyType pixKey).2 = some .ErrInvalidChaveAleatoria)) ∧
    ((NewName name).2 = none → (NewDocument document).2 = none →
      (NewPixKey pixKeyType pixKey).2 = none → email ≠ "" → (NewEmail email).2 ≠ none →
      CreatePayee uuid name document pixKeyType pixKey email = (none, some .ErrInvalidEmail)) := by
  have hdoc := NewDocument_error document
  have hkey := NewPixKey_error pixKeyType pixKey
  have hmail := NewEmail_error email
  unfold CreatePayee
  generalize NewName name = rn
  generalize NewDocument document = rd at hdoc ⊢
  generalize NewPixKey pixKeyType pixKey = rk at hkey ⊢
  generalize NewEmail email = re at hmail ⊢
  obtain ⟨n, en⟩ := rn
  obtain ⟨d, ed⟩ := rd
  obtain ⟨k, ek⟩ := rk
  obtain ⟨em, ee⟩ := re
  refine ⟨?_, ?_, ?_, ?_⟩
  · intro h
    cases en with
    | none => exact absurd rfl h
    | some e => rfl
  · intro h1 h2
    simp only at h1 h2
    subst h1
    cases ed with
    | none => exact absurd rfl h2
    | some e =>
      refine ⟨rfl, e, rfl, ?_⟩
      rcases hdoc with h | h
      · simp at h
      · simp only [Prod.mk.injEq, Option.some.injEq] at h
        rw [h.2]
        simp [fmtErrorfWrap, errorsIs]
  · intro h1 h2 h3
    simp only at h1 h2 h3
    subst h1 h2
    cases ek with
    | none => exact absurd rfl h3
    | some e =>
      refine ⟨rfl, ?_⟩
      rcases hkey with h | h
      · simp at h
      · exact h
  · intro h1 h2 h3 h4 h5
    simp only at h1 h2 h3 h5
    subst h1 h2 h3
    rcases hmail with h | h
    · exact absurd h h5
    · simp only at h
      subst h
      simp [h4]

/-- A run of C12 on the case `invalid cpf pix key` of the test suite. -/
theorem CreatePayee_first_failure_witness :
    CreatePayee "id-5" "Joao Silva" "77386735081" "CPF" "none" "" =
      (none, (NewPixKey "CPF" "none").2) ∧
    (NewPixKey "CPF" "none").2 = some .ErrInvalidCPF :=
  ⟨((CreatePayee_first_failure "id-5" "Joao Silva" "77386735081" "CPF" "none" "").2.2.1
      (by decide) (by decide) (by decide)).1, by decide⟩

/-! ## C18: the CPF of identical digits -/

theorem NewCNPJ_cpfWritten (ds : List Nat) (hlen : ds.length = 11) (h9 : ∀ d ∈ ds, d ≤ 9)
    (p3 p6 p9 : Bool) :
    NewCNPJ (cpfWritten ds p3 p6 p9) = (EmptyCNPJ, some .ErrInvalidCNPJ) := by
  rcases NewCNPJ_error_cases (cpfWritten ds p3 p6 p9) with ⟨ds', hds', -⟩ | h
  · have e1 := keepOnlyNumbers_cpfWritten ds h9 p3 p6 p9
    have e2 := keepOnlyNumbers_of_CNPJReference _ ds' hds'
    rw [e1] at e2
    have e3 : (digitChars ds).length = (digitChars ds').length :=
      congrArg (fun s : String => s.data.length) e2
    simp only [digitChars, List.length_map, hlen, hds'.1] at e3
    omega
  · exact h

theorem NewCPF_cnpjWritten (ds : List Nat) (hlen : ds.length = 14) (h9 : ∀ d ∈ ds, d ≤ 9)
    (p2 p5 p8 p12 : Bool) :
    NewCPF (cnpjWritten ds p2 p5 p8 p12) = (EmptyCPF, some .ErrInvalidCPF) := by
  rcases NewCPF_error_cases (cnpjWritten ds p2 p5 p8 p12) with ⟨ds', hds', -⟩ | h
  · have e1 := keepOnlyNumbers_cnpjWritten ds h9 p2 p5 p8 p12
    have e2 := keepOnlyNumbers_of_CPFReference _ ds' hds'
    rw [e1] at e2
    have e3 : (digitChars ds).length = (digitChars ds').length :=
      congrArg (fun s : String => s.data.length) e2
    simp only [digitChars, List.length_map, hlen, hds'.1] at e3
    omega
  · exact h

theorem NewDocument_of_both_fail (v : String) (h1 : (NewCPF v).2 ≠ none)
    (h2 : (NewCNPJ v).2 ≠ none) :
    NewDocument v = (.nil, some (fmtErrorfWrap .ErrInvalidDocument v)) := by
  unfold NewDocument
  generalize NewCPF v = r at h1 ⊢
  generalize NewCNPJ v = r' at h2 ⊢
  obtain ⟨c, e⟩ := r
  obtain ⟨c', e'⟩ := r'
  cases e with
  | none => exact absurd rfl h1
  | some e =>
    cases e' with
    | none => exact absurd rfl h2
    | some e' => rfl

theorem errorsIs_fmtErrorfWrap (v : String) :
    errorsIs (fmtErrorfWrap .ErrInvalidDocument v) .ErrInvalidDocument = true := by
  simp [fmtErrorfWrap, errorsIs]

/-- C18. For every digit `d` the sequence of `d` repeated 11 times satisfies both CPF
check-digit equations, and yet every written form of it is rejected by `NewCPF` with
`ErrInvalidCPF`, and by `NewDocument` with an error that is `ErrInvalidDocument`. -/
theorem CPF_all_identical_rejected (d : Nat) (p3 p6 p9 : Bool) (hd : d ≤ 9) :
    (List.replicate 11 d).getD 9 0 = cpfC1 (List.replicate 11 d) ∧
    (List.replicate 11 d).getD 10 0 = cpfC2 (List.replicate 11 d) ∧
    NewCPF (cpfWritten (List.replicate 11 d) p3 p6 p9) = (EmptyCPF, some .ErrInvalidCPF) ∧
    NewDocument (cpfWritten (List.replicate 11 d) p3 p6 p9) =
      (.nil, some (fmtErrorfWrap .ErrInvalidDocument (cpfWritten (List.replicate 11 d) p3 p6 p9))) ∧
    errorsIs (fmtErrorfWrap .ErrInvalidDocument (cpfWritten (List.replicate 11 d) p3 p6 p9))
      .ErrInvalidDocument = true := by
  have hlen : (List.replicate 11 d).length = 11 := List.length_replicate _ _
  have h9 : ∀ x ∈ List.replicate 11 d, x ≤ 9 := by
    intro x hx
    rw [List.eq_of_mem_replicate hx]
    exact hd
  have hsame : ∀ x ∈ List.replicate 11 d, ∀ y ∈ List.replicate 11 d, x = y := by
    intro x hx y hy
    rw [List.eq_of_mem_replicate hx, List.eq_of_mem_replicate hy]
  have hcpf : NewCPF (cpfWritten (List.replicate 11 d) p3 p6 p9) =
      (EmptyCPF, some .ErrInvalidCPF) := by
    have hc := cleanAndValidateCPF_written _ hlen h9 p3 p6 p9
    rw [if_pos (Or.inl hsame)] at hc
    unfold NewCPF
    rw [hc]
  have hcnpj := NewCNPJ_cpfWritten _ hlen h9 p3 p6 p9
  refine ⟨?_, ?_, hcpf, ?_, errorsIs_fmtErrorfWrap _⟩
  · interval_cases d <;> decide
  · interval_cases d <;> decide
  · apply NewDocument_of_both_fail
    · rw [hcpf]; simp
    · rw [hcnpj]; simp

/-- A run of C18 on `111.111.111-11`. -/
theorem CPF_all_identical_rejected_witness :
    1 ≤ 9 ∧
    NewCPF (cpfWritten (List.replicate 11 1) true true true) = (EmptyCPF, some .ErrInvalidCPF) ∧
    cpfWritten (List.replicate 11 1) true true true = "111.111.111-11" :=
  ⟨by decide, (CPF_all_identical_rejected 1 true true true (by decide)).2.2.1, by decide⟩

/-! ## C19: the CNPJ check digits -/

theorem range12 : List.range 12 = [0, 1, 2, 3, 4, 5, 6, 7, 8, 9, 10, 11] := by decide
theorem range13 : List.range 13 = [0, 1, 2, 3, 4, 5, 6, 7, 8, 9, 10, 11, 12] := by decide

theorem cnpjC1_eq_of_take (ds ds' : List Nat) (h : ds'.take 12 = ds.take 12) :
    cnpjC1 ds' = cnpjC1 ds := by
  have hg : ∀ i, i < 12 → ds'.getD i 0 = ds.getD i 0 := by
    intro i hi
    have h1 : (ds'.take 12).getD i 0 = (ds.take 12).getD i 0 := by rw [h]
    simpa [List.getD_eq_getElem?_getD, List.getElem?_take, hi] using h1
  simp only [cnpjC1, range12, List.map_cons, List.map_nil]
  rw [hg 0 (by omega), hg 1 (by omega), hg 2 (by omega), hg 3 (by omega), hg 4 (by omega),
    hg 5 (by omega), hg 6 (by omega), hg 7 (by omega), hg 8 (by omega), hg 9 (by omega),
    hg 10 (by omega), hg 11 (by omega)]

theorem cnpjC2_eq_of_take (ds ds' : List Nat) (h : ds'.take 13 = ds.take 13) :
    cnpjC2 ds' = cnpjC2 ds := by
  have hg : ∀ i, i < 13 → ds'.getD i 0 = ds.getD i 0 := by
    intro i hi
    have h1 : (ds'.take 13).getD i 0 = (ds.take 13).getD i 0 := by rw [h]
    simpa [List.getD_eq_getElem?_getD, List.getElem?_take, hi] using h1
  simp only [cnpjC2, range13, List.map_cons, List.map_nil]
  rw [hg 0 (by omega), hg 1 (by omega), hg 2 (by omega), hg 3 (by omega), hg 4 (by omega),
    hg 5 (by omega), hg 6 (by omega), hg 7 (by omega), hg 8 (by omega), hg 9 (by omega),
    hg 10 (by omega), hg 11 (by omega), hg 12 (by omega)]

theorem take_set_same {α : Type} (l : List α) (n : Nat) (a : α) :
    (l.set n a).take n = l.take n := by
  induction l generalizing n with
  | nil => simp
  | cons b l ih =>
    cases n with
    | zero => simp
    | succ n => simp [ih]

theorem getD_set_same (l : List Nat) (n : Nat) (a : Nat) (h : n < l.length) :
    (l.set n a).getD n 0 = a := by
  simp [List.getD_eq_getElem?_getD, List.getElem?_set_self h]

theorem take_succ_eq_of_getD (ds ds' : List Nat) (n : Nat) (h : ds'.take n = ds.take n)
    (hn : n < ds.length) (hn' : n < ds'.length) (hg : ds'.getD n 0 = ds.getD n 0) :
    ds'.take (n + 1) = ds.take (n + 1) := by
  rw [List.take_succ, List.take_succ, h]
  congr 1
  simp only [List.getD_eq_getElem?_getD, List.getElem?_eq_getElem hn,
    List.getElem?_eq_getElem hn', Option.getD_some] at hg
  simp [List.getElem?_eq_getElem hn, List.getElem?_eq_getElem hn', hg]

theorem NewCNPJ_written_ok (ds : List Nat) (hlen : ds.length = 14) (h9 : ∀ d ∈ ds, d ≤ 9)
    (p2 p5 p8 p12 : Bool) (hacc : (NewCNPJ (cnpjWritten ds p2 p5 p8 p12)).2 = none) :
    ds.getD 12 0 = cnpjC1 ds ∧ ds.getD 13 0 = cnpjC2 ds := by
  have hc := cleanAndValidateCNPJ_written ds hlen h9 p2 p5 p8 p12
  by_cases h : ds.getD 12 0 ≠ cnpjC1 ds ∨ ds.getD 13 0 ≠ cnpjC2 ds
  · rw [if_pos h] at hc
    unfold NewCNPJ at hacc
    rw [hc] at hacc
    simp at hacc
  · exact ⟨by_contra (fun h1 => h (Or.inl h1)), by_contra (fun h2 => h (Or.inr h2))⟩

theorem NewCNPJ_written_bad (ds : List Nat) (hlen : ds.length = 14) (h9 : ∀ d ∈ ds, d ≤ 9)
    (p2 p5 p8 p12 : Bool) (h : ds.getD 12 0 ≠ cnpjC1 ds ∨ ds.getD 13 0 ≠ cnpjC2 ds) :
    NewCNPJ (cnpjWritten ds p2 p5 p8 p12) = (EmptyCNPJ, some .ErrInvalidCNPJ) := by
  have hc := cleanAndValidateCNPJ_written ds hlen h9 p2 p5 p8 p12
  rw [if_pos h] at hc
  unfold NewCNPJ
  rw [hc]

theorem NewDocument_cnpjWritten_bad (ds : List Nat) (hlen : ds.length = 14)
    (h9 : ∀ d ∈ ds, d ≤ 9) (p2 p5 p8 p12 : Bool)
    (h : ds.getD 12 0 ≠ cnpjC1 ds ∨ ds.getD 13 0 ≠ cnpjC2 ds) :
    NewDocument (cnpjWritten ds p2 p5 p8 p12) =
      (.nil, some (fmtErrorfWrap .ErrInvalidDocument (cnpjWritten ds p2 p5 p8 p12))) := by
  apply NewDocument_of_both_fail
  · rw [NewCPF_cnpjWritten ds hlen h9]; simp
  · rw [NewCNPJ_written_bad ds hlen h9 _ _ _ _ h]; simp

theorem mem_set_le (ds : List Nat) (i x : Nat) (h9 : ∀ d ∈ ds, d ≤ 9) (hx : x ≤ 9) :
    ∀ d ∈ ds.set i x, d ≤ 9 := by
  intro d hd
  rcases List.mem_or_eq_of_mem_set hd with h | h
  · exact h9 d h
  · rw [h]; exact hx

/-- C19. For every 14-digit sequence accepted by `NewCNPJ`, replacing digit 12 alone, or
digit 13 alone, by a different digit gives a sequence that, in every written form,
`NewCNPJ` rejects with `ErrInvalidCNPJ` and `NewDocument` rejects with an error that is
`ErrInvalidDocument`; and an accepted sequence with the same first 12 digits is the same
sequence. -/
theorem CNPJ_check_digit_mutation_rejected (ds : List Nat) (p2 p5 p8 p12 q2 q5 q8 q12 : Bool)
    (x : Nat) (hlen : ds.length = 14) (h9 : ∀ d ∈ ds, d ≤ 9)
    (hacc : (NewCNPJ (cnpjWritten ds p2 p5 p8 p12)).2 = none) (hx : x ≤ 9) :
    (x ≠ ds.getD 12 0 →
      NewCNPJ (cnpjWritten (ds.set 12 x) q2 q5 q8 q12) = (EmptyCNPJ, some .ErrInvalidCNPJ) ∧
      NewDocument (cnpjWritten (ds.set 12 x) q2 q5 q8 q12) =
        (.nil, some (fmtErrorfWrap .ErrInvalidDocument (cnpjWritten (ds.set 12 x) q2 q5 q8 q12))) ∧
      errorsIs (fmtErrorfWrap .ErrInvalidDocument (cnpjWritten (ds.set 12 x) q2 q5 q8 q12))
        .ErrInvalidDocument = true) ∧
    (x ≠ ds.getD 13 0 →
      NewCNPJ (cnpjWritten (ds.set 13 x) q2 q5 q8 q12) = (EmptyCNPJ, some .ErrInvalidCNPJ) ∧
      NewDocument (cnpjWritten (ds.set 13 x) q2 q5 q8 q12) =
        (.nil, some (fmtErrorfWrap .ErrInvalidDocument (cnpjWritten (ds.set 13 x) q2 q5 q8 q12))) ∧
      errorsIs (fmtErrorfWrap .ErrInvalidDocument (cnpjWritten (ds.set 13 x) q2 q5 q8 q12))
        .ErrInvalidDocument = true) ∧
    (∀ ds' : List Nat, ds'.length = 14 → (∀ d ∈ ds', d ≤ 9) → ds'.take 12 = ds.take 12 →
      (NewCNPJ (cnpjWritten ds' q2 q5 q8 q12)).2 = none → ds' = ds) := by
  obtain ⟨e1, e2⟩ := NewCNPJ_written_ok ds hlen h9 p2 p5 p8 p12 hacc
  refine ⟨?_, ?_, ?_⟩
  · intro hne
    have hbad : (ds.set 12 x).getD 12 0 ≠ cnpjC1 (ds.set 12 x) ∨
        (ds.set 12 x).getD 13 0 ≠ cnpjC2 (ds.set 12 x) := by
      left
      rw [getD_set_same ds 12 x (by omega), cnpjC1_eq_of_take ds _ (take_set_same ds 12 x),
        ← e1]
      exact hne
    exact ⟨NewCNPJ_written_bad _ (by simp [hlen]) (mem_set_le ds 12 x h9 hx) _ _ _ _ hbad,
      NewDocument_cnpjWritten_bad _ (by simp [hlen]) (mem_set_le ds 12 x h9 hx) _ _ _ _ hbad,
      errorsIs_fmtErrorfWrap _⟩
  · intro hne
    have hbad : (ds.set 13 x).getD 12 0 ≠ cnpjC1 (ds.set 13 x) ∨
        (ds.set 13 x).getD 13 0 ≠ cnpjC2 (ds.set 13 x) := by
      right
      rw [getD_set_same ds 13 x (by omega), cnpjC2_eq_of_take ds _ (take_set_same ds 13 x),
        ← e2]
      exact hne
    exact ⟨NewCNPJ_written_bad _ (by simp [hlen]) (mem_set_le ds 13 x h9 hx) _ _ _ _ hbad,
      NewDocument_cnpjWritten_bad _ (by simp [hlen]) (mem_set_le ds 13 x h9 hx) _ _ _ _ hbad,
      errorsIs_fmtErrorfWrap _⟩
  · intro ds' hlen' h9' htake hacc'
    obtain ⟨e1', e2'⟩ := NewCNPJ_written_ok ds' hlen' h9' q2 q5 q8 q12 hacc'
    have g12 : ds'.getD 12 0 = ds.getD 12 0 := by
      rw [e1', e1, cnpjC1_eq_of_take ds ds' htake]
    have t13 := take_succ_eq_of_getD ds ds' 12 htake (by omega) (by omega) g12
    have g13 : ds'.getD 13 0 = ds.getD 13 0 := by
      rw [e2', e2, cnpjC2_eq_of_take ds ds' t13]
    have t14 := take_succ_eq_of_getD ds ds' 13 t13 (by omega) (by omega) g13
    rw [List.take_of_length_le (by omega), List.take_of_length_le (by omega)] at t14
    exact t14

/-- A run of C19 on the CNPJ `19039318000104` of the test suite: with the last digit
replaced by 5 it is rejected. -/
theorem CNPJ_check_digit_mutation_rejected_witness :
    ((NewCNPJ (cnpjWritten [1, 9, 0, 3, 9, 3, 1, 8, 0, 0, 0, 1, 0, 4] false false false false)).2
        = none ∧ (5 : Nat) ≠ 4) ∧
    NewCNPJ (cnpjWritten (List.set [1, 9, 0, 3, 9, 3, 1, 8, 0, 0, 0, 1, 0, 4] 13 5)
      false false false false) = (EmptyCNPJ, some .ErrInvalidCNPJ) :=
  ⟨⟨by decide, by decide⟩,
    ((CNPJ_check_digit_mutation_rejected [1, 9, 0, 3, 9, 3, 1, 8, 0, 0, 0, 1, 0, 4]
      false false false false false false false false 5 (by decide) (by decide) (by decide)
      (by decide)).2.1 (by decide)).1⟩

/-! ## The canonical masks -/

theorem isAsciiDigit_digitChar {d : Nat} (h : d ≤ 9) : isAsciiDigit (Nat.digitChar d) = true := by
  interval_cases d <;> decide

theorem CPF_String_digitChars (ds : List Nat) (hlen : ds.length = 11) (h9 : ∀ d ∈ ds, d ≤ 9) :
    CPF.String ⟨String.mk (digitChars ds)⟩ = cpfWritten ds true true true := by
  obtain ⟨d0, d1, d2, d3, d4, d5, d6, d7, d8, d9, d10, rfl⟩ := list_eleven ds hlen
  simp only [List.mem_cons, List.mem_singleton, forall_eq_or_imp, forall_eq,
    List.not_mem_nil, false_implies, implies_true, and_true] at h9
  obtain ⟨h0, h1, h2, h3, h4, h5, h6, h7, h8, h9', h10⟩ := h9
  simp [CPF.String, replaceAllDigitGroups, takeDigits, expandGroups, cpfWritten, digitChars,
    optSep, isAsciiDigit_digitChar, h0, h1, h2, h3, h4, h5, h6, h7, h8, h9', h10]

theorem CNPJ_String_digitChars (ds : List Nat) (hlen : ds.length = 14) (h9 : ∀ d ∈ ds, d ≤ 9) :
    CNPJ.String ⟨String.mk (digitChars ds)⟩ = cnpjWritten ds true true true true := by
  obtain ⟨d0, d1, d2, d3, d4, d5, d6, d7, d8, d9, d10, d11, d12, d13, rfl⟩ :=
    list_fourteen ds hlen
  simp only [List.mem_cons, List.mem_singleton, forall_eq_or_imp, forall_eq,
    List.not_mem_nil, false_implies, implies_true, and_true] at h9
  obtain ⟨h0, h1, h2, h3, h4, h5, h6, h7, h8, h9', h10, h11, h12, h13⟩ := h9
  simp [CNPJ.String, replaceAllDigitGroups, takeDigits, expandGroups, cnpjWritten, digitChars,
    optSep, isAsciiDigit_digitChar, h0, h1, h2, h3, h4, h5, h6, h7, h8, h9', h10, h11, h12, h13]

theorem length_cpfWritten (ds : List Nat) (hlen : ds.length = 11) :
    (cpfWritten ds true true true).length = 14 := by
  obtain ⟨d0, d1, d2, d3, d4, d5, d6, d7, d8, d9, d10, rfl⟩ := list_eleven ds hlen
  rfl

theorem length_cnpjWritten (ds : List Nat) (hlen : ds.length = 14) :
    (cnpjWritten ds true true true true).length = 18 := by
  obtain ⟨d0, d1, d2, d3, d4, d5, d6, d7, d8, d9, d10, d11, d12, d13, rfl⟩ :=
    list_fourteen ds hlen
  rfl

/-! ## C20: `String()` of a validated document -/

theorem NewCPF_mask (s : String) (h : (NewCPF s).2 = none) :
    ∃ ds, ds.length = 11 ∧ (∀ d ∈ ds, d ≤ 9) ∧
      (NewCPF s).1.Value = String.mk (digitChars ds) ∧
      (NewCPF s).1.String = cpfWritten ds true true true ∧
      (NewCPF s).1.String.length = 14 ∧
      keepOnlyNumbers (NewCPF s).1.String = (NewCPF s).1.Value := by
  rcases NewCPF_error_cases s with ⟨ds, hds, h1⟩ | h1
  · rw [h1]
    have hs := CPF_String_digitChars ds hds.1 hds.2.1
    refine ⟨ds, hds.1, hds.2.1, rfl, hs, ?_, ?_⟩
    · simp only [hs]
      exact length_cpfWritten ds hds.1
    · simp only [hs, CPF.Value]
      exact keepOnlyNumbers_cpfWritten ds hds.2.1 true true true
  · rw [h1] at h
    simp at h

theorem NewCNPJ_mask (s : String) (h : (NewCNPJ s).2 = none) :
    ∃ ds, ds.length = 14 ∧ (∀ d ∈ ds, d ≤ 9) ∧
      (NewCNPJ s).1.Value = String.mk (digitChars ds) ∧
      (NewCNPJ s).1.String = cnpjWritten ds true true true true ∧
      (NewCNPJ s).1.String.length = 18 ∧
      keepOnlyNumbers (NewCNPJ s).1.String = (NewCNPJ s).1.Value := by
  rcases NewCNPJ_error_cases s with ⟨ds, hds, h1⟩ | h1
  · rw [h1]
    have hs := CNPJ_String_digitChars ds hds.1 hds.2.1
    refine ⟨ds, hds.1, hds.2.1, rfl, hs, ?_, ?_⟩
    · simp only [hs]
      exact length_cnpjWritten ds hds.1
    · simp only [hs, CNPJ.Value]
      exact keepOnlyNumbers_cnpjWritten ds hds.2.1 true true true true
  · rw [h1] at h
    simp at h

theorem NewDocument_cases (s : String) (h : (NewDocument s).2 = none) :
    ((NewCPF s).2 = none ∧ NewDocument s = (.ofCPF (NewCPF s).1, none)) ∨
      ((NewCNPJ s).2 = none ∧ NewDocument s = (.ofCNPJ (NewCNPJ s).1, none)) := by
  unfold NewDocument at h ⊢
  generalize NewCPF s = r at h ⊢
  generalize NewCNPJ s = r' at h ⊢
  obtain ⟨c, e⟩ := r
  obtain ⟨c', e'⟩ := r'
  cases e with
  | none => exact Or.inl ⟨rfl, rfl⟩
  | some e =>
    cases e' with
    | none => exact Or.inr ⟨rfl, rfl⟩
    | some e' => simp at h

/-- C20. `String()` of a validated document is the canonical mask over `Value()`: for a
CPF returned by `NewCPF` or `NewDocument` with digits `d0..d10` it is
`d0d1d2.d3d4d5.d6d7d8-d9d10` (14 characters), and for a CNPJ with digits `d0..d13` it is
`d0d1.d2d3d4.d5d6d7/d8d9d10d11-d12d13` (18 characters); removing the non-digits from
`String()` gives `Value()` back; `77386735081` gives `773.867.350-81` and `19039318000104`
gives `19.039.318/0001-04`. -/
theorem validated_document_String_is_mask (s : String) :
    ((NewCPF s).2 = none →
      ∃ ds, ds.length = 11 ∧ (∀ d ∈ ds, d ≤ 9) ∧
        (NewCPF s).1.Value = String.mk (digitChars ds) ∧
        (NewCPF s).1.String = cpfWritten ds true true true ∧
        (NewCPF s).1.String.length = 14 ∧
        keepOnlyNumbers (NewCPF s).1.String = (NewCPF s).1.Value) ∧
    ((NewCNPJ s).2 = none →
      ∃ ds, ds.length = 14 ∧ (∀ d ∈ ds, d ≤ 9) ∧
        (NewCNPJ s).1.Value = String.mk (digitChars ds) ∧
        (NewCNPJ s).1.String = cnpjWritten ds true true true true ∧
        (NewCNPJ s).1.String.length = 18 ∧
        keepOnlyNumbers (NewCNPJ s).1.String = (NewCNPJ s).1.Value) ∧
    ((NewDocument s).2 = none →
      ((∃ ds, ds.length = 11 ∧ (∀ d ∈ ds, d ≤ 9) ∧
          (NewDocument s).1.Value = String.mk (digitChars ds) ∧
          (NewDocument s).1.String = cpfWritten ds true true true ∧
          (NewDocument s).1.String.length = 14) ∨
        (∃ ds, ds.length = 14 ∧ (∀ d ∈ ds, d ≤ 9) ∧
          (NewDocument s).1.Value = String.mk (digitChars ds) ∧
          (NewDocument s).1.String = cnpjWritten ds true true true true ∧
          (NewDocument s).1.String.length = 18)) ∧
      keepOnlyNumbers (NewDocument s).1.String = (NewDocument s).1.Value) ∧
    (NewDocument "77386735081").1.String = "773.867.350-81" ∧
    (NewDocument "19039318000104").1.String = "19.039.318/0001-04" := by
  refine ⟨NewCPF_mask s, NewCNPJ_mask s, ?_, by decide, by decide⟩
  intro h
  rcases NewDocument_cases s h with ⟨h1, h2⟩ | ⟨h1, h2⟩
  · obtain ⟨ds, a1, a2, a3, a4, a5, a6⟩ := NewCPF_mask s h1
    rw [h2]
    exact ⟨Or.inl ⟨ds, a1, a2, a3, a4, a5⟩, a6⟩
  · obtain ⟨ds, a1, a2, a3, a4, a5, a6⟩ := NewCNPJ_mask s h1
    rw [h2]
    exact ⟨Or.inr ⟨ds, a1, a2, a3, a4, a5⟩, a6⟩

/-- A run of C20 on the punctuated CNPJ `63.2051020001-63` of the test suite. -/
theorem validated_document_String_is_mask_witness :
    keepOnlyNumbers (NewDocument "63.2051020001-63").1.String
      = (NewDocument "63.2051020001-63").1.Value ∧
    (NewDocument "63.2051020001-63").1.String = "63.205.102/0001-63" :=
  ⟨((validated_document_String_is_mask "63.2051020001-63").2.2.1 (by decide)).2, by decide⟩

/-! ## The phone pattern -/

theorem mem_reDigit (x : List Char) :
    x ∈ reDigit.matches' ↔ ∃ d, d ≤ 9 ∧ x = [Nat.digitChar d] := by
  rw [reDigit, mem_anyOf]
  constructor
  · rintro ⟨c, hc, rfl⟩
    obtain ⟨d, hd, rfl⟩ := (mem_digits_iff c).mp hc
    exact ⟨d, hd, rfl⟩
  · rintro ⟨d, hd, rfl⟩
    exact ⟨_, digitChar_mem hd, rfl⟩

theorem mem_nonzero_digit (x : List Char) :
    x ∈ (anyOf ['1', '2', '3', '4', '5', '6', '7', '8', '9']).matches' ↔
      ∃ d, 1 ≤ d ∧ d ≤ 9 ∧ x = [Nat.digitChar d] := by
  rw [mem_anyOf]
  constructor
  · rintro ⟨c, hc, rfl⟩
    simp only [List.mem_cons, List.mem_singleton] at hc
    rcases hc with h | h | h | h | h | h | h | h | h | h
    · exact ⟨1, by omega, by omega, by rw [h]; rfl⟩
    · exact ⟨2, by omega, by omega, by rw [h]; rfl⟩
    · exact ⟨3, by omega, by omega, by rw [h]; rfl⟩
    · exact ⟨4, by omega, by omega, by rw [h]; rfl⟩
    · exact ⟨5, by omega, by omega, by rw [h]; rfl⟩
    · exact ⟨6, by omega, by omega, by rw [h]; rfl⟩
    · exact ⟨7, by omega, by omega, by rw [h]; rfl⟩
    · exact ⟨8, by omega, by omega, by rw [h]; rfl⟩
    · exact ⟨9, by omega, by omega, by rw [h]; rfl⟩
    · simp at h
  · rintro ⟨d, h1, h9, rfl⟩
    refine ⟨_, ?_, rfl⟩
    interval_cases d <;> decide

theorem mem_single (c : Char) (x : List Char) : x ∈ (anyOf [c]).matches' ↔ x = [c] := by
  rw [mem_anyOf]
  constructor
  · rintro ⟨c', hc', rfl⟩
    simp at hc'
    rw [hc']
  · rintro rfl
    exact ⟨c, by simp, rfl⟩

theorem digitChar_nine : Nat.digitChar 9 = '9' := rfl

theorem TelefoneRegex_match_iff (s : String) :
    MatchString TelefoneRegex s = true ↔
      ∃ ds cc, isLocalPhone ds ∧ cc ∈ ["", "55", "+55"] ∧ s = phoneWritten ds cc := by
  rw [MatchString_iff]
  simp only [TelefoneRegex, mem_mul, mem_optional, mem_single, mem_reDigit,
    mem_nonzero_digit, mem_reDigit_pow]
  constructor
  · rintro ⟨_, _, ⟨_, _, hpre, ⟨_, _, ⟨a, ha1, ha9, rfl⟩, ⟨b, hb9, rfl⟩, rfl⟩, rfl⟩,
      ⟨_, _, rfl, ⟨xs, hxs, hxs9, rfl⟩, rfl⟩, hs⟩
    have hloc : isLocalPhone (a :: b :: 9 :: xs) := by
      refine ⟨by simp [hxs], ?_, ha1, rfl⟩
      intro d hd
      simp only [List.mem_cons] at hd
      rcases hd with rfl | rfl | rfl | h
      · exact ha9
      · exact hb9
      · omega
      · exact hxs9 d h
    rcases hpre with rfl | ⟨_, _, ⟨_, _, (rfl | rfl), rfl, rfl⟩, rfl, rfl⟩
    · exact ⟨_, "", hloc, by simp,
        String.ext (by rw [hs]; simp [phoneWritten, digitChars, digitChar_nine])⟩
    · exact ⟨_, "55", hloc, by simp,
        String.ext (by rw [hs]; simp [phoneWritten, digitChars, digitChar_nine])⟩
    · exact ⟨_, "+55", hloc, by simp,
        String.ext (by rw [hs]; simp [phoneWritten, digitChars, digitChar_nine])⟩
  · rintro ⟨ds, cc, ⟨hlen, h9, h1, h2⟩, hcc, rfl⟩
    obtain ⟨d0, d1, d2, d3, d4, d5, d6, d7, d8, d9, d10, rfl⟩ := list_eleven ds hlen
    simp only [List.getD_cons_zero, List.getD_cons_succ] at h1 h2
    subst h2
    have hpre : cc.data = [] ∨ ∃ a b, (∃ a_1 b_1, (a_1 = [] ∨ a_1 = ['+']) ∧ b_1 = ['5'] ∧
        a = a_1 ++ b_1) ∧ b = ['5'] ∧ cc.data = a ++ b := by
      simp only [List.mem_cons, List.mem_singleton, List.not_mem_nil, or_false] at hcc
      rcases hcc with rfl | rfl | rfl
      · exact Or.inl rfl
      · exact Or.inr ⟨_, _, ⟨_, _, Or.inl rfl, rfl, rfl⟩, rfl, rfl⟩
      · exact Or.inr ⟨_, _, ⟨_, _, Or.inr rfl, rfl, rfl⟩, rfl, rfl⟩
    refine ⟨_, _, ⟨cc.data, _, hpre, ⟨_, _, ⟨d0, h1, h9 d0 (by simp), rfl⟩,
      ⟨d1, h9 d1 (by simp), rfl⟩, rfl⟩, rfl⟩,
      ⟨_, _, rfl, ⟨[d3, d4, d5, d6, d7, d8, d9, d10], rfl, ?_, rfl⟩, rfl⟩, ?_⟩
    · intro d hd
      exact h9 d (by simp only [List.mem_cons] at hd ⊢; tauto)
    · simp [phoneWritten, digitChars, digitChar_nine]

/-! ## C13: `NewTelefonePixKey` -/

theorem NewTelefonePixKey_no_match (s : String) (h : MatchString TelefoneRegex s = false) :
    NewTelefonePixKey s = (EmptyTelefonePixKey, some .ErrInvalidTelefone) := by
  simp [NewTelefonePixKey, h]

theorem len_append (a b : String) : len (a ++ b) = len a + len b := by
  simp [len]

theorem NewTelefonePixKey_written (ds : List Nat) (cc : String) (hloc : isLocalPhone ds)
    (hcc : cc ∈ ["", "55", "+55"]) :
    NewTelefonePixKey (phoneWritten ds cc) = (⟨"55" ++ String.mk (digitChars ds)⟩, none) := by
  have hm : MatchString TelefoneRegex (phoneWritten ds cc) = true :=
    (TelefoneRegex_match_iff _).mpr ⟨ds, cc, hloc, hcc, rfl⟩
  obtain ⟨hlen, h9, -, -⟩ := hloc
  have hl := len_digitChars ds h9
  have hf := filter_digitChars ds h9
  have hk : keepOnlyNumbers (phoneWritten ds cc) =
      (if cc = "" then "" else "55") ++ String.mk (digitChars ds) := by
    rw [keepOnlyNumbers_eq_filter]
    apply String.ext
    simp only [List.mem_cons, List.mem_singleton, List.not_mem_nil, or_false] at hcc
    rcases hcc with rfl | rfl | rfl
    · simp [phoneWritten, hf]
    · simp only [phoneWritten, String.data_append, List.filter_append, hf]
      rfl
    · simp only [phoneWritten, String.data_append, List.filter_append, hf]
      rfl
  have h55 : len "55" = 2 := by decide
  have he : len "" = 0 := by decide
  unfold NewTelefonePixKey
  simp only [hm, Bool.not_true, Bool.false_eq_true, if_false, hk]
  by_cases hc : cc = ""
  · simp only [hc, if_true, len_append, he, hl, hlen, Nat.zero_add, decide_True]
    apply congrArg (fun v : String => ((⟨v⟩ : TelefonePixKey), (none : Option GoError)))
    apply String.ext
    simp
  · simp only [hc, if_false, len_append, h55, hl, hlen]
    rfl

/-- C13. Phone keys: for every local number `n` of the form `DD9XXXXXXXX` the inputs `n`,
`55n` and `+55n` are accepted by `NewTelefonePixKey` and yield the value `55n`, displayed
as `+55n`; every other string is rejected with `ErrInvalidTelefone`; hence the value of an
accepted phone key is 13 digits that start with `55`, and `String()` is `+` followed by
`Value()`. -/
theorem NewTelefonePixKey_three_forms (s : String) :
    (∀ ds, isLocalPhone ds →
      NewTelefonePixKey (String.mk (digitChars ds)) =
        (⟨"55" ++ String.mk (digitChars ds)⟩, none) ∧
      NewTelefonePixKey ("55" ++ String.mk (digitChars ds)) =
        (⟨"55" ++ String.mk (digitChars ds)⟩, none) ∧
      NewTelefonePixKey ("+55" ++ String.mk (digitChars ds)) =
        (⟨"55" ++ String.mk (digitChars ds)⟩, none) ∧
      TelefonePixKey.String ⟨"55" ++ String.mk (digitChars ds)⟩ =
        "+55" ++ String.mk (digitChars ds)) ∧
    ((¬ ∃ ds, isLocalPhone ds ∧ (s = String.mk (digitChars ds) ∨
        s = "55" ++ String.mk (digitChars ds) ∨ s = "+55" ++ String.mk (digitChars ds))) →
      NewTelefonePixKey s = (EmptyTelefonePixKey, some .ErrInvalidTelefone)) ∧
    ((NewTelefonePixKey s).2 = none →
      ∃ vs, vs.length = 13 ∧ (∀ d ∈ vs, d ≤ 9) ∧ vs.take 2 = [5, 5] ∧
        (NewTelefonePixKey s).1.Value = String.mk (digitChars vs) ∧
        (NewTelefonePixKey s).1.String = "+" ++ (NewTelefonePixKey s).1.Value) := by
  refine ⟨?_, ?_, ?_⟩
  · intro ds hloc
    refine ⟨?_, ?_, ?_, rfl⟩
    · have h := NewTelefonePixKey_written ds "" hloc (by simp)
      simpa [phoneWritten] using h
    · exact NewTelefonePixKey_written ds "55" hloc (by simp)
    · exact NewTelefonePixKey_written ds "+55" hloc (by simp)
  · intro hno
    apply NewTelefonePixKey_no_match
    by_contra hm
    obtain ⟨ds, cc, hloc, hcc, rfl⟩ := (TelefoneRegex_match_iff s).mp (by simpa using hm)
    apply hno
    refine ⟨ds, hloc, ?_⟩
    simp only [List.mem_cons, List.mem_singleton, List.not_mem_nil, or_false] at hcc
    rcases hcc with rfl | rfl | rfl
    · left; simp [phoneWritten]
    · right; left; rfl
    · right; right; rfl
  · intro hok
    by_cases hm : MatchString TelefoneRegex s = true
    · obtain ⟨ds, cc, hloc, hcc, rfl⟩ := (TelefoneRegex_match_iff s).mp hm
      rw [NewTelefonePixKey_written ds cc hloc hcc]
      refine ⟨5 :: 5 :: ds, by simp [hloc.1], ?_, rfl, ?_, rfl⟩
      · intro d hd
        simp only [List.mem_cons] at hd
        rcases hd with rfl | rfl | h
        · omega
        · omega
        · exact hloc.2.1 d h
      · apply String.ext
        simp [TelefonePixKey.Value, digitChars]
        decide
    · rw [NewTelefonePixKey_no_match s (by simpa using hm)] at hok
      simp at hok

/-- A run of C13 on the number `99987654321` of the test suite. -/
theorem NewTelefonePixKey_three_forms_witness :
    NewTelefonePixKey ("+55" ++ String.mk (digitChars [9, 9, 9, 8, 7, 6, 5, 4, 3, 2, 1])) =
      (⟨"5599987654321"⟩, none) ∧
    TelefonePixKey.String ⟨"5599987654321"⟩ = "+5599987654321" :=
  ⟨((NewTelefonePixKey_three_forms "").1 [9, 9, 9, 8, 7, 6, 5, 4, 3, 2, 1]
      ⟨by decide, by decide, by decide, by decide⟩).2.2.1.trans (by decide), by decide⟩

/-! ## C14: `NewChaveAleatoriaPixKey` -/

theorem stringsToLower_data (s : String) : (stringsToLower s).data = s.data.map lowerChar := rfl

theorem mem_reHex_pow (n : Nat) (x : List Char) :
    x ∈ (reHex ^ n).matches' ↔ x.length = n ∧ ∀ c ∈ x, c ∈ hexDigits :=
  mem_anyOf_pow _ n x

theorem ChaveAleatoriaRegex_match_iff (s : String) :
    MatchString ChaveAleatoriaRegex s = true ↔ isChaveAleatoria s := by
  rw [MatchString_iff]
  simp only [ChaveAleatoriaRegex, mem_mul, mem_single, mem_reHex_pow, isChaveAleatoria]
  constructor
  · rintro ⟨_, _, ⟨_, _, ⟨_, _, ⟨_, _, ⟨_, _, ⟨_, _, ⟨_, _, ⟨_, _, ⟨h1, a1⟩, rfl, rfl⟩,
      ⟨h2, a2⟩, rfl⟩, rfl, rfl⟩, ⟨h3, a3⟩, rfl⟩, rfl, rfl⟩, ⟨h4, a4⟩, rfl⟩, rfl, rfl⟩,
      ⟨h5, a5⟩, hs⟩
    refine ⟨_, _, _, _, _, h1, h2, h3, h4, h5, ?_, hs⟩
    intro c hc
    simp only [List.mem_append] at hc
    rcases hc with (((h | h) | h) | h) | h
    · exact a1 c h
    · exact a2 c h
    · exact a3 c h
    · exact a4 c h
    · exact a5 c h
  · rintro ⟨g1, g2, g3, g4, g5, h1, h2, h3, h4, h5, hall, hs⟩
    have hsub : ∀ g : List Char, (∀ c ∈ g, c ∈ g1 ++ g2 ++ g3 ++ g4 ++ g5) → ∀ c ∈ g, c ∈ hexDigits :=
      fun g hg c hc => hall c (hg c hc)
    exact ⟨_, _, ⟨_, _, ⟨_, _, ⟨_, _, ⟨_, _, ⟨_, _, ⟨_, _, ⟨_, _,
      ⟨h1, hsub g1 (fun c hc => by simp [hc])⟩, rfl, rfl⟩,
      ⟨h2, hsub g2 (fun c hc => by simp [hc])⟩, rfl⟩, rfl, rfl⟩,
      ⟨h3, hsub g3 (fun c hc => by simp [hc])⟩, rfl⟩, rfl, rfl⟩,
      ⟨h4, hsub g4 (fun c hc => by simp [hc])⟩, rfl⟩, rfl, rfl⟩,
      ⟨h5, hsub g5 (fun c hc => by simp [hc])⟩, hs⟩

theorem lowerChar_hex {c : Char} (h : c ∈ hexDigits) :
    lowerChar c ∈ hexDigits ∧ lowerChar (lowerChar c) = lowerChar c := by
  simp only [hexDigits, List.mem_cons, List.mem_singleton, List.not_mem_nil, or_false] at h
  rcases h with h | h | h | h | h | h | h | h | h | h | h | h | h | h | h | h | h | h | h | h | h | h <;>
    (subst h; decide)

theorem lowerChar_dash : lowerChar '-' = '-' := by decide

theorem map_lowerChar_hex (g : List Char) (h : ∀ c ∈ g, c ∈ hexDigits) :
    (∀ c ∈ g.map lowerChar, c ∈ hexDigits) ∧ (g.map lowerChar).map lowerChar = g.map lowerChar := by
  constructor
  · intro c hc
    obtain ⟨c', hc', rfl⟩ := List.mem_map.mp hc
    exact (lowerChar_hex (h c' hc')).1
  · rw [List.map_map]
    apply List.map_congr_left
    intro c hc
    exact (lowerChar_hex (h c hc)).2

theorem isChaveAleatoria_toLower (s : String) (h : isChaveAleatoria s) :
    isChaveAleatoria (stringsToLower s) ∧ stringsToLower (stringsToLower s) = stringsToLower s := by
  obtain ⟨g1, g2, g3, g4, g5, h1, h2, h3, h4, h5, hall, hs⟩ := h
  have hsub : ∀ g : List Char, (∀ c ∈ g, c ∈ g1 ++ g2 ++ g3 ++ g4 ++ g5) → ∀ c ∈ g, c ∈ hexDigits :=
    fun g hg c hc => hall c (hg c hc)
  have m1 := map_lowerChar_hex g1 (hsub g1 (fun c hc => by simp [hc]))
  have m2 := map_lowerChar_hex g2 (hsub g2 (fun c hc => by simp [hc]))
  have m3 := map_lowerChar_hex g3 (hsub g3 (fun c hc => by simp [hc]))
  have m4 := map_lowerChar_hex g4 (hsub g4 (fun c hc => by simp [hc]))
  have m5 := map_lowerChar_hex g5 (hsub g5 (fun c hc => by simp [hc]))
  have hd : (stringsToLower s).data = g1.map lowerChar ++ ['-'] ++ g2.map lowerChar ++ ['-']
      ++ g3.map lowerChar ++ ['-'] ++ g4.map lowerChar ++ ['-'] ++ g5.map lowerChar := by
    rw [stringsToLower_data, hs]
    simp [lowerChar_dash]
  constructor
  · refine ⟨_, _, _, _, _, by simp [h1], by simp [h2], by simp [h3], by simp [h4], by simp [h5],
      ?_, hd⟩
    intro c hc
    simp only [List.mem_append] at hc
    rcases hc with (((h | h) | h) | h) | h
    · exact m1.1 c h
    · exact m2.1 c h
    · exact m3.1 c h
    · exact m4.1 c h
    · exact m5.1 c h
  · apply String.ext
    rw [stringsToLower_data, hd]
    simp only [List.map_append, m1.2, m2.2, m3.2, m4.2, m5.2, List.map_cons, List.map_nil,
      lowerChar_dash]

/-- C14. Random keys are case-insensitive: `NewChaveAleatoriaPixKey` succeeds if and only
if the input is made of hexadecimal groups of 8, 4, 4, 4 and 12 characters, upper or lower
case, separated by single `-`, and otherwise fails with `ErrInvalidChaveAleatoria`; for an
accepted input the lower-cased input is accepted too and both yield the same `Value()`,
which is the lower-cased input and is also `String()`. -/
theorem NewChaveAleatoriaPixKey_case_insensitive (s : String) :
    ((NewChaveAleatoriaPixKey s).2 = none ↔ isChaveAleatoria s) ∧
    ((NewChaveAleatoriaPixKey s).2 ≠ none →
      NewChaveAleatoriaPixKey s = (EmptyChaveAleatoriaPixKey, some .ErrInvalidChaveAleatoria)) ∧
    (isChaveAleatoria s →
      isChaveAleatoria (stringsToLower s) ∧
      (NewChaveAleatoriaPixKey (stringsToLower s)).2 = none ∧
      (NewChaveAleatoriaPixKey (stringsToLower s)).1.Value = (NewChaveAleatoriaPixKey s).1.Value ∧
      (NewChaveAleatoriaPixKey s).1.Value = stringsToLower s ∧
      (NewChaveAleatoriaPixKey s).1.String = (NewChaveAleatoriaPixKey s).1.Value) := by
  have hcode : ∀ v : String, isChaveAleatoria v →
      NewChaveAleatoriaPixKey v = (⟨stringsToLower v⟩, none) := by
    intro v hv
    have hm := (ChaveAleatoriaRegex_match_iff v).mpr hv
    simp [NewChaveAleatoriaPixKey, hm]
  have hfail : ∀ v : String, ¬ isChaveAleatoria v →
      NewChaveAleatoriaPixKey v = (EmptyChaveAleatoriaPixKey, some .ErrInvalidChaveAleatoria) := by
    intro v hv
    have hm : MatchString ChaveAleatoriaRegex v = false := by
      by_contra h
      exact hv ((ChaveAleatoriaRegex_match_iff v).mp (by simpa using h))
    simp [NewChaveAleatoriaPixKey, hm]
  refine ⟨⟨?_, ?_⟩, ?_, ?_⟩
  · intro hok
    by_contra hno
    rw [hfail s hno] at hok
    simp at hok
  · intro h
    rw [hcode s h]
  · intro hne
    apply hfail
    intro h
    rw [hcode s h] at hne
    exact hne rfl
  · intro h
    obtain ⟨hl, hidem⟩ := isChaveAleatoria_toLower s h
    rw [hcode s h, hcode _ hl]
    exact ⟨hl, rfl, by simp [ChaveAleatoriaPixKey.Value, hidem], rfl, rfl⟩

/-- A run of C14 on the mixed-case key of the test suite. -/
theorem NewChaveAleatoriaPixKey_case_insensitive_witness :
    (NewChaveAleatoriaPixKey "9FCacF81-0F7f-47A2-881D-dA4F41A39AFD").1.Value
      = "9fcacf81-0f7f-47a2-881d-da4f41a39afd" ∧
    (NewChaveAleatoriaPixKey "9fcacf81-0f7f-47a2-881d-da4f41a39afd").1.Value
      = "9fcacf81-0f7f-47a2-881d-da4f41a39afd" :=
  ⟨(((NewChaveAleatoriaPixKey_case_insensitive "9FCacF81-0F7f-47A2-881D-dA4F41A39AFD").2.2
      (((NewChaveAleatoriaPixKey_case_insensitive
        "9FCacF81-0F7f-47A2-881D-dA4F41A39AFD").1).mp (by decide))).2.2.2.1).trans (by decide),
    by decide⟩

/-! ## C15: `NewEmail` -/

theorem mem_star_anyOf (l : List Char) (x : List Char) :
    x ∈ (anyOf l).star.matches' ↔ ∀ c ∈ x, c ∈ l := by
  rw [RegularExpression.matches'_star, Language.mem_kstar]
  constructor
  · rintro ⟨L, rfl, hL⟩ c hc
    obtain ⟨y, hy, hcy⟩ := List.mem_flatten.mp hc
    obtain ⟨c', hc', rfl⟩ := (mem_anyOf l y).mp (hL y hy)
    simp at hcy
    rw [hcy]
    exact hc'
  · intro h
    refine ⟨x.map (fun c => [c]), ?_, ?_⟩
    · induction x with
      | nil => rfl
      | cons a x ih =>
        simp only [List.map_cons, List.flatten_cons, List.singleton_append, List.cons.injEq,
          true_and]
        exact ih (fun c hc => h c (List.mem_cons_of_mem _ hc))
    · intro y hy
      obtain ⟨c, hc, rfl⟩ := List.mem_map.mp hy
      exact (mem_anyOf l _).mpr ⟨c, h c hc, rfl⟩

theorem mem_oneOrMore_anyOf (l : List Char) (x : List Char) :
    x ∈ (oneOrMore (anyOf l)).matches' ↔ x ≠ [] ∧ ∀ c ∈ x, c ∈ l := by
  rw [oneOrMore, mem_mul]
  constructor
  · rintro ⟨a, b, ha, hb, rfl⟩
    obtain ⟨c, hc, rfl⟩ := (mem_anyOf l a).mp ha
    refine ⟨by simp, ?_⟩
    intro c' hc'
    simp only [List.singleton_append, List.mem_cons] at hc'
    rcases hc' with rfl | h
    · exact hc
    · exact (mem_star_anyOf l b).mp hb c' h
  · rintro ⟨hne, hall⟩
    cases x with
    | nil => exact absurd rfl hne
    | cons a x =>
      exact ⟨[a], x, (mem_anyOf l _).mpr ⟨a, hall a (List.mem_cons_self _ _), rfl⟩,
        (mem_star_anyOf l x).mpr (fun c hc => hall c (List.mem_cons_of_mem _ hc)), rfl⟩

theorem EmailRegex_match_iff (t : String) :
    MatchString EmailRegex t = true ↔ isEmailShaped t := by
  rw [MatchString_iff]
  rw [show EmailRegex = oneOrMore (anyOf emailLocalChars) * anyOf ['@']
    * oneOrMore (anyOf emailDomainChars) from rfl]
  simp only [mem_mul, mem_single, mem_oneOrMore_anyOf, isEmailShaped]
  constructor
  · rintro ⟨_, d, ⟨l, _, ⟨hl, al⟩, rfl, rfl⟩, ⟨hd, ad⟩, hs⟩
    exact ⟨l, d, hl, hd, al, ad, hs⟩
  · rintro ⟨l, d, hl, hd, al, ad, hs⟩
    exact ⟨_, d, ⟨l, _, ⟨hl, al⟩, rfl, rfl⟩, ⟨hd, ad⟩, hs⟩

theorem emailLocalChars_props : ∀ c ∈ emailLocalChars,
    unicodeIsSpace c = false ∧ ¬ ('A' ≤ c ∧ c ≤ 'Z') := by decide

theorem emailDomainChars_props : ∀ c ∈ emailDomainChars,
    unicodeIsSpace c = false ∧ ¬ ('A' ≤ c ∧ c ≤ 'Z') := by decide

theorem stringsTrimSpace_of_isEmailShaped (t : String) (h : isEmailShaped t) :
    stringsTrimSpace t = t := by
  obtain ⟨l, d, hl, hd, al, ad, hs⟩ := h
  apply String.ext
  simp only [stringsTrimSpace, hs]
  cases l with
  | nil => exact absurd rfl hl
  | cons a l =>
    have ha : unicodeIsSpace a = false := (emailLocalChars_props a (al a (List.mem_cons_self _ _))).1
    have hz : unicodeIsSpace (d.getLast hd) = false :=
      (emailDomainChars_props _ (ad _ (List.getLast_mem hd))).1
    have h1 : List.dropWhile unicodeIsSpace (a :: l ++ ['@'] ++ d) = a :: l ++ ['@'] ++ d := by
      simp [List.dropWhile, ha]
    rw [h1]
    have h2 : (a :: l ++ ['@'] ++ d).reverse =
        d.getLast hd :: (a :: l ++ ['@'] ++ d.dropLast).reverse := by
      conv_lhs => rw [← List.dropLast_append_getLast hd]
      simp
    rw [h2]
    have h3 : List.dropWhile unicodeIsSpace (d.getLast hd :: (a :: l ++ ['@'] ++ d.dropLast).reverse)
        = d.getLast hd :: (a :: l ++ ['@'] ++ d.dropLast).reverse := by
      simp [List.dropWhile, hz]
    rw [h3, ← h2, List.reverse_reverse]

/-- C15. `NewEmail` succeeds if and only if the input without its leading and trailing
white space is a non-empty run of `[a-z0-9+_.-]`, then `@`, then a non-empty run of
`[a-z0-9.-]`, so an upper-case letter anywhere in it is rejected; on success `Value()` is the
trimmed input, on failure the result is `EmptyEmail` with `ErrInvalidEmail`; and `NewEmail`
applied to the value of an accepted email returns that email again. -/
theorem NewEmail_accepts_exactly_shape (v : String) :
    ((NewEmail v).2 = none ↔ isEmailShaped (stringsTrimSpace v)) ∧
    ((NewEmail v).2 = none → (NewEmail v).1.Value = stringsTrimSpace v) ∧
    ((NewEmail v).2 ≠ none → NewEmail v = (EmptyEmail, some .ErrInvalidEmail)) ∧
    (∀ c ∈ (stringsTrimSpace v).data, ('A' ≤ c ∧ c ≤ 'Z') →
      NewEmail v = (EmptyEmail, some .ErrInvalidEmail)) ∧
    ((NewEmail v).2 = none → NewEmail (NewEmail v).1.Value = NewEmail v) := by
  have hcode : ∀ w : String, isEmailShaped (stringsTrimSpace w) →
      NewEmail w = (⟨stringsTrimSpace w⟩, none) := by
    intro w hw
    have hm := (EmailRegex_match_iff _).mpr hw
    simp [NewEmail, hm]
  have hfail : ∀ w : String, ¬ isEmailShaped (stringsTrimSpace w) →
      NewEmail w = (EmptyEmail, some .ErrInvalidEmail) := by
    intro w hw
    have hm : MatchString EmailRegex (stringsTrimSpace w) = false := by
      by_contra h
      exact hw ((EmailRegex_match_iff _).mp (by simpa using h))
    simp [NewEmail, hm]
  have hiff : (NewEmail v).2 = none → isEmailShaped (stringsTrimSpace v) := by
    intro hok
    by_contra hno
    rw [hfail v hno] at hok
    simp at hok
  refine ⟨⟨hiff, ?_⟩, ?_, ?_, ?_, ?_⟩
  · intro h
    rw [hcode v h]
  · intro hok
    rw [hcode v (hiff hok)]
    rfl
  · intro hne
    apply hfail
    intro h
    rw [hcode v h] at hne
    exact hne rfl
  · intro c hc hup
    apply hfail
    rintro ⟨l, d, hl, hd, al, ad, hs⟩
    rw [hs] at hc
    simp only [List.mem_append, List.mem_singleton] at hc
    rcases hc with (h | h) | h
    · exact (emailLocalChars_props c (al c h)).2 hup
    · subst h
      revert hup
      decide
    · exact (emailDomainChars_props c (ad c h)).2 hup
  · intro hok
    have hs := hiff hok
    rw [hcode v hs]
    have ht := stringsTrimSpace_of_isEmailShaped _ hs
    have hs' : isEmailShaped (stringsTrimSpace (stringsTrimSpace v)) := by rw [ht]; exact hs
    simp only [Email.Value]
    rw [hcode _ hs', ht]

/-- A run of C15 on the email with spaces around of the test suite. -/
theorem NewEmail_accepts_exactly_shape_witness :
    (NewEmail "    italo@feitosa.com       ").1.Value = "italo@feitosa.com" ∧
    NewEmail "Italo@feitosa.com" = (EmptyEmail, some .ErrInvalidEmail) :=
  ⟨((NewEmail_accepts_exactly_shape "    italo@feitosa.com       ").2.1 (by decide)).trans
      (by decide),
    (NewEmail_accepts_exactly_shape "Italo@feitosa.com").2.2.2.1 'I' (by decide) (by decide)⟩

/-! ## `strings.Fields` and `strings.Join` -/

theorem fieldsFrom_isWord (l cur : List Char) (hcur : ∀ c ∈ cur, unicodeIsSpace c = false) :
    ∀ w ∈ fieldsFrom l cur, isWord w := by
  induction l generalizing cur with
  | nil =>
    intro w hw
    simp only [fieldsFrom] at hw
    split_ifs at hw with h
    · simp at hw
    · simp only [List.mem_singleton] at hw
      subst hw
      exact ⟨h, hcur⟩
  | cons c l ih =>
    intro w hw
    simp only [fieldsFrom] at hw
    split_ifs at hw with h1 h2
    · exact ih [] (by simp) w hw
    · simp only [List.mem_cons] at hw
      rcases hw with rfl | hw
      · exact ⟨h2, hcur⟩
      · exact ih [] (by simp) w hw
    · apply ih (cur ++ [c]) _ w hw
      intro c' hc'
      simp only [List.mem_append, List.mem_singleton] at hc'
      rcases hc' with h | rfl
      · exact hcur c' h
      · simpa using h1

theorem stringsFields_isWord (v : String) : ∀ w ∈ stringsFields v, isWord w :=
  fieldsFrom_isWord v.data [] (by simp)

theorem foldl_join_data (ws : List String) (acc : String) :
    (ws.foldl (fun acc x => acc ++ " " ++ x) acc).data = acc.data ++ spacedTail ws := by
  induction ws generalizing acc with
  | nil => simp [spacedTail]
  | cons w ws ih =>
    rw [List.foldl_cons, ih]
    simp [spacedTail]

theorem stringsJoin_cons_data (w : String) (ws : List String) :
    (stringsJoin (w :: ws) " ").data = w.data ++ spacedTail ws := by
  simp only [stringsJoin]
  exact foldl_join_data ws w

theorem stringsJoin_eq_empty_iff (ws : List String) (h : ∀ w ∈ ws, isWord w) :
    stringsJoin ws " " = "" ↔ ws = [] := by
  constructor
  · intro he
    cases ws with
    | nil => rfl
    | cons w ws =>
      have hd := congrArg String.data he
      rw [stringsJoin_cons_data] at hd
      have hw := (h w (List.mem_cons_self _ _)).1
      simp at hd
      exact absurd hd.1 hw
  · rintro rfl
    rfl

theorem fieldsFrom_word (w rest cur : List Char) (hw : ∀ c ∈ w, unicodeIsSpace c = false) :
    fieldsFrom (w ++ rest) cur = fieldsFrom rest (cur ++ w) := by
  induction w generalizing cur with
  | nil => simp
  | cons c w ih =>
    have hc : unicodeIsSpace c = false := hw c (List.mem_cons_self _ _)
    have step : fieldsFrom (c :: (w ++ rest)) cur = fieldsFrom (w ++ rest) (cur ++ [c]) := by
      simp only [fieldsFrom, hc, Bool.false_eq_true, if_false]
    rw [List.cons_append, step,
      ih (cur ++ [c]) (fun c' hc' => hw c' (List.mem_cons_of_mem _ hc'))]
    simp

theorem space_isSpace : unicodeIsSpace ' ' = true := by decide

theorem fieldsFrom_spacedTail (ws : List String) (h : ∀ w ∈ ws, isWord w) (cur : List Char)
    (hcur : cur ≠ []) :
    fieldsFrom (spacedTail ws) cur = String.mk cur :: ws := by
  induction ws generalizing cur with
  | nil => simp [spacedTail, fieldsFrom, hcur]
  | cons w ws ih =>
    have hw := h w (List.mem_cons_self _ _)
    have e : spacedTail (w :: ws) = ' ' :: (w.data ++ spacedTail ws) := by simp [spacedTail]
    rw [e]
    simp only [fieldsFrom, space_isSpace, if_true, hcur, if_false]
    rw [fieldsFrom_word w.data _ [] hw.2, List.nil_append,
      ih (fun w' hw' => h w' (List.mem_cons_of_mem _ hw')) w.data hw.1]

theorem stringsFields_stringsJoin (ws : List String) (h : ∀ w ∈ ws, isWord w) :
    stringsFields (stringsJoin ws " ") = ws := by
  cases ws with
  | nil => rfl
  | cons w ws =>
    have hw := h w (List.mem_cons_self _ _)
    simp only [stringsFields]
    rw [stringsJoin_cons_data, fieldsFrom_word w.data _ [] hw.2, List.nil_append,
      fieldsFrom_spacedTail ws (fun w' hw' => h w' (List.mem_cons_of_mem _ hw')) w.data hw.1]

/-! ## `strings.Split` and the cases of `NewName` -/

theorem ne_space_of_not_isSpace {c : Char} (h : unicodeIsSpace c = false) : c ≠ ' ' := by
  rintro rfl
  rw [space_isSpace] at h
  exact Bool.noConfusion h

theorem splitFrom_word (w rest cur : List Char) (fuel : Nat) (hw : ∀ c ∈ w, c ≠ ' ')
    (hf : (w ++ rest).length ≤ fuel) :
    splitFrom [' '] fuel (w ++ rest) cur = splitFrom [' '] (fuel - w.length) rest (cur ++ w) := by
  induction w generalizing cur fuel with
  | nil => simp
  | cons c w ih =>
    cases fuel with
    | zero => simp at hf
    | succ f =>
      have hc : c ≠ ' ' := hw c (List.mem_cons_self _ _)
      have step : splitFrom [' '] (f + 1) (c :: (w ++ rest)) cur =
          splitFrom [' '] f (w ++ rest) (cur ++ [c]) := by
        simp [splitFrom, hc]
      rw [List.cons_append, step,
        ih (cur ++ [c]) f (fun c' hc' => hw c' (List.mem_cons_of_mem _ hc'))
          (by simp at hf ⊢; omega)]
      simp

theorem splitFrom_spacedTail (ws : List String) (h : ∀ w ∈ ws, isWord w) (cur : List Char)
    (fuel : Nat) (hf : (spacedTail ws).length ≤ fuel) :
    splitFrom [' '] fuel (spacedTail ws) cur = String.mk cur :: ws := by
  induction ws generalizing cur fuel with
  | nil => cases fuel <;> simp [spacedTail, splitFrom]
  | cons w ws ih =>
    have hw := h w (List.mem_cons_self _ _)
    have e : spacedTail (w :: ws) = ' ' :: (w.data ++ spacedTail ws) := by simp [spacedTail]
    rw [e] at hf ⊢
    cases fuel with
    | zero => simp at hf
    | succ f =>
      have step : splitFrom [' '] (f + 1) (' ' :: (w.data ++ spacedTail ws)) cur =
          String.mk cur :: splitFrom [' '] f (w.data ++ spacedTail ws) [] := by
        simp [splitFrom]
      rw [step, splitFrom_word w.data _ [] f
        (fun c hc => ne_space_of_not_isSpace (hw.2 c hc)) (by simp at hf ⊢; omega),
        List.nil_append,
        ih (fun w' hw' => h w' (List.mem_cons_of_mem _ hw')) w.data _
          (by simp at hf ⊢; omega)]

theorem stringsSplit_stringsJoin (w : String) (ws : List String) (h : ∀ x ∈ w :: ws, isWord x) :
    stringsSplit (stringsJoin (w :: ws) " ") " " = w :: ws := by
  have hw := h w (List.mem_cons_self _ _)
  simp only [stringsSplit]
  rw [stringsJoin_cons_data]
  rw [splitFrom_word w.data _ [] _ (fun c hc => ne_space_of_not_isSpace (hw.2 c hc))
    (le_refl _), List.nil_append,
    splitFrom_spacedTail ws (fun w' hw' => h w' (List.mem_cons_of_mem _ hw')) w.data _
      (by simp)]

theorem NewName_of_fields (v : String) :
    (stringsFields v = [] → NewName v = (EmptyName, some .ErrNameEmptyString)) ∧
    ((stringsFields v).length = 1 → NewName v = (EmptyName, some .ErrNameLessThenTwoWords)) ∧
    (2 ≤ (stringsFields v).length → len ((stringsFields v).getD 0 "") < 2 →
      NewName v = (EmptyName, some .ErrShortFirstName)) ∧
    (2 ≤ (stringsFields v).length → 2 ≤ len ((stringsFields v).getD 0 "") →
      NewName v = (⟨stringsJoin (stringsFields v) " "⟩, none)) := by
  have hwords := stringsFields_isWord v
  have hempty := stringsJoin_eq_empty_iff (stringsFields v) hwords
  unfold NewName
  generalize stringsFields v = ws at hwords hempty ⊢
  cases ws with
  | nil => simp [stringsJoin]
  | cons w ws =>
    have hne : ¬ stringsJoin (w :: ws) " " = "" := fun h => by simpa using hempty.mp h
    have hsplit := stringsSplit_stringsJoin w ws hwords
    simp only [hne, if_false, hsplit, List.length_cons, List.getD_cons_zero]
    refine ⟨fun h => by simp at h, ?_, ?_, ?_⟩
    · intro h
      have h' : ws.length + 1 < 2 := by omega
      simp [h']
    · intro h1 h2
      have h' : ¬ ws.length + 1 < 2 := by omega
      simp [h', h2]
    · intro h1 h2
      have h' : ¬ ws.length + 1 < 2 := by omega
      have h2' : ¬ len w < 2 := by omega
      simp [h', h2']

/-! ## C16 and C17: `NewName` -/

theorem noDoubleSpace_of_no_space (l : List Char) (h : ∀ c ∈ l, c ≠ ' ') : noDoubleSpace l := by
  induction l with
  | nil => exact List.chain'_nil
  | cons a l ih =>
    refine List.chain'_cons'.mpr ⟨?_, ih (fun c hc => h c (List.mem_cons_of_mem _ hc))⟩
    intro y _ hy
    exact h a (List.mem_cons_self _ _) hy.1

theorem joined_shape (ws : List String) (h : ∀ w ∈ ws, isWord w) (cur : List Char)
    (hne : cur ≠ []) (hcur : ∀ c ∈ cur, unicodeIsSpace c = false) :
    (∀ c ∈ (cur ++ spacedTail ws).getLast?, unicodeIsSpace c = false) ∧
      noDoubleSpace (cur ++ spacedTail ws) := by
  induction ws generalizing cur with
  | nil =>
    simp only [spacedTail, List.flatMap_nil, List.append_nil]
    exact ⟨fun c hc => hcur c (List.mem_of_mem_getLast? hc),
      noDoubleSpace_of_no_space cur (fun c hc => ne_space_of_not_isSpace (hcur c hc))⟩
  | cons w ws ih =>
    have hw := h w (List.mem_cons_self _ _)
    have e : spacedTail (w :: ws) = ' ' :: (w.data ++ spacedTail ws) := by simp [spacedTail]
    obtain ⟨ih1, ih2⟩ := ih (fun w' hw' => h w' (List.mem_cons_of_mem _ hw')) w.data hw.1 hw.2
    have hY : w.data ++ spacedTail ws ≠ [] := by simp [hw.1]
    rw [e]
    constructor
    · intro c hc
      apply ih1 c
      have e2 : cur ++ ' ' :: (w.data ++ spacedTail ws) =
          (cur ++ [' ']) ++ (w.data ++ spacedTail ws) := by simp
      rw [e2, List.getLast?_append_of_ne_nil _ hY] at hc
      exact hc
    · refine List.chain'_append.mpr ⟨noDoubleSpace_of_no_space cur
        (fun c hc => ne_space_of_not_isSpace (hcur c hc)), ?_, ?_⟩
      · refine List.chain'_cons'.mpr ⟨?_, ih2⟩
        intro y hy hyy
        have hy' : y ∈ w.data := by
          rw [List.head?_append_of_ne_nil _ hw.1] at hy
          exact List.mem_of_mem_head? hy
        exact ne_space_of_not_isSpace (hw.2 y hy') hyy.2
      · intro x hx y _ hxy
        exact ne_space_of_not_isSpace (hcur x (List.mem_of_mem_getLast? hx)) hxy.1

/-- C16. For every input accepted by `NewName`, `Value()` is the white-space-separated words
of the input joined by single spaces: it has at least two words, no white space at either
end and no two consecutive spaces, its words are the words of the input in the same order,
and `NewName` applied to it returns the same name. -/
theorem NewName_value_normalised (v : String) (h : (NewName v).2 = none) :
    (NewName v).1.Value = stringsJoin (stringsFields v) " " ∧
    2 ≤ (stringsFields v).length ∧
    (∀ w ∈ stringsFields v, isWord w) ∧
    (∀ c ∈ (NewName v).1.Value.data.head?, unicodeIsSpace c = false) ∧
    (∀ c ∈ (NewName v).1.Value.data.getLast?, unicodeIsSpace c = false) ∧
    noDoubleSpace (NewName v).1.Value.data ∧
    stringsFields (NewName v).1.Value = stringsFields v ∧
    NewName (NewName v).1.Value = NewName v := by
  obtain ⟨h0, h1, h2, h3⟩ := NewName_of_fields v
  have hwords := stringsFields_isWord v
  have hlen : 2 ≤ (stringsFields v).length ∧ 2 ≤ len ((stringsFields v).getD 0 "") := by
    by_contra hcon
    have : NewName v = (EmptyName, some .ErrNameEmptyString) ∨
        NewName v = (EmptyName, some .ErrNameLessThenTwoWords) ∨
        NewName v = (EmptyName, some .ErrShortFirstName) := by
      by_cases c0 : stringsFields v = []
      · exact Or.inl (h0 c0)
      · by_cases c1 : (stringsFields v).length = 1
        · exact Or.inr (Or.inl (h1 c1))
        · have c2 : 2 ≤ (stringsFields v).length := by
            have : (stringsFields v).length ≠ 0 := fun hz => c0 (List.length_eq_zero.mp hz)
            omega
          have c3 : len ((stringsFields v).getD 0 "") < 2 := by
            by_contra hc
            exact hcon ⟨c2, by omega⟩
          exact Or.inr (Or.inr (h2 c2 c3))
    rcases this with e | e | e <;> rw [e] at h <;> simp at h
  have hval := h3 hlen.1 hlen.2
  have hfields := stringsFields_stringsJoin (stringsFields v) hwords
  obtain ⟨h0', h1', h2', h3'⟩ := NewName_of_fields (stringsJoin (stringsFields v) " ")
  rw [hfields] at h3'
  rw [hval]
  simp only [Name.Value]
  refine ⟨trivial, hlen.1, hwords, ?_, ?_, ?_, hfields, h3' hlen.1 hlen.2⟩
  · generalize stringsFields v = ws at hwords hlen
    cases ws with
    | nil => simp at hlen
    | cons w ws =>
      have hw := hwords w (List.mem_cons_self _ _)
      rw [stringsJoin_cons_data, List.head?_append_of_ne_nil _ hw.1]
      intro c hc
      exact hw.2 c (List.mem_of_mem_head? hc)
  · generalize stringsFields v = ws at hwords hlen
    cases ws with
    | nil => simp at hlen
    | cons w ws =>
      have hw := hwords w (List.mem_cons_self _ _)
      rw [stringsJoin_cons_data]
      exact (joined_shape ws (fun w' hw' => hwords w' (List.mem_cons_of_mem _ hw')) w.data
        hw.1 hw.2).1
  · generalize stringsFields v = ws at hwords hlen
    cases ws with
    | nil => simp at hlen
    | cons w ws =>
      have hw := hwords w (List.mem_cons_self _ _)
      rw [stringsJoin_cons_data]
      exact (joined_shape ws (fun w' hw' => hwords w' (List.mem_cons_of_mem _ hw')) w.data
        hw.1 hw.2).2

/-- A run of C16 on the company name with extra spaces of the test suite. -/
theorem NewName_value_normalised_witness :
    (NewName "The     Fake   Company  LTDA").2 = none ∧
    (NewName "The     Fake   Company  LTDA").1.Value = "The Fake Company LTDA" ∧
    NewName (NewName "The     Fake   Company  LTDA").1.Value =
      NewName "The     Fake   Company  LTDA" :=
  ⟨by decide,
    (NewName_value_normalised "The     Fake   Company  LTDA" (by decide)).1.trans (by decide),
    (NewName_value_normalised "The     Fake   Company  LTDA" (by decide)).2.2.2.2.2.2.2⟩

/-- C17, the failing input: the first word of `É Silva` has one character, and `NewName`
accepts the input, because `len` counts the two bytes of `É`. -/
theorem NewName_accepts_one_character_first_word :
    stringsFields "É Silva" = ["É", "Silva"] ∧
    ("É" : String).length = 1 ∧
    len "É" = 2 ∧
    NewName "É Silva" = (⟨"É Silva"⟩, none) := by
  decide

/-! ## C23 and C25: what `RestorePayee` trusts and what it logs -/

/-- C23. `RestorePayee` trusts id, name, email and the bank-account reference verbatim: for
all inputs the restored payee has `ID()` equal to the id, `Name()` to the name, `Email()` to
the email and `BankAccount()` to the reference passed, with no normalisation and no
validation; so it is for the name `x`, which `NewName` rejects, and the email `A B`, which
`NewEmail` rejects. -/
theorem RestorePayee_trusts_verbatim
    (id name document status email pixKeyType pixKeyValue : String) (bankAccount : BankAccountRef) :
    (RestorePayee id name document status email pixKeyType pixKeyValue bankAccount).1.ID = id ∧
    (RestorePayee id name document status email pixKeyType pixKeyValue bankAccount).1.Name
      = name ∧
    (RestorePayee id name document status email pixKeyType pixKeyValue bankAccount).1.Email
      = email ∧
    (RestorePayee id name document status email pixKeyType pixKeyValue bankAccount).1.BankAccount
      = bankAccount ∧
    ((NewName "  x ").2 ≠ none ∧ (NewEmail " A B").2 ≠ none ∧
      (RestorePayee id "  x " document status " A B" pixKeyType pixKeyValue bankAccount).1.Name
        = "  x " ∧
      (RestorePayee id "  x " document status " A B" pixKeyType pixKeyValue bankAccount).1.Email
        = " A B") :=
  ⟨rfl, rfl, rfl, rfl, by decide, by decide, rfl, rfl⟩

/-- A run of C23 on a record with a bank-account reference. -/
theorem RestorePayee_trusts_verbatim_witness :
    (RestorePayee "id-6" " x" "123" "VALID" "A@B" "CPF" "1" (some 3)).1.Name = " x" ∧
    (RestorePayee "id-6" " x" "123" "VALID" "A@B" "CPF" "1" (some 3)).1.BankAccount = some 3 :=
  ⟨(RestorePayee_trusts_verbatim "id-6" " x" "123" "VALID" "A@B" "CPF" "1" (some 3)).2.1,
    (RestorePayee_trusts_verbatim "id-6" " x" "123" "VALID" "A@B" "CPF" "1" (some 3)).2.2.2.1⟩

/-- C25. With the warning sink as an explicit log, `RestorePayee` emits one warning for each
malformed field and none otherwise: the number of warnings is the number of true conditions
among: the status is neither `DRAFT` nor `VALID`, `NewPixKey` fails, `NewDocument` fails;
each warning carries the payee id; a record whose three fields validate logs nothing. -/
theorem RestorePayee_one_warning_per_malformed_field
    (id name document status email pixKeyType pixKeyValue : String) (bankAccount : BankAccountRef) :
    (RestorePayee id name document status email pixKeyType pixKeyValue bankAccount).2.length =
      (if status ≠ "DRAFT" ∧ status ≠ "VALID" then 1 else 0)
        + (if (NewPixKey pixKeyType pixKeyValue).2 ≠ none then 1 else 0)
        + (if (NewDocument document).2 ≠ none then 1 else 0) ∧
    (∀ r ∈ (RestorePayee id name document status email pixKeyType pixKeyValue bankAccount).2,
      r.level = "WARN" ∧ ("payee_id", id) ∈ r.attrs) ∧
    ((status = "DRAFT" ∨ status = "VALID") → (NewPixKey pixKeyType pixKeyValue).2 = none →
      (NewDocument document).2 = none →
      (RestorePayee id name document status email pixKeyType pixKeyValue bankAccount).2 = []) := by
  unfold RestorePayee
  generalize NewDocument document = rd
  generalize NewPixKey pixKeyType pixKeyValue = rk
  obtain ⟨d, ed⟩ := rd
  obtain ⟨k, ek⟩ := rk
  by_cases h1 : status = "DRAFT"
  · subst h1
    cases ed <;> cases ek <;>
      simp [restorePayeeStatus, PayeeDraftStatus, PayeeValidStatus, PayeeStatus.Value, errorsIs,
        slogWarn]
  · by_cases h2 : status = "VALID"
    · subst h2
      cases ed <;> cases ek <;>
        simp [restorePayeeStatus, PayeeDraftStatus, PayeeValidStatus, PayeeStatus.Value,
          errorsIs, slogWarn]
    · cases ed <;> cases ek <;>
        simp [restorePayeeStatus, PayeeDraftStatus, PayeeValidStatus, PayeeStatus.Value,
          errorsIs, slogWarn, h1, h2]

/-- A run of C25 on a record whose three fields are malformed: three warnings. -/
theorem RestorePayee_one_warning_per_malformed_field_witness :
    (RestorePayee "id-3" "n" "123" "PENDING" "e" "PHONE" "99" none).2.length = 3 ∧
    (RestorePayee "id-1" "Joao Silva" "19039318000104" "VALID" "old@mail.com" "EMAIL" "x@y.z"
      none).2 = [] :=
  ⟨(RestorePayee_one_warning_per_malformed_field "id-3" "n" "123" "PENDING" "e" "PHONE" "99"
      none).1.trans (by decide),
    (RestorePayee_one_warning_per_malformed_field "id-1" "Joao Silva" "19039318000104" "VALID"
      "old@mail.com" "EMAIL" "x@y.z" none).2.2 (Or.inr rfl) (by decide) (by decide)⟩

/-! ## C27: the field that failed in `EditDetails` -/

theorem NewName_zero_on_failure (v : String) (h : (NewName v).2 ≠ none) :
    (NewName v).1 = EmptyName := by
  unfold NewName at h ⊢
  simp only at h ⊢
  split_ifs at h ⊢ <;> first | rfl | exact absurd rfl h

theorem NewEmail_zero_on_failure (v : String) (h : (NewEmail v).2 ≠ none) :
    NewEmail v = (EmptyEmail, some .ErrInvalidEmail) := by
  rcases NewEmail_cases v with h' | h'
  · rw [h'] at h
    exact absurd rfl h
  · exact h'

theorem NewDocument_zero_on_failure (v : String) (h : (NewDocument v).2 ≠ none) :
    (NewDocument v).1 = .nil := by
  rcases NewDocument_error v with h' | h'
  · exact absurd h' h
  · rw [h']

theorem NewCPFPixKey_zero_on_failure (v : String) (h : (NewCPF v).2 ≠ none) :
    (NewCPFPixKey v).1 = EmptyCPFPixKey := by
  unfold NewCPFPixKey
  generalize NewCPF v = r at h ⊢
  obtain ⟨c, e⟩ := r
  cases e with
  | none => exact absurd rfl h
  | some e => rfl

theorem NewCNPJPixKey_zero_on_failure (v : String) (h : (NewCNPJ v).2 ≠ none) :
    (NewCNPJPixKey v).1 = EmptyCNPJPixKey := by
  unfold NewCNPJPixKey
  generalize NewCNPJ v = r at h ⊢
  obtain ⟨c, e⟩ := r
  cases e with
  | none => exact absurd rfl h
  | some e => rfl

theorem NewEmailPixKey_zero_on_failure (v : String) (h : (NewEmail v).2 ≠ none) :
    (NewEmailPixKey v).1 = EmptyEmailPixKey := by
  unfold NewEmailPixKey
  generalize NewEmail v = r at h ⊢
  obtain ⟨c, e⟩ := r
  cases e with
  | none => exact absurd rfl h
  | some e => rfl

theorem NewTelefonePixKey_zero_on_failure (v : String) (h : (NewTelefonePixKey v).2 ≠ none) :
    (NewTelefonePixKey v).1 = EmptyTelefonePixKey := by
  unfold NewTelefonePixKey at h ⊢
  by_cases hm : MatchString TelefoneRegex v = true
  · simp [hm] at h
  · simp [hm]

theorem NewChaveAleatoriaPixKey_zero_on_failure (v : String)
    (h : (NewChaveAleatoriaPixKey v).2 ≠ none) :
    (NewChaveAleatoriaPixKey v).1 = EmptyChaveAleatoriaPixKey := by
  unfold NewChaveAleatoriaPixKey at h ⊢
  by_cases hm : MatchString ChaveAleatoriaRegex v = true
  · simp [hm] at h
  · simp [hm]

theorem NewPixKey_zero_on_failure (t v : String) (h : (NewPixKey t v).2 ≠ none) :
    (t = "CPF" → (NewPixKey t v).1 = .ofCPF EmptyCPFPixKey) ∧
    (t = "CNPJ" → (NewPixKey t v).1 = .ofCNPJ EmptyCNPJPixKey) ∧
    (t = "TELEFONE" → (NewPixKey t v).1 = .ofTelefone EmptyTelefonePixKey) ∧
    (t = "EMAIL" → (NewPixKey t v).1 = .ofEmail EmptyEmailPixKey) ∧
    (t = "CHAVE_ALEATORIA" → (NewPixKey t v).1 = .ofChaveAleatoria EmptyChaveAleatoriaPixKey) ∧
    (t ∉ ["CPF", "CNPJ", "TELEFONE", "EMAIL", "CHAVE_ALEATORIA"] → (NewPixKey t v).1 = .nil) := by
  refine ⟨?_, ?_, ?_, ?_, ?_, ?_⟩
  · rintro rfl
    rw [NewPixKey_CPF] at h ⊢
    simp only [NewCPFPixKey_zero_on_failure v h]
  · rintro rfl
    rw [NewPixKey_CNPJ] at h ⊢
    simp only [NewCNPJPixKey_zero_on_failure v h]
  · rintro rfl
    rw [NewPixKey_TELEFONE] at h ⊢
    simp only [NewTelefonePixKey_zero_on_failure v h]
  · rintro rfl
    rw [NewPixKey_EMAIL] at h ⊢
    simp only [NewEmailPixKey_zero_on_failure v h]
  · rintro rfl
    rw [NewPixKey_CHAVE_ALEATORIA] at h ⊢
    simp only [NewChaveAleatoriaPixKey_zero_on_failure v h]
  · intro ht
    rw [NewPixKey_other t v ht]

/-- C27. When `EditDetails` fails, the field whose validation failed is overwritten with the
zero result of the failing constructor: after a rejected non-empty email `Email()` is empty,
whatever the status; on a payee in `PayeeDraftStatus`, after a rejected name `Name()` is
empty, after a rejected document `Document()` is the `nil` document, and after a rejected
pix key `PixKey()` is `nil` for an unknown type tag and otherwise the empty key of the
requested type, whose `Value()` is empty. -/
theorem EditDetails_failed_field_zeroed (p : PayeeEntity)
    (name document pixKeyType pixKey email : String) :
    (email ≠ "" → (NewEmail email).2 ≠ none →
      (p.EditDetails name document pixKeyType pixKey email).2 = some .ErrInvalidEmail ∧
      (p.EditDetails name document pixKeyType pixKey email).1.Email = "") ∧
    (p.status = PayeeDraftStatus → (email = "" ∨ (NewEmail email).2 = none) →
      (NewName name).2 ≠ none →
      (p.EditDetails name document pixKeyType pixKey email).2 = (NewName name).2 ∧
      (p.EditDetails name document pixKeyType pixKey email).1.Name = "") ∧
    (p.status = PayeeDraftStatus → (email = "" ∨ (NewEmail email).2 = none) →
      (NewName name).2 = none → (NewDocument document).2 ≠ none →
      (p.EditDetails name document pixKeyType pixKey email).2 = (NewDocument document).2 ∧
      (p.EditDetails name document pixKeyType pixKey email).1.Document = .nil) ∧
    (p.status = PayeeDraftStatus → (email = "" ∨ (NewEmail email).2 = none) →
      (NewName name).2 = none → (NewDocument document).2 = none →
      (NewPixKey pixKeyType pixKey).2 ≠ none →
      (p.EditDetails name document pixKeyType pixKey email).2 = (NewPixKey pixKeyType pixKey).2 ∧
      (pixKeyType ∉ ["CPF", "CNPJ", "TELEFONE", "EMAIL", "CHAVE_ALEATORIA"] →
        (p.EditDetails name document pixKeyType pixKey email).1.PixKey = .nil) ∧
      (pixKeyType ∈ ["CPF", "CNPJ", "TELEFONE", "EMAIL", "CHAVE_ALEATORIA"] →
        (p.EditDetails name document pixKeyType pixKey email).1.PixKey ≠ .nil ∧
        (p.EditDetails name document pixKeyType pixKey email).1.PixKey.Type = pixKeyType ∧
        (p.EditDetails name document pixKeyType pixKey email).1.PixKey.Value = "")) := by
  have hn := NewName_zero_on_failure name
  have hd := NewDocument_zero_on_failure document
  have hk := NewPixKey_zero_on_failure pixKeyType pixKey
  have he := NewEmail_zero_on_failure email
  unfold PayeeEntity.EditDetails
  generalize NewName name = rn at hn ⊢
  generalize NewDocument document = rd at hd ⊢
  generalize NewPixKey pixKeyType pixKey = rk at hk ⊢
  generalize NewEmail email = re at he ⊢
  obtain ⟨n, en⟩ := rn
  obtain ⟨d, ed⟩ := rd
  obtain ⟨k, ek⟩ := rk
  obtain ⟨em, ee⟩ := re
  refine ⟨?_, ?_, ?_, ?_⟩
  · intro hem hfail
    have h1 := he hfail
    simp only [Prod.mk.injEq] at h1
    obtain ⟨rfl, rfl⟩ := h1
    simp [hem, PayeeEntity.Email, EmptyEmail, Email.Value]
  · intro hp hok hfail
    have h1 := hn hfail
    simp only at h1 hfail hok
    subst h1
    cases en with
    | none => exact absurd rfl hfail
    | some e =>
      by_cases hem : email = ""
      · simp [hem, hp, PayeeEntity.Name, EmptyName, Name.Value]
      · have h2 : ee = none := hok.resolve_left hem
        subst h2
        simp [hem, hp, PayeeEntity.Name, EmptyName, Name.Value]
  · intro hp hok hnok hfail
    have h1 := hd hfail
    simp only at h1 hfail hok hnok
    subst h1 hnok
    cases ed with
    | none => exact absurd rfl hfail
    | some e =>
      by_cases hem : email = ""
      · simp [hem, hp, PayeeEntity.Document]
      · have h2 : ee = none := hok.resolve_left hem
        subst h2
        simp [hem, hp, PayeeEntity.Document]
  · intro hp hok hnok hdok hfail
    obtain ⟨k1, k2, k3, k4, k5, k6⟩ := hk hfail
    simp only at hfail hok hnok hdok k1 k2 k3 k4 k5 k6
    subst hnok hdok
    cases ek with
    | none => exact absurd rfl hfail
    | some e =>
      have hpk : ∀ q : PayeeEntity, q.PixKey = q.pixKey := fun _ => rfl
      have key : (pixKeyType ∉ ["CPF", "CNPJ", "TELEFONE", "EMAIL", "CHAVE_ALEATORIA"] →
            k = .nil) ∧
          (pixKeyType ∈ ["CPF", "CNPJ", "TELEFONE", "EMAIL", "CHAVE_ALEATORIA"] →
            k ≠ .nil ∧ k.Type = pixKeyType ∧ k.Value = "") := by
        refine ⟨k6, ?_⟩
        intro hin
        simp only [List.mem_cons, List.mem_singleton, List.not_mem_nil, or_false] at hin
        rcases hin with h | h | h | h | h
        · rw [k1 h, h]; exact ⟨by simp, rfl, rfl⟩
        · rw [k2 h, h]; exact ⟨by simp, rfl, rfl⟩
        · rw [k3 h, h]; exact ⟨by simp, rfl, rfl⟩
        · rw [k4 h, h]; exact ⟨by simp, rfl, rfl⟩
        · rw [k5 h, h]; exact ⟨by simp, rfl, rfl⟩
      by_cases hem : email = ""
      · simp only [hem, ne_eq, not_true_eq_false, if_false, hp, hpk]
        exact ⟨trivial, key⟩
      · have h2 : ee = none := hok.resolve_left hem
        subst h2
        simp only [hem, ne_eq, not_false_eq_true, if_true, hp, not_true_eq_false, if_false, hpk]
        exact ⟨trivial, key⟩

/-- A run of C27: on a draft payee the CPF key `none` of the test suite is rejected and the
key of the payee is then the empty CPF key. -/
theorem EditDetails_failed_field_zeroed_witness :
    (sampleDraftPayee.EditDetails "Maria Souza" "77386735081" "CPF" "none" "").1.PixKey ≠ .nil ∧
    (sampleDraftPayee.EditDetails "Maria Souza" "77386735081" "CPF" "none" "").1.PixKey.Type
      = "CPF" ∧
    (sampleDraftPayee.EditDetails "Maria Souza" "77386735081" "CPF" "none" "").1.PixKey.Value
      = "" :=
  ((EditDetails_failed_field_zeroed sampleDraftPayee "Maria Souza" "77386735081" "CPF" "none"
    "").2.2.2 (by decide) (Or.inl rfl) (by decide) (by decide) (by decide)).2.2 (by decide)

/-! ## C22: `String()` of a pix key -/

theorem NewCPFPixKey_on_success (v : String) (h : (NewCPF v).2 = none) :
    (NewCPFPixKey v).1 = ⟨(NewCPF v).1⟩ := by
  unfold NewCPFPixKey
  generalize NewCPF v = r at h ⊢
  obtain ⟨c, e⟩ := r
  simp only at h
  subst h
  rfl

theorem NewCNPJPixKey_on_success (v : String) (h : (NewCNPJ v).2 = none) :
    (NewCNPJPixKey v).1 = ⟨(NewCNPJ v).1⟩ := by
  unfold NewCNPJPixKey
  generalize NewCNPJ v = r at h ⊢
  obtain ⟨c, e⟩ := r
  simp only at h
  subst h
  rfl

theorem NewEmailPixKey_on_success (v : String) (h : (NewEmail v).2 = none) :
    (NewEmailPixKey v).1 = ⟨(NewEmail v).1⟩ := by
  unfold NewEmailPixKey
  generalize NewEmail v = r at h ⊢
  obtain ⟨c, e⟩ := r
  simp only at h
  subst h
  rfl

/-- C22, as stated, fails: the key returned by `NewPixKey` for the CPF `60688397026` has the
value `60688397026` and the display `606.883.970-26`, as the test suite expects. -/
theorem NewPixKey_CPF_String_is_masked :
    (NewPixKey "CPF" "60688397026").2 = none ∧
    (NewPixKey "CPF" "60688397026").1.Value = "60688397026" ∧
    (NewPixKey "CPF" "60688397026").1.String = "606.883.970-26" ∧
    (NewPixKey "CPF" "60688397026").1.String ≠ (NewPixKey "CPF" "60688397026").1.Value := by
  decide

/-- C22, amended. For every key returned by a successful `NewPixKey`, `String()` is `+`
followed by `Value()` when the type is `TELEFONE`, equals `Value()` when the type is `EMAIL`
or `CHAVE_ALEATORIA`, and is the canonical mask over the digits of `Value()` when the type is
`CPF` or `CNPJ`. -/
theorem NewPixKey_String_by_type (t v : String) (h : (NewPixKey t v).2 = none) :
    (t = "TELEFONE" → (NewPixKey t v).1.String = "+" ++ (NewPixKey t v).1.Value) ∧
    (t = "EMAIL" → (NewPixKey t v).1.String = (NewPixKey t v).1.Value) ∧
    (t = "CHAVE_ALEATORIA" → (NewPixKey t v).1.String = (NewPixKey t v).1.Value) ∧
    (t = "CPF" → ∃ ds, ds.length = 11 ∧ (∀ d ∈ ds, d ≤ 9) ∧
      (NewPixKey t v).1.Value = String.mk (digitChars ds) ∧
      (NewPixKey t v).1.String = cpfWritten ds true true true) ∧
    (t = "CNPJ" → ∃ ds, ds.length = 14 ∧ (∀ d ∈ ds, d ≤ 9) ∧
      (NewPixKey t v).1.Value = String.mk (digitChars ds) ∧
      (NewPixKey t v).1.String = cnpjWritten ds true true true true) := by
  refine ⟨?_, ?_, ?_, ?_, ?_⟩
  · rintro rfl
    rw [NewPixKey_TELEFONE]
    rfl
  · rintro rfl
    rw [NewPixKey_EMAIL]
    rfl
  · rintro rfl
    rw [NewPixKey_CHAVE_ALEATORIA]
    rfl
  · rintro rfl
    rw [NewPixKey_CPF] at h ⊢
    simp only at h
    obtain ⟨ds, h1, h2, h3, h4, -⟩ := NewCPF_mask v h
    rw [NewCPFPixKey_on_success v h]
    exact ⟨ds, h1, h2, h3, h4⟩
  · rintro rfl
    rw [NewPixKey_CNPJ] at h ⊢
    simp only at h
    obtain ⟨ds, h1, h2, h3, h4, -⟩ := NewCNPJ_mask v h
    rw [NewCNPJPixKey_on_success v h]
    exact ⟨ds, h1, h2, h3, h4⟩

/-- A run of the amended C22 on the phone key `99987654321` of the test suite. -/
theorem NewPixKey_String_by_type_witness :
    (NewPixKey "TELEFONE" "99987654321").2 = none ∧
    (NewPixKey "TELEFONE" "99987654321").1.String =
      "+" ++ (NewPixKey "TELEFONE" "99987654321").1.Value :=
  ⟨by decide, (NewPixKey_String_by_type "TELEFONE" "99987654321" (by decide)).1 rfl⟩

/-! ## C21: the punctuation of a document -/

theorem NewCPF_cpfWritten_flags (ds : List Nat) (hlen : ds.length = 11) (h9 : ∀ d ∈ ds, d ≤ 9)
    (p3 p6 p9 q3 q6 q9 : Bool) :
    NewCPF (cpfWritten ds q3 q6 q9) = NewCPF (cpfWritten ds p3 p6 p9) := by
  unfold NewCPF
  rw [cleanAndValidateCPF_written ds hlen h9 q3 q6 q9,
    cleanAndValidateCPF_written ds hlen h9 p3 p6 p9]

theorem NewCNPJ_cnpjWritten_flags (ds : List Nat) (hlen : ds.length = 14)
    (h9 : ∀ d ∈ ds, d ≤ 9) (p2 p5 p8 p12 q2 q5 q8 q12 : Bool) :
    NewCNPJ (cnpjWritten ds q2 q5 q8 q12) = NewCNPJ (cnpjWritten ds p2 p5 p8 p12) := by
  unfold NewCNPJ
  rw [cleanAndValidateCNPJ_written ds hlen h9 q2 q5 q8 q12,
    cleanAndValidateCNPJ_written ds hlen h9 p2 p5 p8 p12]

theorem NewDocument_of_CPF_ok (v : String) (h : (NewCPF v).2 = none) :
    NewDocument v = (.ofCPF (NewCPF v).1, none) := by
  unfold NewDocument
  generalize NewCPF v = r at h ⊢
  obtain ⟨c, e⟩ := r
  simp only at h
  subst h
  rfl

theorem NewDocument_of_CNPJ_ok (v : String) (h1 : (NewCPF v).2 ≠ none)
    (h2 : (NewCNPJ v).2 = none) :
    NewDocument v = (.ofCNPJ (NewCNPJ v).1, none) := by
  unfold NewDocument
  generalize NewCPF v = r at h1 ⊢
  generalize NewCNPJ v = r' at h2 ⊢
  obtain ⟨c, e⟩ := r
  obtain ⟨c', e'⟩ := r'
  simp only at h1 h2
  subst h2
  cases e with
  | none => exact absurd rfl h1
  | some e => rfl

theorem cpfWritten_plain (ds : List Nat) (hlen : ds.length = 11) :
    cpfWritten ds false false false = String.mk (digitChars ds) := by
  obtain ⟨d0, d1, d2, d3, d4, d5, d6, d7, d8, d9, d10, rfl⟩ := list_eleven ds hlen
  rfl

theorem cnpjWritten_plain (ds : List Nat) (hlen : ds.length = 14) :
    cnpjWritten ds false false false false = String.mk (digitChars ds) := by
  obtain ⟨d0, d1, d2, d3, d4, d5, d6, d7, d8, d9, d10, d11, d12, d13, rfl⟩ :=
    list_fourteen ds hlen
  rfl

theorem NewDocument_cpf_variants (ds : List Nat) (hlen : ds.length = 11)
    (h9 : ∀ d ∈ ds, d ≤ 9) (p3 p6 p9 : Bool)
    (h : (NewDocument (cpfWritten ds p3 p6 p9)).2 = none) :
    (∀ q3 q6 q9, NewDocument (cpfWritten ds q3 q6 q9) =
      (.ofCPF ⟨String.mk (digitChars ds)⟩, none)) := by
  have hcnpj := NewCNPJ_cpfWritten ds hlen h9 p3 p6 p9
  have hcpf : (NewCPF (cpfWritten ds p3 p6 p9)).2 = none := by
    rcases NewDocument_cases _ h with ⟨h1, -⟩ | ⟨h1, -⟩
    · exact h1
    · rw [hcnpj] at h1
      simp at h1
  have hval : NewCPF (cpfWritten ds p3 p6 p9) = (⟨String.mk (digitChars ds)⟩, none) := by
    have hc := cleanAndValidateCPF_written ds hlen h9 p3 p6 p9
    unfold NewCPF at hcpf ⊢
    rw [hc] at hcpf ⊢
    split_ifs at hcpf ⊢ with hcond
    rfl
  intro q3 q6 q9
  have hq := NewCPF_cpfWritten_flags ds hlen h9 p3 p6 p9 q3 q6 q9
  rw [hval] at hq
  rw [NewDocument_of_CPF_ok _ (by rw [hq]), hq]

theorem NewDocument_cnpj_variants (ds : List Nat) (hlen : ds.length = 14)
    (h9 : ∀ d ∈ ds, d ≤ 9) (p2 p5 p8 p12 : Bool)
    (h : (NewDocument (cnpjWritten ds p2 p5 p8 p12)).2 = none) :
    (∀ q2 q5 q8 q12, NewDocument (cnpjWritten ds q2 q5 q8 q12) =
      (.ofCNPJ ⟨String.mk (digitChars ds)⟩, none)) := by
  have hcpf := NewCPF_cnpjWritten ds hlen h9 p2 p5 p8 p12
  have hcnpj : (NewCNPJ (cnpjWritten ds p2 p5 p8 p12)).2 = none := by
    rcases NewDocument_cases _ h with ⟨h1, -⟩ | ⟨h1, -⟩
    · rw [hcpf] at h1
      simp at h1
    · exact h1
  have hval : NewCNPJ (cnpjWritten ds p2 p5 p8 p12) = (⟨String.mk (digitChars ds)⟩, none) := by
    have hc := cleanAndValidateCNPJ_written ds hlen h9 p2 p5 p8 p12
    unfold NewCNPJ at hcnpj ⊢
    rw [hc] at hcnpj ⊢
    split_ifs at hcnpj ⊢ with hcond
    rfl
  intro q2 q5 q8 q12
  have hq := NewCNPJ_cnpjWritten_flags ds hlen h9 p2 p5 p8 p12 q2 q5 q8 q12
  rw [hval] at hq
  rw [NewDocument_of_CNPJ_ok _ (by rw [NewCPF_cnpjWritten ds hlen h9]; simp) (by rw [hq]), hq]

theorem NewDocument_written (s : String) (h : (NewDocument s).2 = none) :
    (∃ ds p3 p6 p9, ds.length = 11 ∧ (∀ d ∈ ds, d ≤ 9) ∧ s = cpfWritten ds p3 p6 p9) ∨
      (∃ ds p2 p5 p8 p12, ds.length = 14 ∧ (∀ d ∈ ds, d ≤ 9) ∧
        s = cnpjWritten ds p2 p5 p8 p12) := by
  rcases NewDocument_cases s h with ⟨h1, -⟩ | ⟨h1, -⟩
  · rcases NewCPF_error_cases s with ⟨ds, ⟨hlen, h9, ⟨p3, p6, p9, hs⟩, -⟩, -⟩ | h2
    · exact Or.inl ⟨ds, p3, p6, p9, hlen, h9, hs⟩
    · rw [h2] at h1
      simp at h1
  · rcases NewCNPJ_error_cases s with ⟨ds, ⟨hlen, h9, ⟨p2, p5, p8, p12, hs⟩, -⟩, -⟩ | h2
    · exact Or.inr ⟨ds, p2, p5, p8, p12, hlen, h9, hs⟩
    · rw [h2] at h1
      simp at h1

/-- C21. Document parsing does not depend on punctuation: when `NewDocument` accepts an
input, every written form of the same digits, each optional separator present or absent, is
accepted and yields the same document, hence the same `Value()` and `String()`; `Value()` is
the form without separators and `String()` the form with all of them; `NewDocument` of the
`Value()` and of the `String()` of the result both return that document, so an input written
in the canonical mask is returned unchanged by `String()`. -/
theorem NewDocument_punctuation_independent (s : String) (h : (NewDocument s).2 = none) :
    ((∃ ds p3 p6 p9, ds.length = 11 ∧ (∀ d ∈ ds, d ≤ 9) ∧ s = cpfWritten ds p3 p6 p9 ∧
        (∀ q3 q6 q9, NewDocument (cpfWritten ds q3 q6 q9) = NewDocument s) ∧
        (NewDocument s).1.Value = cpfWritten ds false false false ∧
        (NewDocument s).1.String = cpfWritten ds true true true) ∨
      (∃ ds p2 p5 p8 p12, ds.length = 14 ∧ (∀ d ∈ ds, d ≤ 9) ∧
        s = cnpjWritten ds p2 p5 p8 p12 ∧
        (∀ q2 q5 q8 q12, NewDocument (cnpjWritten ds q2 q5 q8 q12) = NewDocument s) ∧
        (NewDocument s).1.Value = cnpjWritten ds false false false false ∧
        (NewDocument s).1.String = cnpjWritten ds true true true true)) ∧
    NewDocument (NewDocument s).1.Value = NewDocument s ∧
    NewDocument (NewDocument s).1.String = NewDocument s ∧
    (NewDocument (NewDocument s).1.String).1.String = (NewDocument s).1.String := by
  rcases NewDocument_written s h with ⟨ds, p3, p6, p9, hlen, h9, rfl⟩ |
    ⟨ds, p2, p5, p8, p12, hlen, h9, rfl⟩
  · have hall := NewDocument_cpf_variants ds hlen h9 p3 p6 p9 h
    have hs := hall p3 p6 p9
    have hv : (NewDocument (cpfWritten ds p3 p6 p9)).1.Value = cpfWritten ds false false false := by
      rw [hs, cpfWritten_plain ds hlen]
      rfl
    have hstr : (NewDocument (cpfWritten ds p3 p6 p9)).1.String = cpfWritten ds true true true := by
      rw [hs]
      exact CPF_String_digitChars ds hlen h9
    refine ⟨Or.inl ⟨ds, p3, p6, p9, hlen, h9, rfl, ?_, hv, hstr⟩, ?_, ?_, ?_⟩
    · intro q3 q6 q9
      rw [hall q3 q6 q9, hs]
    · rw [hv, hall false false false, hs]
    · rw [hstr, hall true true true, hs]
    · rw [hstr, hall true true true]
      exact CPF_String_digitChars ds hlen h9
  · have hall := NewDocument_cnpj_variants ds hlen h9 p2 p5 p8 p12 h
    have hs := hall p2 p5 p8 p12
    have hv : (NewDocument (cnpjWritten ds p2 p5 p8 p12)).1.Value =
        cnpjWritten ds false false false false := by
      rw [hs, cnpjWritten_plain ds hlen]
      rfl
    have hstr : (NewDocument (cnpjWritten ds p2 p5 p8 p12)).1.String =
        cnpjWritten ds true true true true := by
      rw [hs]
      exact CNPJ_String_digitChars ds hlen h9
    refine ⟨Or.inr ⟨ds, p2, p5, p8, p12, hlen, h9, rfl, ?_, hv, hstr⟩, ?_, ?_, ?_⟩
    · intro q2 q5 q8 q12
      rw [hall q2 q5 q8 q12, hs]
    · rw [hv, hall false false false false, hs]
    · rw [hstr, hall true true true true, hs]
    · rw [hstr, hall true true true true]
      exact CNPJ_String_digitChars ds hlen h9

/-- A run of C21 on the half-punctuated CPF `616.38824070` of the test suite. -/
theorem NewDocument_punctuation_independent_witness :
    (NewDocument "616.38824070").2 = none ∧
    NewDocument (NewDocument "616.38824070").1.String = NewDocument "616.38824070" ∧
    (NewDocument "616.38824070").1.String = "616.388.240-70" :=
  ⟨by decide, (NewDocument_punctuation_independent "616.38824070" (by decide)).2.2.1,
    by decide⟩

/-! ## C26: persisting and restoring -/

theorem NewDocument_Value_roundtrip (s : String) (h : (NewDocument s).2 = none) :
    NewDocument (NewDocument s).1.Value = ((NewDocument s).1, none) := by
  rcases NewDocument_written s h with ⟨ds, p3, p6, p9, hlen, h9, rfl⟩ |
    ⟨ds, p2, p5, p8, p12, hlen, h9, rfl⟩
  · have hall := NewDocument_cpf_variants ds hlen h9 p3 p6 p9 h
    rw [hall p3 p6 p9]
    have := hall false false false
    rw [cpfWritten_plain ds hlen] at this
    exact this
  · have hall := NewDocument_cnpj_variants ds hlen h9 p2 p5 p8 p12 h
    rw [hall p2 p5 p8 p12]
    have := hall false false false false
    rw [cnpjWritten_plain ds hlen] at this
    exact this

theorem NewCPF_Value_roundtrip (v : String) (h : (NewCPF v).2 = none) :
    NewCPF (NewCPF v).1.Value = ((NewCPF v).1, none) := by
  rcases NewCPF_error_cases v with ⟨ds, ⟨hlen, h9, ⟨p3, p6, p9, rfl⟩, -⟩, h1⟩ | h1
  · have hf := NewCPF_cpfWritten_flags ds hlen h9 p3 p6 p9 false false false
    rw [cpfWritten_plain ds hlen] at hf
    rw [h1] at hf ⊢
    exact hf
  · rw [h1] at h
    simp at h

theorem NewCNPJ_Value_roundtrip (v : String) (h : (NewCNPJ v).2 = none) :
    NewCNPJ (NewCNPJ v).1.Value = ((NewCNPJ v).1, none) := by
  rcases NewCNPJ_error_cases v with ⟨ds, ⟨hlen, h9, ⟨p2, p5, p8, p12, rfl⟩, -⟩, h1⟩ | h1
  · have hf := NewCNPJ_cnpjWritten_flags ds hlen h9 p2 p5 p8 p12 false false false false
    rw [cnpjWritten_plain ds hlen] at hf
    rw [h1] at hf ⊢
    exact hf
  · rw [h1] at h
    simp at h

theorem NewTelefonePixKey_Value_roundtrip (v : String) (h : (NewTelefonePixKey v).2 = none) :
    NewTelefonePixKey (NewTelefonePixKey v).1.Value = ((NewTelefonePixKey v).1, none) := by
  by_cases hm : MatchString TelefoneRegex v = true
  · obtain ⟨ds, cc, hloc, hcc, rfl⟩ := (TelefoneRegex_match_iff v).mp hm
    rw [NewTelefonePixKey_written ds cc hloc hcc]
    exact NewTelefonePixKey_written ds "55" hloc (by simp)
  · rw [NewTelefonePixKey_no_match v (by simpa using hm)] at h
    simp at h

theorem NewEmail_Value_roundtrip (v : String) (h : (NewEmail v).2 = none) :
    NewEmail (NewEmail v).1.Value = ((NewEmail v).1, none) := by
  have hm : MatchString EmailRegex (stringsTrimSpace v) = true := by
    by_contra hno
    have hf : MatchString EmailRegex (stringsTrimSpace v) = false := by simpa using hno
    simp [NewEmail, hf] at h
  have hv : NewEmail v = (⟨stringsTrimSpace v⟩, none) := by simp [NewEmail, hm]
  have ht := stringsTrimSpace_of_isEmailShaped _ ((EmailRegex_match_iff _).mp hm)
  rw [hv]
  simp only [Email.Value]
  simp [NewEmail, hm, ht]

theorem NewChaveAleatoriaPixKey_Value_roundtrip (v : String)
    (h : (NewChaveAleatoriaPixKey v).2 = none) :
    NewChaveAleatoriaPixKey (NewChaveAleatoriaPixKey v).1.Value =
      ((NewChaveAleatoriaPixKey v).1, none) := by
  have hm : MatchString ChaveAleatoriaRegex v = true := by
    by_contra hno
    have hf : MatchString ChaveAleatoriaRegex v = false := by simpa using hno
    simp [NewChaveAleatoriaPixKey, hf] at h
  have hv : NewChaveAleatoriaPixKey v = (⟨stringsToLower v⟩, none) := by
    simp [NewChaveAleatoriaPixKey, hm]
  obtain ⟨hl, hidem⟩ := isChaveAleatoria_toLower v ((ChaveAleatoriaRegex_match_iff v).mp hm)
  have hm' := (ChaveAleatoriaRegex_match_iff _).mpr hl
  rw [hv]
  simp [NewChaveAleatoriaPixKey, ChaveAleatoriaPixKey.Value, hm', hidem]

theorem NewPixKey_roundtrip (t v : String) (h : (NewPixKey t v).2 = none) :
    NewPixKey (NewPixKey t v).1.Type (NewPixKey t v).1.Value = ((NewPixKey t v).1, none) := by
  by_cases h1 : t = "CPF"
  · subst h1
    rw [NewPixKey_CPF] at h ⊢
    simp only at h
    have hr := NewCPF_Value_roundtrip v h
    rw [NewCPFPixKey_on_success v h]
    show NewPixKey "CPF" (NewCPF v).1.Value = _
    rw [NewPixKey_CPF, hr, NewCPFPixKey_on_success _ (by rw [hr]), hr]
  by_cases h2 : t = "CNPJ"
  · subst h2
    rw [NewPixKey_CNPJ] at h ⊢
    simp only at h
    have hr := NewCNPJ_Value_roundtrip v h
    rw [NewCNPJPixKey_on_success v h]
    show NewPixKey "CNPJ" (NewCNPJ v).1.Value = _
    rw [NewPixKey_CNPJ, hr, NewCNPJPixKey_on_success _ (by rw [hr]), hr]
  by_cases h3 : t = "TELEFONE"
  · subst h3
    rw [NewPixKey_TELEFONE] at h ⊢
    simp only at h
    have hr := NewTelefonePixKey_Value_roundtrip v h
    show NewPixKey "TELEFONE" (NewTelefonePixKey v).1.Value = _
    rw [NewPixKey_TELEFONE, hr]
  by_cases h4 : t = "EMAIL"
  · subst h4
    rw [NewPixKey_EMAIL] at h ⊢
    simp only at h
    have hr := NewEmail_Value_roundtrip v h
    rw [NewEmailPixKey_on_success v h]
    show NewPixKey "EMAIL" (NewEmail v).1.Value = _
    rw [NewPixKey_EMAIL, hr, NewEmailPixKey_on_success _ (by rw [hr]), hr]
  by_cases h5 : t = "CHAVE_ALEATORIA"
  · subst h5
    rw [NewPixKey_CHAVE_ALEATORIA] at h ⊢
    simp only at h
    have hr := NewChaveAleatoriaPixKey_Value_roundtrip v h
    show NewPixKey "CHAVE_ALEATORIA" (NewChaveAleatoriaPixKey v).1.Value = _
    rw [NewPixKey_CHAVE_ALEATORIA, hr]
  rw [NewPixKey_other t v (by simp [h1, h2, h3, h4, h5])] at h
  simp at h

theorem RestorePayee_roundtrip (p : PayeeEntity)
    (hd : NewDocument p.document.Value = (p.document, none))
    (hk : NewPixKey p.pixKey.Type p.pixKey.Value = (p.pixKey, none))
    (hs : p.status = PayeeDraftStatus ∨ p.status = PayeeValidStatus) :
    RestorePayee p.ID p.Name p.Document.Value p.Status.Value p.Email p.PixKey.Type p.PixKey.Value
      p.BankAccount = (p, []) := by
  obtain ⟨id, name, document, status, email, pixKey, bankAccount⟩ := p
  simp only at hd hk hs
  unfold RestorePayee
  simp only [PayeeEntity.Document, PayeeEntity.PixKey, hd, hk]
  rcases hs with rfl | rfl <;> rfl

theorem restorePayeeStatus_cases (status : String) :
    (status = "DRAFT" ∧ restorePayeeStatus status = (PayeeDraftStatus, none)) ∨
    (status = "VALID" ∧ restorePayeeStatus status = (PayeeValidStatus, none)) ∨
    (status ≠ "DRAFT" ∧ status ≠ "VALID" ∧
      restorePayeeStatus status = (⟨"", ""⟩, some .ErrTemperedValue)) := by
  by_cases h1 : status = "DRAFT"
  · subst h1
    exact Or.inl ⟨rfl, rfl⟩
  · by_cases h2 : status = "VALID"
    · subst h2
      exact Or.inr (Or.inl ⟨rfl, rfl⟩)
    · refine Or.inr (Or.inr ⟨h1, h2, ?_⟩)
      unfold restorePayeeStatus
      rw [if_neg (by simpa [PayeeDraftStatus, PayeeStatus.Value] using h1),
        if_neg (by simpa [PayeeValidStatus, PayeeStatus.Value] using h2)]

/-- A record restored without a warning is restored again to the same payee. -/
theorem RestorePayee_clean_roundtrip (id name document status email pixKeyType pixKeyValue : String)
    (bankAccount : BankAccountRef)
    (h : (RestorePayee id name document status email pixKeyType pixKeyValue bankAccount).2 = []) :
    restoresLosslessly
      (RestorePayee id name document status email pixKeyType pixKeyValue bankAccount).1 := by
  have hdoc := NewDocument_Value_roundtrip document
  have hkey := NewPixKey_roundtrip pixKeyType pixKeyValue
  have hst := restorePayeeStatus_cases status
  unfold RestorePayee at h ⊢
  generalize NewDocument document = rd at h hdoc ⊢
  generalize NewPixKey pixKeyType pixKeyValue = rk at h hkey ⊢
  generalize restorePayeeStatus status = rs at h hst ⊢
  obtain ⟨d, ed⟩ := rd
  obtain ⟨k, ek⟩ := rk
  cases ed with
  | some e => simp at h
  | none =>
    cases ek with
    | some e => simp at h
    | none =>
      rcases hst with ⟨-, rfl⟩ | ⟨-, rfl⟩ | ⟨-, -, rfl⟩
      · exact RestorePayee_roundtrip _ (hdoc rfl) (hkey rfl) (Or.inl rfl)
      · exact RestorePayee_roundtrip _ (hdoc rfl) (hkey rfl) (Or.inr rfl)
      · simp [errorsIs] at h

/-- A successful `EditDetails` keeps the round trip. -/
theorem EditDetails_keeps_roundtrip (p0 : PayeeEntity)
    (name document pixKeyType pixKey email : String)
    (h0 : p0.status = PayeeDraftStatus ∨ restoresLosslessly p0)
    (hok : (p0.EditDetails name document pixKeyType pixKey email).2 = none) :
    restoresLosslessly (p0.EditDetails name document pixKeyType pixKey email).1 := by
  have hdoc := NewDocument_Value_roundtrip document
  have hkey := NewPixKey_roundtrip pixKeyType pixKey
  by_cases hp : p0.status = PayeeDraftStatus
  · unfold PayeeEntity.EditDetails at hok ⊢
    generalize NewName name = rn at hok ⊢
    generalize NewDocument document = rd at hok hdoc ⊢
    generalize NewPixKey pixKeyType pixKey = rk at hok hkey ⊢
    generalize NewEmail email = re at hok ⊢
    obtain ⟨n, en⟩ := rn
    obtain ⟨d, ed⟩ := rd
    obtain ⟨k, ek⟩ := rk
    obtain ⟨em, ee⟩ := re
    by_cases hem : email = ""
    · cases en <;> cases ed <;> cases ek <;> simp [hem, hp] at hok ⊢
      exact RestorePayee_roundtrip _ (hdoc rfl) (hkey rfl) (Or.inl rfl)
    · cases ee <;> cases en <;> cases ed <;> cases ek <;> simp [hem, hp] at hok ⊢
      exact RestorePayee_roundtrip _ (hdoc rfl) (hkey rfl) (Or.inl rfl)
  · have hr : restoresLosslessly p0 := h0.resolve_left hp
    obtain ⟨id, nm, doc, st, eml, pk, ba⟩ := p0
    simp only at hp
    unfold PayeeEntity.EditDetails at hok ⊢
    generalize NewEmail email = re at hok ⊢
    obtain ⟨em, ee⟩ := re
    have hfields : RestorePayee id.value nm.value doc.Value st.Value eml.value pk.Type pk.Value
        ba = (⟨id, nm, doc, st, eml, pk, ba⟩, []) := hr
    have key : ∀ e' : Domain.Email,
        RestorePayee id.value nm.value doc.Value st.Value e'.value pk.Type pk.Value ba =
          (⟨id, nm, doc, st, e', pk, ba⟩, []) := by
      intro e'
      have h1 := congrArg (fun r : PayeeEntity × List LogRecord =>
        (({ r.1 with email := e' } : PayeeEntity), r.2)) hfields
      simp only at h1
      rw [← h1]
      rfl
    by_cases hem : email = ""
    · simp only [hem, ne_eq, not_true_eq_false, if_false, hp, not_false_eq_true, if_true]
      exact key EmptyEmail
    · cases ee with
      | some e => simp [hem] at hok
      | none =>
        simp only [hem, ne_eq, not_false_eq_true, if_true, hp]
        exact key em

theorem CreatePayee_roundtrip (uuid name document pixKeyType pixKey email : String)
    (p : PayeeEntity)
    (hp : CreatePayee uuid name document pixKeyType pixKey email = (some p, none)) :
    restoresLosslessly p := by
  have hdoc := NewDocument_Value_roundtrip document
  have hkey := NewPixKey_roundtrip pixKeyType pixKey
  unfold CreatePayee at hp
  generalize NewName name = rn at hp
  generalize NewDocument document = rd at hp hdoc
  generalize NewPixKey pixKeyType pixKey = rk at hp hkey
  generalize NewEmail email = re at hp
  obtain ⟨n, en⟩ := rn
  obtain ⟨d, ed⟩ := rd
  obtain ⟨k, ek⟩ := rk
  obtain ⟨em, ee⟩ := re
  cases en with
  | some e => simp at hp
  | none =>
    cases ed with
    | some e => simp at hp
    | none =>
      cases ek with
      | some e => simp at hp
      | none =>
        have hd := hdoc rfl
        have hk := hkey rfl
        by_cases hem : email = ""
        · simp only [hem, ne_eq, not_true_eq_false, if_false, Prod.mk.injEq, Option.some.injEq,
            and_true] at hp
          subst hp
          exact RestorePayee_roundtrip _ hd hk (Or.inl rfl)
        · cases ee with
          | some e => simp [hem] at hp
          | none =>
            simp only [hem, ne_eq, not_false_eq_true, if_true, Prod.mk.injEq,
              Option.some.injEq, and_true] at hp
            subst hp
            exact RestorePayee_roundtrip _ hd hk (Or.inl rfl)

/-- C26, as stated, fails for a payee left by a successful `EditDetails`: the record with the
document `123` and the CPF key `1` is restored through the passthrough branches in
`PayeeValidStatus`; `EditDetails` with an empty email succeeds on it and leaves document and
key as they are; `RestorePayee` of the persisted fields of that payee emits two warnings. -/
theorem RestorePayee_after_edit_of_tampered_warns :
    (RestorePayee "id-9" "Joao Silva" "123" "VALID" "a@b.c" "CPF" "1" none).1.status
      = PayeeValidStatus ∧
    ((RestorePayee "id-9" "Joao Silva" "123" "VALID" "a@b.c" "CPF" "1" none).1.EditDetails
      "Maria Souza" "77386735081" "EMAIL" "x@y.z" "").2 = none ∧
    ((RestorePayee "id-9" "Joao Silva" "123" "VALID" "a@b.c" "CPF" "1" none).1.EditDetails
      "Maria Souza" "77386735081" "EMAIL" "x@y.z" "").1 =
      ⟨⟨"id-9"⟩, ⟨"Joao Silva"⟩, .ofRestored ⟨"123"⟩, PayeeValidStatus, ⟨""⟩,
        .ofRestored ⟨"CPF", "1"⟩, none⟩ ∧
    (RestorePayee "id-9" "Joao Silva" "123" "VALID" "" "CPF" "1" none).2.length = 2 ∧
    ¬ restoresLosslessly
      ((RestorePayee "id-9" "Joao Silva" "123" "VALID" "a@b.c" "CPF" "1" none).1.EditDetails
        "Maria Souza" "77386735081" "EMAIL" "x@y.z" "").1 := by
  decide

/-- C26, amended. Persisting and restoring is lossless, that is `RestorePayee` of the
persisted fields of `p` emits no warning and returns `p` itself, for every payee `p`
returned by a successful `CreatePayee`, for every payee left by a successful `EditDetails`
on a payee in `PayeeDraftStatus` (the status of every created payee), for every payee that
`RestorePayee` returned without a warning, and for every payee left by a successful
`EditDetails` on a payee that `RestorePayee` returned without a warning; a successful
`EditDetails` keeps the property of any payee that has it. -/
theorem RestorePayee_of_created_lossless (uuid name document pixKeyType pixKey email : String)
    (p0 : PayeeEntity) (id0 name0 document0 status0 email0 pixKeyType0 pixKeyValue0 : String)
    (bankAccount0 : BankAccountRef) :
    (∀ p, CreatePayee uuid name document pixKeyType pixKey email = (some p, none) →
      restoresLosslessly p) ∧
    (p0.status = PayeeDraftStatus →
      (p0.EditDetails name document pixKeyType pixKey email).2 = none →
      restoresLosslessly (p0.EditDetails name document pixKeyType pixKey email).1) ∧
    ((RestorePayee id0 name0 document0 status0 email0 pixKeyType0 pixKeyValue0 bankAccount0).2
        = [] →
      restoresLosslessly
        (RestorePayee id0 name0 document0 status0 email0 pixKeyType0 pixKeyValue0
          bankAccount0).1 ∧
      (((RestorePayee id0 name0 document0 status0 email0 pixKeyType0 pixKeyValue0
          bankAccount0).1.EditDetails name document pixKeyType pixKey email).2 = none →
        restoresLosslessly
          ((RestorePayee id0 name0 document0 status0 email0 pixKeyType0 pixKeyValue0
            bankAccount0).1.EditDetails name document pixKeyType pixKey email).1)) ∧
    (restoresLosslessly p0 →
      (p0.EditDetails name document pixKeyType pixKey email).2 = none →
      restoresLosslessly (p0.EditDetails name document pixKeyType pixKey email).1) := by
  refine ⟨?_, ?_, ?_, ?_⟩
  · intro p hp
    exact CreatePayee_roundtrip uuid name document pixKeyType pixKey email p hp
  · intro hp hok
    exact EditDetails_keeps_roundtrip p0 name document pixKeyType pixKey email (Or.inl hp) hok
  · intro hclean
    have hr := RestorePayee_clean_roundtrip id0 name0 document0 status0 email0 pixKeyType0
      pixKeyValue0 bankAccount0 hclean
    exact ⟨hr, fun hok =>
      EditDetails_keeps_roundtrip _ name document pixKeyType pixKey email (Or.inr hr) hok⟩
  · intro hr hok
    exact EditDetails_keeps_roundtrip p0 name document pixKeyType pixKey email (Or.inr hr) hok

/-- A run of the amended C26: a created payee is restored from its persisted fields without
a warning. -/
theorem RestorePayee_of_created_lossless_witness :
    RestorePayee "id-7" "Joao Silva" "77386735081" "DRAFT" "a@b.c" "TELEFONE" "5599987654321"
      none =
      (⟨⟨"id-7"⟩, ⟨"Joao Silva"⟩, .ofCPF ⟨"77386735081"⟩, PayeeDraftStatus, ⟨"a@b.c"⟩,
        .ofTelefone ⟨"5599987654321"⟩, none⟩, []) :=
  (RestorePayee_of_created_lossless "id-7" "Joao  Silva" "773.867.350-81" "TELEFONE"
    "99987654321" " a@b.c" sampleDraftPayee "id-1" "Joao Silva" "19039318000104" "VALID"
    "old@mail.com" "EMAIL" "x@y.z" none).1
    ⟨⟨"id-7"⟩, ⟨"Joao Silva"⟩, .ofCPF ⟨"77386735081"⟩, PayeeDraftStatus, ⟨"a@b.c"⟩,
      .ofTelefone ⟨"5599987654321"⟩, none⟩ (by decide)

/-! ## C24: `keepOnlyNumbers` -/

theorem foldl_builder_pred (f : Char → Bool) (cs acc : List Char) :
    cs.foldl (fun builder r => if f r then builder ++ [r] else builder) acc
      = acc ++ cs.filter f := by
  induction cs generalizing acc with
  | nil => simp
  | cons c cs ih =>
    rw [List.foldl_cons, ih]
    by_cases h : f c = true
    · simp [h]
    · simp [h]

theorem keepOnlyNumbersIn_eq_filter (nd : List (Nat × Nat)) (s : String) :
    keepOnlyNumbersIn nd s = String.mk (s.data.filter (unicodeIsDigitIn nd)) := by
  unfold keepOnlyNumbersIn
  rw [foldl_builder_pred, List.nil_append]

theorem unicodeIsDigitIn_ascii (nd : List (Nat × Nat)) (c : Char) (h : '0' ≤ c ∧ c ≤ '9') :
    unicodeIsDigitIn nd c = true := by
  have h1 : 0x30 ≤ c.toNat := h.1
  have h2 : c.toNat ≤ 0x39 := h.2
  have h3 : c.toNat ≤ 0xFF := by omega
  simp [unicodeIsDigitIn, h1, h2, h3]

/-- C24. `keepOnlyNumbers` is total and returns, for every string, the characters of the
string that `unicode.IsDigit` accepts, in their order; it is idempotent, it is the identity
on a string of digits, and it distributes over concatenation. The same holds under every
table `nd` that a toolchain may have for `unicode.Nd`, and `keepOnlyNumbers` is the
function under the table `unicodeNd`; the ASCII digits are digits under every table. -/
theorem keepOnlyNumbers_filter_laws (nd : List (Nat × Nat)) (a b : String) :
    (keepOnlyNumbers a = String.mk (a.data.filter unicodeIsDigit) ∧
      keepOnlyNumbers (keepOnlyNumbers a) = keepOnlyNumbers a ∧
      ((∀ c ∈ a.data, unicodeIsDigit c = true) → keepOnlyNumbers a = a) ∧
      keepOnlyNumbers (a ++ b) = keepOnlyNumbers a ++ keepOnlyNumbers b) ∧
    keepOnlyNumbers a = keepOnlyNumbersIn unicodeNd a ∧
    (keepOnlyNumbersIn nd a = String.mk (a.data.filter (unicodeIsDigitIn nd)) ∧
      keepOnlyNumbersIn nd (keepOnlyNumbersIn nd a) = keepOnlyNumbersIn nd a ∧
      ((∀ c ∈ a.data, unicodeIsDigitIn nd c = true) → keepOnlyNumbersIn nd a = a) ∧
      ((∀ c ∈ a.data, '0' ≤ c ∧ c ≤ '9') → keepOnlyNumbersIn nd a = a) ∧
      keepOnlyNumbersIn nd (a ++ b) = keepOnlyNumbersIn nd a ++ keepOnlyNumbersIn nd b) := by
  have key : ∀ (nd : List (Nat × Nat)) (a b : String),
      keepOnlyNumbersIn nd a = String.mk (a.data.filter (unicodeIsDigitIn nd)) ∧
      keepOnlyNumbersIn nd (keepOnlyNumbersIn nd a) = keepOnlyNumbersIn nd a ∧
      ((∀ c ∈ a.data, unicodeIsDigitIn nd c = true) → keepOnlyNumbersIn nd a = a) ∧
      keepOnlyNumbersIn nd (a ++ b) = keepOnlyNumbersIn nd a ++ keepOnlyNumbersIn nd b := by
    intro nd a b
    refine ⟨keepOnlyNumbersIn_eq_filter nd a, ?_, ?_, ?_⟩
    · rw [keepOnlyNumbersIn_eq_filter, keepOnlyNumbersIn_eq_filter]
      simp
    · intro h
      rw [keepOnlyNumbersIn_eq_filter, List.filter_eq_self.mpr h]
    · rw [keepOnlyNumbersIn_eq_filter, keepOnlyNumbersIn_eq_filter, keepOnlyNumbersIn_eq_filter]
      show String.mk ((a.data ++ b.data).filter (unicodeIsDigitIn nd)) = _
      rw [List.filter_append]
      rfl
  have hsame : ∀ s, keepOnlyNumbers s = keepOnlyNumbersIn unicodeNd s := fun _ => rfl
  have hdig : ∀ c, unicodeIsDigit c = unicodeIsDigitIn unicodeNd c := fun _ => rfl
  obtain ⟨k1, k2, k3, k4⟩ := key nd a b
  obtain ⟨u1, u2, u3, u4⟩ := key unicodeNd a b
  refine ⟨⟨keepOnlyNumbers_eq_filter a, ?_, ?_, ?_⟩, rfl, k1, k2, k3, ?_, k4⟩
  · rw [hsame, hsame]
    exact u2
  · intro h
    rw [hsame]
    exact u3 (fun c hc => by rw [← hdig]; exact h c hc)
  · rw [hsame, hsame, hsame]
    exact u4
  · intro h
    exact k3 (fun c hc => unicodeIsDigitIn_ascii nd c (h c hc))

/-- A run of C24 on two pieces of a punctuated number, the second with a digit that is not
ASCII. -/
theorem keepOnlyNumbers_filter_laws_witness :
    keepOnlyNumbers ("12.3" ++ "4-٠") = keepOnlyNumbers "12.3" ++ keepOnlyNumbers "4-٠" ∧
      keepOnlyNumbers "12.3" ++ keepOnlyNumbers "4-٠" = "1234٠" :=
  ⟨(keepOnlyNumbers_filter_laws unicodeNd "12.3" "4-٠").1.2.2.2, by decide⟩

/-! ## `keepOnlyNumbers` on bytes

The embedding on bytes agrees with the embedding on strings for every well-formed string.
On bytes that are not well-formed UTF-8, which no caller passes, a rune cut in two by a
concatenation is seen on one side of the equation of concatenation only. -/

theorem utf8AppendRune_append (p : List Nat) (r : Nat) :
    utf8AppendRune p r = p ++ utf8AppendRune [] r := by
  unfold utf8AppendRune
  split_ifs <;> simp

theorem char_valid (c : Char) : c.toNat < 0xD800 ∨ (0xDFFF < c.toNat ∧ c.toNat < 0x110000) :=
  c.valid

theorem utf8Decode_one (n : Nat) (rest : List Nat) (h : n ≤ 0x7F) :
    utf8DecodeRuneInString (n :: rest) = (n, 1) := by
  have hf : utf8First n = none := by
    unfold utf8First
    split_ifs <;> first | rfl | omega
  have hlt : n < 0x80 := by omega
  simp [utf8DecodeRuneInString, hf, hlt]

theorem utf8Decode_two (n : Nat) (rest : List Nat) (h1 : 0x7F < n) (h2 : n ≤ 0x7FF) :
    utf8DecodeRuneInString ((0xC0 + n / 64) :: (0x80 + n % 64) :: rest) = (n, 2) := by
  have hf : utf8First (0xC0 + n / 64) = some (2, 0x80, 0xBF) := by
    unfold utf8First
    rw [if_pos (by omega)]
  have e1 : ¬ (0x80 + n % 64 < 0x80 ∨ 0xBF < 0x80 + n % 64) := by omega
  have e2 : (0xC0 + n / 64) % 32 * 64 + (0x80 + n % 64) % 64 = n := by omega
  simp only [utf8DecodeRuneInString, hf, List.length_cons, List.getD_cons_zero, e1, if_false,
    le_refl, if_true, e2]
  rw [if_neg (by omega)]

theorem utf8Decode_three (n : Nat) (rest : List Nat) (h1 : 0x7FF < n) (h2 : n ≤ 0xFFFF)
    (hs : ¬ (0xD800 ≤ n ∧ n ≤ 0xDFFF)) :
    utf8DecodeRuneInString
      ((0xE0 + n / 4096) :: (0x80 + n / 64 % 64) :: (0x80 + n % 64) :: rest) = (n, 3) := by
  have hf : ∃ lo hi, utf8First (0xE0 + n / 4096) = some (3, lo, hi) ∧
      ¬ (0x80 + n / 64 % 64 < lo ∨ hi < 0x80 + n / 64 % 64) := by
    unfold utf8First
    split_ifs <;> first
      | omega
      | exact ⟨_, _, rfl, by omega⟩
  obtain ⟨lo, hi, hf, e1⟩ := hf
  have e2 : ¬ (0x80 + n % 64 < 0x80 ∨ 0xBF < 0x80 + n % 64) := by omega
  have e3 : (0xE0 + n / 4096) % 16 * 4096 + (0x80 + n / 64 % 64) % 64 * 64
      + (0x80 + n % 64) % 64 = n := by omega
  simp only [utf8DecodeRuneInString, hf, List.length_cons, List.getD_cons_zero,
    List.getD_cons_succ, e1, e2, if_false, le_refl, if_true, e3]
  rw [if_neg (by omega), if_neg (by omega)]

theorem utf8Decode_four (n : Nat) (rest : List Nat) (h1 : 0xFFFF < n) (h2 : n < 0x110000) :
    utf8DecodeRuneInString
      ((0xF0 + n / 262144) :: (0x80 + n / 4096 % 64) :: (0x80 + n / 64 % 64) ::
        (0x80 + n % 64) :: rest)
      = (n, 4) := by
  have hf : ∃ lo hi, utf8First (0xF0 + n / 262144) = some (4, lo, hi) ∧
      ¬ (0x80 + n / 4096 % 64 < lo ∨ hi < 0x80 + n / 4096 % 64) := by
    unfold utf8First
    split_ifs <;> first
      | omega
      | exact ⟨_, _, rfl, by omega⟩
  obtain ⟨lo, hi, hf, e1⟩ := hf
  have e2 : ¬ (0x80 + n / 64 % 64 < 0x80 ∨ 0xBF < 0x80 + n / 64 % 64) := by omega
  have e2' : ¬ (0x80 + n % 64 < 0x80 ∨ 0xBF < 0x80 + n % 64) := by omega
  have e3 : (0xF0 + n / 262144) % 8 * 262144 + (0x80 + n / 4096 % 64) % 64 * 4096
      + (0x80 + n / 64 % 64) % 64 * 64 + (0x80 + n % 64) % 64 = n := by omega
  simp only [utf8DecodeRuneInString, hf, List.length_cons, List.getD_cons_zero,
    List.getD_cons_succ, e1, e2, e2', if_false, e3]
  rw [if_neg (by omega), if_neg (by omega), if_neg (by omega)]

/-- Writing a character and reading it back: the loop at the encoding of `c` tests `c` and
goes on after the encoding. -/
theorem keepOnlyNumbersLoop_char (c : Char) (rest builder : List Nat) :
    keepOnlyNumbersLoop (utf8AppendRune [] c.toNat ++ rest) 0 builder =
      keepOnlyNumbersLoop rest 0
        (if unicodeIsDigit c then builder ++ utf8AppendRune [] c.toNat else builder) := by
  have hv := char_valid c
  have hc : Char.ofNat c.toNat = c := Char.ofNat_toNat c
  generalize hn : c.toNat = n at hv hc
  rw [← utf8AppendRune_append builder n]
  by_cases h1 : n ≤ 0x7F
  · have e : utf8AppendRune [] n = [n] := by simp [utf8AppendRune, h1]
    rw [e]
    show keepOnlyNumbersLoop (n :: rest) 0 builder = _
    simp only [keepOnlyNumbersLoop, utf8Decode_one n rest h1, hc]
  · by_cases h2 : n ≤ 0x7FF
    · have e : utf8AppendRune [] n = [0xC0 + n / 64, 0x80 + n % 64] := by
        simp [utf8AppendRune, h1, h2]
      rw [e]
      show keepOnlyNumbersLoop ((0xC0 + n / 64) :: (0x80 + n % 64) :: rest) 0 builder = _
      simp only [keepOnlyNumbersLoop, utf8Decode_two n rest (by omega) h2, hc]
    · by_cases h3 : n ≤ 0xFFFF
      · have hs : ¬ (0x10FFFF < n ∨ (0xD800 ≤ n ∧ n ≤ 0xDFFF)) := by omega
        have e : utf8AppendRune [] n =
            [0xE0 + n / 4096, 0x80 + n / 64 % 64, 0x80 + n % 64] := by
          simp only [utf8AppendRune, h1, h2, hs, h3, if_false, if_true, List.nil_append]
        rw [e]
        show keepOnlyNumbersLoop
          ((0xE0 + n / 4096) :: (0x80 + n / 64 % 64) :: (0x80 + n % 64) :: rest) 0 builder = _
        simp only [keepOnlyNumbersLoop,
          utf8Decode_three n rest (by omega) h3 (by omega), hc]
      · have hs : ¬ (0x10FFFF < n ∨ (0xD800 ≤ n ∧ n ≤ 0xDFFF)) := by omega
        have e : utf8AppendRune [] n =
            [0xF0 + n / 262144, 0x80 + n / 4096 % 64, 0x80 + n / 64 % 64, 0x80 + n % 64] := by
          simp only [utf8AppendRune, h1, h2, hs, h3, if_false, List.nil_append]
        rw [e]
        show keepOnlyNumbersLoop
          ((0xF0 + n / 262144) :: (0x80 + n / 4096 % 64) :: (0x80 + n / 64 % 64) ::
            (0x80 + n % 64) :: rest) 0 builder = _
        simp only [keepOnlyNumbersLoop, utf8Decode_four n rest (by omega) (by omega), hc]

/-- The bytes of the characters of a list, as in `stringBytes`. -/
theorem stringBytes_cons (c : Char) (cs : List Char) :
    stringBytes (String.mk (c :: cs)) = utf8AppendRune [] c.toNat ++ stringBytes (String.mk cs) :=
  rfl

theorem stringBytes_append (a b : String) : stringBytes (a ++ b) = stringBytes a ++ stringBytes b := by
  obtain ⟨a⟩ := a
  obtain ⟨b⟩ := b
  show stringBytes (String.mk (a ++ b)) = _
  induction a with
  | nil => rfl
  | cons c cs ih =>
    show stringBytes (String.mk (c :: (cs ++ b))) = _
    rw [stringBytes_cons, stringBytes_cons, ih, List.append_assoc]

/-- On the bytes of a well-formed string the loop appends the encoding of the digits. -/
theorem keepOnlyNumbersLoop_stringBytes (cs : List Char) (rest builder : List Nat) :
    keepOnlyNumbersLoop (stringBytes (String.mk cs) ++ rest) 0 builder =
      keepOnlyNumbersLoop rest 0
        (builder ++ stringBytes (String.mk (cs.filter unicodeIsDigit))) := by
  induction cs generalizing builder with
  | nil => simp [stringBytes]
  | cons c cs ih =>
    rw [stringBytes_cons, List.append_assoc, keepOnlyNumbersLoop_char, ih]
    by_cases hd : unicodeIsDigit c = true
    · simp only [hd, if_true, List.filter_cons_of_pos, stringBytes_cons, List.append_assoc]
    · simp only [hd, if_false, Bool.false_eq_true]
      rw [List.filter_cons_of_neg hd]

/-- The byte model agrees with the model on well-formed strings. -/
theorem keepOnlyNumbersBytes_stringBytes (s : String) :
    keepOnlyNumbersBytes (stringBytes s) = stringBytes (keepOnlyNumbers s) := by
  have h := keepOnlyNumbersLoop_stringBytes s.data [] []
  rw [List.append_nil, List.nil_append] at h
  rw [keepOnlyNumbers_eq_filter]
  exact h

/-- A rune that `unicode.IsDigit` accepts is a character. -/
theorem toNat_ofNat_of_isDigit (r : Nat) (h : unicodeIsDigit (Char.ofNat r) = true) :
    (Char.ofNat r).toNat = r := by
  by_cases hv : r.isValidChar
  · simp only [Char.ofNat, hv, dif_pos, Char.ofNatAux, Char.toNat, UInt32.toNat]
    rfl
  · exfalso
    have : Char.ofNat r = Char.ofNat 0 := by
      simp only [Char.ofNat, hv, dif_neg, not_false_eq_true]
      rfl
    rw [this] at h
    revert h
    decide

/-- Whatever the bytes, the loop appends the encoding of a list of digits. -/
theorem keepOnlyNumbersLoop_digits (input : List Nat) (skip : Nat) (builder : List Nat) :
    ∃ ds : List Char, (∀ c ∈ ds, unicodeIsDigit c = true) ∧
      keepOnlyNumbersLoop input skip builder = builder ++ stringBytes (String.mk ds) := by
  induction input generalizing skip builder with
  | nil => exact ⟨[], by simp, by simp [keepOnlyNumbersLoop, stringBytes]⟩
  | cons s0 rest ih =>
    cases skip with
    | succ k => exact ih k builder
    | zero =>
      simp only [keepOnlyNumbersLoop]
      by_cases hd : unicodeIsDigit (Char.ofNat (utf8DecodeRuneInString (s0 :: rest)).1) = true
      · obtain ⟨ds, h1, h2⟩ := ih ((utf8DecodeRuneInString (s0 :: rest)).2 - 1)
          (utf8AppendRune builder (utf8DecodeRuneInString (s0 :: rest)).1)
        refine ⟨Char.ofNat (utf8DecodeRuneInString (s0 :: rest)).1 :: ds, ?_, ?_⟩
        · intro c hc
          rcases List.mem_cons.mp hc with rfl | hc
          · exact hd
          · exact h1 c hc
        · rw [if_pos hd, h2, stringBytes_cons, toNat_ofNat_of_isDigit _ hd,
            utf8AppendRune_append, List.append_assoc]
      · obtain ⟨ds, h1, h2⟩ := ih ((utf8DecodeRuneInString (s0 :: rest)).2 - 1) builder
        exact ⟨ds, h1, by rw [if_neg hd, h2]⟩

theorem keepOnlyNumbers_of_all_digits (s : String) (h : ∀ c ∈ s.data, unicodeIsDigit c = true) :
    keepOnlyNumbers s = s := by
  rw [keepOnlyNumbers_eq_filter, List.filter_eq_self.mpr h]

/-- The function is idempotent on every sequence of bytes. -/
theorem keepOnlyNumbersBytes_idempotent (input : List Nat) :
    keepOnlyNumbersBytes (keepOnlyNumbersBytes input) = keepOnlyNumbersBytes input := by
  obtain ⟨ds, h1, h2⟩ := keepOnlyNumbersLoop_digits input 0 []
  rw [List.nil_append] at h2
  unfold keepOnlyNumbersBytes
  rw [h2]
  show keepOnlyNumbersBytes (stringBytes (String.mk ds)) = _
  rw [keepOnlyNumbersBytes_stringBytes, keepOnlyNumbers_of_all_digits _ h1]

/-- Bytes that are not well-formed UTF-8: the string of the one byte `0xD9` and the string
of the one byte `0xA0` each decode to `utf8.RuneError` and `keepOnlyNumbersBytes` returns
the empty string for both; their concatenation is the encoding of U+0660 (ARABIC-INDIC DIGIT
ZERO), which `unicode.IsDigit` accepts, and `keepOnlyNumbersBytes` returns it whole. -/
theorem keepOnlyNumbers_concat_of_split_rune :
    keepOnlyNumbersBytes [0xD9] = [] ∧ keepOnlyNumbersBytes [0xA0] = [] ∧
      keepOnlyNumbersBytes ([0xD9] ++ [0xA0]) = [0xD9, 0xA0] ∧
      unicodeIsDigit (Char.ofNat 0x660) = true ∧ stringBytes "٠" = [0xD9, 0xA0] ∧
      keepOnlyNumbersBytes ([0xD9] ++ [0xA0]) ≠
        keepOnlyNumbersBytes [0xD9] ++ keepOnlyNumbersBytes [0xA0] := by
  decide

end Domain
